import Mathlib

/-!
# Shallow embedding of the `frozenpeach-dev/dhcp` DHCPv4 server core

This file embeds, in Lean, the parts of the Rust source that the
specification claims talk about:

* the option codec (`src/packet/dhcp_options.rs`),
* the packet codec (`src/packet/dhcp_packet.rs`),
* the per-subnet allocator (`src/leases/ip_subnet.rs`),
* the static allocator (`src/allocators/static_alloc/static_allocator.rs`),
* the transaction manager (`src/transactions/manager.rs`, `transaction.rs`).

Machine integers are modelled as `Nat` with explicit `% 2 ^ 32` (resp.
`% 256`) where the Rust code relies on wrapping, strings as their UTF-8
byte lists, and fallible or non-terminating Rust code through the
three-valued result type `RRes` below.  Rust `HashSet` / `HashMap`
containers are modelled as insertion-ordered association lists (Rust's
iteration order is unspecified; insertion order is one admissible order).
-/

/-- Result of running a piece of Rust code: a normal value, a panic
(failed `unwrap`, out-of-range slice index, arithmetic overflow in a
debug build), or a loop that never terminates. -/
inductive RRes (α : Type) where
  | ok (a : α)
  | panicked
  | diverged
deriving DecidableEq, Repr

/-- `byteorder::BigEndian::read_u32` on the first four bytes of a buffer.
Rust panics when the buffer is shorter than 4 bytes; every call site below
performs that length check itself and returns `RRes.panicked`. -/
def readU32BE (l : List Nat) : Nat :=
  ((l.getD 0 0 * 256 + l.getD 1 0) * 256 + l.getD 2 0) * 256 + l.getD 3 0

/-- `byteorder::BigEndian::read_u16` on the first two bytes of a buffer. -/
def readU16BE (l : List Nat) : Nat :=
  l.getD 0 0 * 256 + l.getD 1 0

/-- `u32::from_le_bytes` on the first four bytes of a buffer. -/
def readU32LE (l : List Nat) : Nat :=
  l.getD 0 0 + 256 * (l.getD 1 0 + 256 * (l.getD 2 0 + 256 * l.getD 3 0))

/-- `u16::from_le_bytes` on the first two bytes of a buffer. -/
def readU16LE (l : List Nat) : Nat :=
  l.getD 0 0 + 256 * l.getD 1 0

/-- `u32::to_be_bytes`. -/
def toBE32 (n : Nat) : List Nat :=
  [n / 2 ^ 24 % 256, n / 2 ^ 16 % 256, n / 2 ^ 8 % 256, n % 256]

/-- `u16::to_be_bytes`. -/
def toBE16 (n : Nat) : List Nat :=
  [n / 2 ^ 8 % 256, n % 256]

/-- A list of `Nat` that really consists of bytes. -/
def byteValid (l : List Nat) : Prop := ∀ b ∈ l, b < 256

instance : DecidablePred byteValid := by
  intro l
  unfold byteValid
  infer_instance

/-- Is `b` a UTF-8 continuation byte (`0x80 ..= 0xBF`)?  Part of the model
of the validity check done by Rust `String::from_utf8`. -/
def utf8Cont (b : Nat) : Bool := 128 ≤ b && b ≤ 191

/-- Model of the validity check of Rust `String::from_utf8` (strict UTF-8:
no overlong forms, no surrogates, code points at most `0x10FFFF`). -/
def validUtf8 : List Nat → Bool
  | [] => true
  | b :: rest =>
    if b ≤ 127 then validUtf8 rest
    else if 194 ≤ b && b ≤ 223 then
      match rest with
      | c1 :: rest2 => utf8Cont c1 && validUtf8 rest2
      | [] => false
    else if b = 224 then
      match rest with
      | c1 :: c2 :: rest2 => (160 ≤ c1 && c1 ≤ 191) && utf8Cont c2 && validUtf8 rest2
      | _ => false
    else if 225 ≤ b && b ≤ 236 then
      match rest with
      | c1 :: c2 :: rest2 => utf8Cont c1 && utf8Cont c2 && validUtf8 rest2
      | _ => false
    else if b = 237 then
      match rest with
      | c1 :: c2 :: rest2 => (128 ≤ c1 && c1 ≤ 159) && utf8Cont c2 && validUtf8 rest2
      | _ => false
    else if 238 ≤ b && b ≤ 239 then
      match rest with
      | c1 :: c2 :: rest2 => utf8Cont c1 && utf8Cont c2 && validUtf8 rest2
      | _ => false
    else if b = 240 then
      match rest with
      | c1 :: c2 :: c3 :: rest2 =>
          (144 ≤ c1 && c1 ≤ 191) && utf8Cont c2 && utf8Cont c3 && validUtf8 rest2
      | _ => false
    else if 241 ≤ b && b ≤ 243 then
      match rest with
      | c1 :: c2 :: c3 :: rest2 =>
          utf8Cont c1 && utf8Cont c2 && utf8Cont c3 && validUtf8 rest2
      | _ => false
    else if b = 244 then
      match rest with
      | c1 :: c2 :: c3 :: rest2 =>
          (128 ≤ c1 && c1 ≤ 143) && utf8Cont c2 && utf8Cont c3 && validUtf8 rest2
      | _ => false
    else false

/-- `_parse_string_type` (`dhcp_options.rs`):
`String::from_utf8(bytes.to_vec()).unwrap_or_default()` — the bytes when
they are valid UTF-8, the empty string otherwise, always `Some`. -/
def parseStringType (bytes : List Nat) : Option (List Nat) :=
  some (if validUtf8 bytes then bytes else [])

/-- `_parse_ipv4_type` (`dhcp_options.rs`): `None` on fewer than 4 bytes,
otherwise the big-endian `u32` of the first four bytes. -/
def parseIpv4Type (bytes : List Nat) : Option Nat :=
  if bytes.length < 4 then none else some (readU32BE bytes)

/-- Fuel-indexed model of the loop of `_parse_ipv4_list_type`
(`dhcp_options.rs`):

```rust
while !bytes.is_empty() {
    if bytes.len() < 4 { break; }
    let ip_bytes = bytes.get(..4).unwrap();
    let ip = Ipv4Addr::from(BigEndian::read_u32(ip_bytes));
    ip_list.push(ip);
}
```

The loop body never modifies `bytes`, so one iteration is replayed with
the same state forever once `bytes.len() ≥ 4`.  `none` means the fuel ran
out; `parseIpv4ListFuel_none_of_four_le` below proves that on a buffer of
at least 4 bytes the fuel runs out for *every* fuel value, i.e. the Rust
loop does not terminate. -/
def parseIpv4ListFuel : Nat → List Nat → List Nat → Option (List Nat)
  | 0, _, _ => none
  | fuel + 1, bytes, ip_list =>
    if bytes.isEmpty then some ip_list
    else if bytes.length < 4 then some ip_list
    else parseIpv4ListFuel fuel bytes (ip_list ++ [readU32BE bytes])

/-- `DhcpOptions` (`dhcp_options.rs`).  One slot per supported RFC 2132
option; `defined_options` models the Rust `HashSet<u8>` as an
insertion-ordered duplicate-free list, `output_order` the
`Option<VecDeque<u8>>`.  Strings are kept as their UTF-8 bytes, IPv4
addresses as their `u32` value. -/
structure DhcpOptions where
  output_order : Option (List Nat)
  defined_options : List Nat
  subnet_mask : Option Nat
  router_option : Option (List Nat)
  time_server : Option (List Nat)
  name_server : Option (List Nat)
  log_server : Option (List Nat)
  hostname : Option (List Nat)
  domain_name : Option (List Nat)
  broadcast_addr : Option Nat
  requested_ip : Option Nat
  lease_time : Option Nat
  message_type : Option Nat
  server_identifier : Option Nat
  parameter_request : Option (List Nat)
  renewal_time : Option Nat
  rebinding_time : Option Nat
  client_identifier : Option (List Nat)
  interface_mtu : Option Nat
  ntp_servers : Option (List Nat)
  wpad : Option (List Nat)
deriving DecidableEq, Repr

/-- `HashSet::insert`, with iteration order modelled as insertion order. -/
def hsInsert (s : List Nat) (x : Nat) : List Nat :=
  if x ∈ s then s else s ++ [x]

/-- `DhcpOptions::new`. -/
def DhcpOptions.new : DhcpOptions where
  output_order := none
  defined_options := []
  subnet_mask := none
  router_option := none
  time_server := none
  name_server := none
  log_server := none
  hostname := none
  domain_name := none
  broadcast_addr := none
  requested_ip := none
  lease_time := none
  message_type := none
  server_identifier := none
  parameter_request := none
  renewal_time := none
  rebinding_time := none
  client_identifier := none
  interface_mtu := none
  ntp_servers := none
  wpad := none

/-- `DhcpOptions::set_subnet_mask` (defines option 1). -/
def DhcpOptions.set_subnet_mask (o : DhcpOptions) (v : Option Nat) : DhcpOptions :=
  { o with defined_options := hsInsert o.defined_options 1, subnet_mask := v }

/-- `DhcpOptions::set_router_option` (defines option 3). -/
def DhcpOptions.set_router_option (o : DhcpOptions) (v : Option (List Nat)) : DhcpOptions :=
  { o with defined_options := hsInsert o.defined_options 3, router_option := v }

/-- `DhcpOptions::set_time_server` (defines option 4). -/
def DhcpOptions.set_time_server (o : DhcpOptions) (v : Option (List Nat)) : DhcpOptions :=
  { o with defined_options := hsInsert o.defined_options 4, time_server := v }

/-- `DhcpOptions::set_name_server` (defines option 5). -/
def DhcpOptions.set_name_server (o : DhcpOptions) (v : Option (List Nat)) : DhcpOptions :=
  { o with defined_options := hsInsert o.defined_options 5, name_server := v }

/-- `DhcpOptions::set_log_server` (defines option 7). -/
def DhcpOptions.set_log_server (o : DhcpOptions) (v : Option (List Nat)) : DhcpOptions :=
  { o with defined_options := hsInsert o.defined_options 7, log_server := v }

/-- `DhcpOptions::set_hostname` (defines option 12). -/
def DhcpOptions.set_hostname (o : DhcpOptions) (v : Option (List Nat)) : DhcpOptions :=
  { o with defined_options := hsInsert o.defined_options 12, hostname := v }

/-- `DhcpOptions::set_domain_name` (defines option 15). -/
def DhcpOptions.set_domain_name (o : DhcpOptions) (v : Option (List Nat)) : DhcpOptions :=
  { o with defined_options := hsInsert o.defined_options 15, domain_name := v }

/-- `DhcpOptions::set_interface_mtu` (defines option 26). -/
def DhcpOptions.set_interface_mtu (o : DhcpOptions) (v : Option Nat) : DhcpOptions :=
  { o with defined_options := hsInsert o.defined_options 26, interface_mtu := v }

/-- `DhcpOptions::set_broadcast_addr` (defines option 28). -/
def DhcpOptions.set_broadcast_addr (o : DhcpOptions) (v : Option Nat) : DhcpOptions :=
  { o with defined_options := hsInsert o.defined_options 28, broadcast_addr := v }

/-- `DhcpOptions::set_ntp_servers` (defines option 42). -/
def DhcpOptions.set_ntp_servers (o : DhcpOptions) (v : Option (List Nat)) : DhcpOptions :=
  { o with defined_options := hsInsert o.defined_options 42, ntp_servers := v }

/-- `DhcpOptions::set_requested_ip` (defines option 50). -/
def DhcpOptions.set_requested_ip (o : DhcpOptions) (v : Option Nat) : DhcpOptions :=
  { o with defined_options := hsInsert o.defined_options 50, requested_ip := v }

/-- `DhcpOptions::set_lease_time` (defines option 51). -/
def DhcpOptions.set_lease_time (o : DhcpOptions) (v : Option Nat) : DhcpOptions :=
  { o with defined_options := hsInsert o.defined_options 51, lease_time := v }

/-- `DhcpOptions::set_message_type` (defines option 53). -/
def DhcpOptions.set_message_type (o : DhcpOptions) (v : Option Nat) : DhcpOptions :=
  { o with defined_options := hsInsert o.defined_options 53, message_type := v }

/-- `DhcpOptions::set_server_identifier` (defines option 54). -/
def DhcpOptions.set_server_identifier (o : DhcpOptions) (v : Option Nat) : DhcpOptions :=
  { o with defined_options := hsInsert o.defined_options 54, server_identifier := v }

/-- `DhcpOptions::add_parameter_request` (defines option 55, appends). -/
def DhcpOptions.add_parameter_request (o : DhcpOptions) (x : Nat) : DhcpOptions :=
  { o with defined_options := hsInsert o.defined_options 55,
           parameter_request :=
             match o.parameter_request with
             | some l => some (l ++ [x])
             | none => some [x] }

/-- `DhcpOptions::set_renewal_time` (defines option 58). -/
def DhcpOptions.set_renewal_time (o : DhcpOptions) (v : Option Nat) : DhcpOptions :=
  { o with defined_options := hsInsert o.defined_options 58, renewal_time := v }

/-- `DhcpOptions::set_rebinding_time` (defines option 59). -/
def DhcpOptions.set_rebinding_time (o : DhcpOptions) (v : Option Nat) : DhcpOptions :=
  { o with defined_options := hsInsert o.defined_options 59, rebinding_time := v }

/-- `DhcpOptions::set_client_identifier` (defines option 61). -/
def DhcpOptions.set_client_identifier (o : DhcpOptions) (v : Option (List Nat)) : DhcpOptions :=
  { o with defined_options := hsInsert o.defined_options 61, client_identifier := v }

/-- `DhcpOptions::set_wpad` — note that, unlike every other setter, the
Rust source does *not* insert code 252 into `defined_options`. -/
def DhcpOptions.set_wpad (o : DhcpOptions) (v : Option (List Nat)) : DhcpOptions :=
  { o with wpad := v }

/-- The main loop of `impl From<&[u8]> for DhcpOptions` (`dhcp_options.rs`).

Each iteration pops the option code (`data.remove(0)` — codes 0 and 255
are *skipped*, neither terminates the scan), pops the length byte
(`data.remove(0)` panics when `data` is already empty), stops returning
the partial record when fewer than `len` bytes remain, and otherwise
drains the `len`-byte payload and dispatches on the code.  The calls into
`_parse_ipv4_list_type` (codes 4, 5 and 42) are made with fuel 2: the
Rust loop either returns during its first iteration or never returns
(its state never changes — see `parseIpv4ListFuel_none_of_four_le`), so
fuel 2 separates the two outcomes exactly, `none` marking divergence.
Code 53 ignores the length byte and consumes exactly one byte
(`data.first().unwrap()`, a panic when `data` is empty); codes 51, 54, 58
and 59 feed the drained payload to `BigEndian::read_u32`, which panics on
fewer than 4 bytes, and code 26 to `read_u16`, which panics on fewer
than 2. -/
def decodeLoop (data : List Nat) (options : DhcpOptions) : RRes DhcpOptions :=
  match data with
  | [] => .ok options
  | opt_code :: data1 =>
    if opt_code = 0 ∨ opt_code = 255 then decodeLoop data1 options
    else
      match data1 with
      | [] => .panicked
      | len :: data2 =>
        if data2.length < len then .ok options
        else
          let raw := data2.take len
          let rest := data2.drop len
          if opt_code = 1 then
            decodeLoop rest (options.set_subnet_mask (parseIpv4Type raw))
          else if opt_code = 4 then
            match parseIpv4ListFuel 2 raw [] with
            | none => .diverged
            | some l => decodeLoop rest (options.set_time_server (some l))
          else if opt_code = 5 then
            match parseIpv4ListFuel 2 raw [] with
            | none => .diverged
            | some l => decodeLoop rest (options.set_name_server (some l))
          else if opt_code = 12 then
            decodeLoop rest (options.set_hostname (parseStringType raw))
          else if opt_code = 15 then
            decodeLoop rest (options.set_domain_name (parseStringType raw))
          else if opt_code = 26 then
            if raw.length < 2 then .panicked
            else decodeLoop rest (options.set_interface_mtu (some (readU16BE raw)))
          else if opt_code = 28 then
            decodeLoop rest (options.set_broadcast_addr (parseIpv4Type raw))
          else if opt_code = 42 then
            match parseIpv4ListFuel 2 raw [] with
            | none => .diverged
            | some l => decodeLoop rest (options.set_time_server (some l))
          else if opt_code = 50 then
            decodeLoop rest (options.set_requested_ip (parseIpv4Type raw))
          else if opt_code = 51 then
            if raw.length < 4 then .panicked
            else decodeLoop rest (options.set_lease_time (some (readU32BE raw)))
          else if opt_code = 53 then
            match data2 with
            | [] => .panicked
            | dhcp_code :: rest53 =>
              if 9 < dhcp_code then .ok options
              else decodeLoop rest53 (options.set_message_type (some dhcp_code))
          else if opt_code = 54 then
            if raw.length < 4 then .panicked
            else decodeLoop rest (options.set_server_identifier (some (readU32BE raw)))
          else if opt_code = 55 then
            decodeLoop rest (raw.foldl DhcpOptions.add_parameter_request options)
          else if opt_code = 58 then
            if raw.length < 4 then .panicked
            else decodeLoop rest (options.set_renewal_time (some (readU32BE raw)))
          else if opt_code = 59 then
            if raw.length < 4 then .panicked
            else decodeLoop rest (options.set_rebinding_time (some (readU32BE raw)))
          else if opt_code = 61 then
            decodeLoop rest (options.set_client_identifier (some raw))
          else if opt_code = 252 then
            decodeLoop rest (options.set_wpad (parseStringType raw))
          else
            decodeLoop rest options
termination_by data.length
decreasing_by
  all_goals simp_all [List.length_drop]
  all_goals omega

/-- `DhcpOptions::from(&[u8])`. -/
def dhcpOptionsFromBytes (value : List Nat) : RRes DhcpOptions :=
  decodeLoop value DhcpOptions.new

/-- `_format_ipv4` (`dhcp_options.rs`): `u32::to_be_bytes`. -/
def formatIpv4 (addr : Nat) : List Nat := toBE32 addr

/-- `_format_ipv4_list` (`dhcp_options.rs`). -/
def formatIpv4List (addrs : List Nat) : List Nat :=
  (addrs.map formatIpv4).flatten

/-- `_append_option` (`dhcp_options.rs`): the bytes pushed for one option
code, starting with the code byte itself.  `.panicked` models the
`unwrap()` of an absent field.  Note the Rust bugs kept verbatim: codes
28 and 50 push length byte `2` followed by *four* address bytes, code 42
reads `time_server` (not `ntp_servers`), and an unhandled code pushes the
bare code byte with no length.  `Vec::push(bytes.len() as u8)` truncates
the length to a byte, hence the `% 256`. -/
def appendOption (option_code : Nat) (o : DhcpOptions) : RRes (List Nat) :=
  if option_code = 1 then
    match o.subnet_mask with
    | none => .panicked
    | some m => .ok ([1, 4] ++ formatIpv4 m)
  else if option_code = 4 then
    match o.time_server with
    | none => .panicked
    | some l => .ok ([4, (formatIpv4List l).length % 256] ++ formatIpv4List l)
  else if option_code = 5 then
    match o.name_server with
    | none => .panicked
    | some l => .ok ([5, (formatIpv4List l).length % 256] ++ formatIpv4List l)
  else if option_code = 12 then
    match o.hostname with
    | none => .panicked
    | some s => .ok ([12, s.length % 256] ++ s)
  else if option_code = 15 then
    match o.domain_name with
    | none => .panicked
    | some s => .ok ([15, s.length % 256] ++ s)
  else if option_code = 26 then
    match o.interface_mtu with
    | none => .panicked
    | some v => .ok ([26, 2] ++ toBE16 v)
  else if option_code = 28 then
    match o.broadcast_addr with
    | none => .panicked
    | some b => .ok ([28, 2] ++ formatIpv4 b)
  else if option_code = 42 then
    match o.time_server with
    | none => .panicked
    | some l => .ok ([42, (formatIpv4List l).length % 256] ++ formatIpv4List l)
  else if option_code = 50 then
    match o.requested_ip with
    | none => .panicked
    | some r => .ok ([50, 2] ++ formatIpv4 r)
  else if option_code = 51 then
    match o.lease_time with
    | none => .panicked
    | some v => .ok ([51, 4] ++ toBE32 v)
  else if option_code = 53 then
    match o.message_type with
    | none => .panicked
    | some v => .ok [53, 1, v]
  else if option_code = 54 then
    match o.server_identifier with
    | none => .panicked
    | some v => .ok ([54, 4] ++ toBE32 v)
  else if option_code = 55 then
    match o.parameter_request with
    | none => .panicked
    | some l => .ok ([55, l.length % 256] ++ l)
  else if option_code = 58 then
    match o.renewal_time with
    | none => .panicked
    | some v => .ok ([58, 4] ++ toBE32 v)
  else if option_code = 59 then
    match o.rebinding_time with
    | none => .panicked
    | some v => .ok ([59, 4] ++ toBE32 v)
  else if option_code = 61 then
    match o.client_identifier with
    | none => .panicked
    | some l => .ok ([61, l.length % 256] ++ l)
  else if option_code = 252 then
    match o.wpad with
    | none => .panicked
    | some s => .ok ([252, s.length % 256] ++ s)
  else
    .ok [option_code]

/-- Emit `_append_option` chunks for a list of codes, propagating a panic. -/
def encodeChunks (codes : List Nat) (o : DhcpOptions) : RRes (List Nat) :=
  match codes with
  | [] => .ok []
  | c :: cs =>
    match appendOption c o with
    | .panicked => .panicked
    | .diverged => .diverged
    | .ok chunk =>
      match encodeChunks cs o with
      | .panicked => .panicked
      | .diverged => .diverged
      | .ok rest => .ok (chunk ++ rest)

/-- `impl From<DhcpOptions> for Vec<u8>` (`dhcp_options.rs`): first the
codes of `output_order` (collected into `in_output`), then the remaining
`defined_options` (insertion order models the unspecified `HashSet`
iteration order), then the terminating `0xFF`. -/
def encodeOptions (o : DhcpOptions) : RRes (List Nat) :=
  let in_output := match o.output_order with
    | some q => q
    | none => []
  match encodeChunks in_output o with
  | .panicked => .panicked
  | .diverged => .diverged
  | .ok buf1 =>
    match encodeChunks (o.defined_options.filter (fun x => ¬ x ∈ in_output)) o with
    | .panicked => .panicked
    | .diverged => .diverged
    | .ok buf2 => .ok (buf1 ++ buf2 ++ [255])

/-- Encode then decode again — the round trip of the claim
`decode(encode(o)) = o`, with a panic or divergence of the encoder
propagated. -/
def encodeThenDecode (o : DhcpOptions) : RRes DhcpOptions :=
  match encodeOptions o with
  | .panicked => .panicked
  | .diverged => .diverged
  | .ok bytes => dhcpOptionsFromBytes bytes

/-- The record decoded from a byte list, or `DhcpOptions::new` when
decoding does not return normally (used to state closed counterexamples). -/
def decodedOrNew (bytes : List Nat) : DhcpOptions :=
  match dhcpOptionsFromBytes bytes with
  | .ok o => o
  | _ => DhcpOptions.new

/-- One run of the index scan of `HardwareAddress::new` (`hw_addr.rs`):
advance `i` while `(*raw.get(i).unwrap() == 0) && (i < 9)`.  The `i < 9`
conjunct bounds the loop at 9 steps, encoded as the structural fuel
argument (`hwScan` below passes `9 - i`, the exact number of steps the
guard still allows). -/
def hwScanGo (rev : List Nat) : Nat → Nat → Nat
  | i, 0 => i
  | i, fuel + 1 => if rev.getD i 0 = 0 then hwScanGo rev (i + 1) fuel else i

/-- The full scan from index `i` (the source starts it at 0). -/
def hwScan (rev : List Nat) (i : Nat) : Nat :=
  hwScanGo rev i (9 - i)

/-- `HardwareAddress` (`hw_addr.rs`): 16 raw bytes plus the derived
`is_mac_address` flag. -/
structure HardwareAddress where
  is_mac_address : Bool
  raw : List Nat
deriving DecidableEq, Repr

/-- `HardwareAddress::new`: the flag is set when the scan over the
reversed array reaches index 9, i.e. when the trailing 9 bytes are 0. -/
def HardwareAddress.new (raw : List Nat) : HardwareAddress :=
  ⟨hwScan raw.reverse 0 = 9, raw⟩

/-- `HardwareAddress::broadcast`. -/
def HardwareAddress.broadcast : HardwareAddress :=
  HardwareAddress.new [15, 15, 15, 15, 15, 15, 0, 0, 0, 0, 0, 0, 0, 0, 0, 0]

/-- `Ipv4Addr::new(a, b, c, d)` as a `u32` value. -/
def ipv4New (a b c d : Nat) : Nat :=
  ((a * 256 + b) * 256 + c) * 256 + d

/-- `DhcpV4Packet` (`dhcp_packet.rs`).  IPv4 fields are `u32` values,
`secs` the whole number of seconds of the `Duration`, strings and byte
arrays are byte lists. -/
structure DhcpV4Packet where
  op : Nat
  htype : Nat
  hlen : Nat
  hops : Nat
  xid : Nat
  secs : Nat
  flags : List Nat
  ciaddr : Nat
  yiaddr : Nat
  siaddr : Nat
  giaddr : Nat
  chadd : HardwareAddress
  sname : List Nat
  file : List Nat
  options : DhcpOptions
deriving DecidableEq, Repr

/-- `DhcpV4Packet::from_raw_bytes` (`dhcp_packet.rs`).  The sequence of
`remove(0)` / `drain(..)` / `collect_tuple().unwrap()` calls consumes
exactly 240 header bytes (236-byte BOOTP header plus magic cookie); any
shorter input panics at one of those calls.  Note `xid` and `secs` are
read with `u32::from_le_bytes` / `u16::from_le_bytes` — little-endian —
while the four address fields go through `Ipv4Addr::new(a, b, c, d)` with
the bytes in wire order.  The remaining bytes feed the option decoder. -/
def DhcpV4Packet.from_raw_bytes (raw : List Nat) : RRes DhcpV4Packet :=
  if raw.length < 240 then .panicked
  else
    match dhcpOptionsFromBytes (raw.drop 240) with
    | .panicked => .panicked
    | .diverged => .diverged
    | .ok opts =>
      .ok
        { op := raw.getD 0 0
          htype := raw.getD 1 0
          hlen := raw.getD 2 0
          hops := raw.getD 3 0
          xid := readU32LE (raw.drop 4)
          secs := readU16LE (raw.drop 8)
          flags := (raw.drop 10).take 2
          ciaddr := ipv4New (raw.getD 12 0) (raw.getD 13 0) (raw.getD 14 0) (raw.getD 15 0)
          yiaddr := ipv4New (raw.getD 16 0) (raw.getD 17 0) (raw.getD 18 0) (raw.getD 19 0)
          siaddr := ipv4New (raw.getD 20 0) (raw.getD 21 0) (raw.getD 22 0) (raw.getD 23 0)
          giaddr := ipv4New (raw.getD 24 0) (raw.getD 25 0) (raw.getD 26 0) (raw.getD 27 0)
          chadd := HardwareAddress.new ((raw.drop 28).take 16)
          sname := (raw.drop 44).take 64
          file := (raw.drop 108).take 128
          options := opts }

/-- The parsed `xid` of a raw packet, `0` when parsing does not return
normally (used to state closed theorems about the header codec). -/
def parsedXid (raw : List Nat) : Nat :=
  match DhcpV4Packet.from_raw_bytes raw with
  | .ok p => p.xid
  | _ => 0

/-- The parsed `secs` of a raw packet, `0` when parsing does not return
normally. -/
def parsedSecs (raw : List Nat) : Nat :=
  match DhcpV4Packet.from_raw_bytes raw with
  | .ok p => p.secs
  | _ => 0

/-- `DhcpMessage` (`dhcp_packet.rs`). -/
inductive DhcpMessage where
  | dhcpDiscover (p : DhcpV4Packet)
  | dhcpRequest (p : DhcpV4Packet)
  | dhcpDecline (p : DhcpV4Packet)
  | dhcpRelease (p : DhcpV4Packet)
  | dhcpInform (p : DhcpV4Packet)
deriving DecidableEq, Repr

/-- `Ipv4Subnet` (`ip_subnet.rs`).  `pfx` models the CIDR `prefix` field
(`prefix` is a Lean keyword); the `HashMap<Ipv4Addr, usize>` of
force-allocations, whose values are always `1`, is modelled by its key
list in insertion order. -/
structure Ipv4Subnet where
  network_addr : Nat
  alloc_ptr : Nat
  released : List Nat
  force_allocated : List Nat
  pfx : Nat
  options : DhcpOptions
deriving DecidableEq, Repr

/-- `Ipv4Subnet::new`. -/
def Ipv4Subnet.new (network_addr : Nat) (pfx : Nat) : Ipv4Subnet :=
  ⟨network_addr, 1, [], [], pfx, DhcpOptions.new⟩

/-- `Ipv4Subnet::count`: `2 << (32 - prefix - 1)`, with the `u8`
subtraction and the `u32` shift modelled with the wrapping (release
build) semantics: `32 - prefix` and `- 1` wrap modulo `2 ^ 8`, the shift
amount is masked modulo 32, and the shifted value is truncated modulo
`2 ^ 32`.  On prefixes `[1, 31]` no wrap occurs and the value is
`2 ^ (32 - prefix)`; at prefix 32 the masked shift yields count 0 (so a
`/32` subnet never allocates), while a debug build panics there on the
`u8` underflow — the claim theorems only use prefixes in `[1, 31]`,
where both builds agree. -/
def Ipv4Subnet.count (s : Ipv4Subnet) : Nat :=
  let wc_bytes_count := (32 + 2 ^ 8 - s.pfx % 2 ^ 8) % 2 ^ 8
  2 <<< ((wc_bytes_count + (2 ^ 8 - 1)) % 2 ^ 8 % 32) % 2 ^ 32

/-- `Ipv4Subnet::broadcast`: `network | ((2 << (32 - prefix - 1)) - 1)`,
with the same wrapping (release build) semantics as `Ipv4Subnet.count`,
including the wrapping `u32` decrement (at prefixes 0 and 32 the shifted
value is 0 and the decrement wraps to `0xFFFFFFFF`; a debug build panics
there).  On prefixes `[1, 31]` no wrap occurs. -/
def Ipv4Subnet.broadcast (s : Ipv4Subnet) : Nat :=
  let wc_bytes_count := (32 + 2 ^ 8 - s.pfx % 2 ^ 8) % 2 ^ 8
  s.network_addr |||
    (2 <<< ((wc_bytes_count + (2 ^ 8 - 1)) % 2 ^ 8 % 32) % 2 ^ 32 + (2 ^ 32 - 1)) % 2 ^ 32

/-- `Ipv4Subnet::contains`. -/
def Ipv4Subnet.contains (s : Ipv4Subnet) (ip : Nat) : Bool :=
  decide (s.network_addr ≤ ip) && decide (ip ≤ s.broadcast)

/-- The boolean computed by `Ipv4Subnet::is_free` once the `u32`
subtraction `ip - network_addr` is known not to underflow.  (`ip` below
`network_addr` makes that subtraction panic in a debug build; Lean's
truncated `Nat` subtraction coincides with it on `network_addr ≤ ip`.) -/
def Ipv4Subnet.is_freeRaw (s : Ipv4Subnet) (ip : Nat) : Bool :=
  let cnt_from_nw := ip - s.network_addr
  s.contains ip && (decide (s.alloc_ptr ≤ cnt_from_nw) || s.released.contains ip)
    && !(s.force_allocated.contains ip)

/-- `Ipv4Subnet::is_free`, with the underflow panic made explicit. -/
def Ipv4Subnet.is_free (s : Ipv4Subnet) (ip : Nat) : RRes Bool :=
  if ip < s.network_addr then .panicked else .ok (s.is_freeRaw ip)

/-- `Ipv4Subnet::free`.  `Result<(), ()>` is modelled by the boolean
`ok?` in the first component; the state is returned unchanged on `Err`.
The `contains` guard runs first, so the inner `is_free` never hits the
underflow panic. -/
def Ipv4Subnet.free (s : Ipv4Subnet) (ip : Nat) : Bool × Ipv4Subnet :=
  if !(s.contains ip) then (false, s)
  else if s.is_freeRaw ip then (false, s)
  else (true, { s with released := s.released ++ [ip] })

/-- `Ipv4Subnet::free_static_alloc`. -/
def Ipv4Subnet.free_static_alloc (s : Ipv4Subnet) (ip : Nat) : Bool × Ipv4Subnet :=
  if !(s.force_allocated.contains ip) then (false, s)
  else (true, { s with force_allocated := s.force_allocated.filter (fun x => !(x == ip)) })

/-- `Ipv4Subnet::allocate`.  `Err(())` is `none`.  Note the guard is
`alloc_ptr > self.count()` — not `count − 1` — and the returned address
is `network + alloc_ptr` (a wrapping `u32` sum, hence `% 2 ^ 32`). -/
def Ipv4Subnet.allocate (s : Ipv4Subnet) : Option Nat × Ipv4Subnet :=
  if s.count < s.alloc_ptr && s.released.isEmpty then (none, s)
  else if !s.released.isEmpty then
    (some (s.released.getLastD 0), { s with released := s.released.dropLast })
  else
    (some ((s.network_addr + s.alloc_ptr) % 2 ^ 32), { s with alloc_ptr := s.alloc_ptr + 1 })

/-- `Ipv4Subnet::force_allocate`: `Err(())` when the address is not free;
the `is_free` call may panic (underflow) for addresses below the network
address. -/
def Ipv4Subnet.force_allocate (s : Ipv4Subnet) (ip : Nat) : RRes (Bool × Ipv4Subnet) :=
  match s.is_free ip with
  | .panicked => .panicked
  | .diverged => .diverged
  | .ok b =>
    if !b then .ok (false, s)
    else .ok (true, { s with force_allocated := hsInsert s.force_allocated ip })

/-- `TransactionState` (`transaction.rs`).  Each Rust constructor carries
a `String` that is always the constructor's own name; the payload is
dropped here.  `undef` models `Undefined`. -/
inductive TxState where
  | pending
  | waiting
  | requested
  | undef
  | bound
deriving DecidableEq, Repr

/-- `Transaction` (`transaction.rs`).  `start` is the `DateTime<Utc>`
timestamp in seconds, as an integer. -/
structure Transaction where
  state : TxState
  start : Int
  pending_lease_address : Nat
  uid : Nat
  xid : Nat
deriving DecidableEq, Repr

/-- `Transaction::init_new`. -/
def Transaction.init_new (transaction_id : Nat) (time : Int) : Transaction :=
  ⟨.undef, time, 0, 0, transaction_id⟩

/-- `Transaction::set_state`. -/
def Transaction.set_state (t : Transaction) (state : TxState) : Transaction :=
  { t with state := state }

/-- `Transaction::bind`. -/
def Transaction.bind (t : Transaction) (lease_address : Nat) : Transaction :=
  { t with pending_lease_address := lease_address }

/-- `Transaction::outdated`: `Utc::now() - start > Duration::seconds(30)`,
with the current instant passed explicitly. -/
def Transaction.outdated (t : Transaction) (now : Int) : Bool :=
  30 < now - t.start

/-- `LeaseV4` (`lease.rs`), reduced to the one field the embedded manager
operations can observe; the manager stores and deletes leases opaquely
and `LeaseData::from` is the identity on this model. -/
structure LeaseV4 where
  addr : Nat
deriving DecidableEq, Repr

/-- The `Data` enum stored in the runtime storage (`data/data.rs`):
transactions, leases and subnets. -/
inductive StoData where
  | transaction (t : Transaction)
  | lease (l : LeaseV4)
  | ipv4Subnet (s : Ipv4Subnet)
deriving DecidableEq, Repr

/-- The `Storable::set_uid` write performed by the storage on insertion:
transactions record their own storage address in `uid`. -/
def StoData.setUid (a : Nat) : StoData → StoData
  | .transaction t => .transaction { t with uid := a }
  | .lease l => .lease l
  | .ipv4Subnet s => .ipv4Subnet s

/-- Model of the external `fp_core` `RuntimeStorage` used by the manager
and the allocators (the crate is outside this repository; the model
follows the store/get/delete contract of spec §4.9): entries are
`(address, pool, datum)` triples, `store` hands out fresh addresses and
records its address into the datum (`Storable::set_uid`), `get` looks up
by address, `delete` removes by address *and* pool.  Fresh addresses
start at 1: the manager uses lease address 0 as its "no lease bound"
sentinel. -/
structure Storage where
  entries : List (Nat × String × StoData)
  next : Nat
deriving DecidableEq, Repr

/-- `RuntimeStorage::store`. -/
def Storage.store (st : Storage) (d : StoData) (pool : String) : Nat × Storage :=
  (st.next, ⟨(st.next, pool, d.setUid st.next) :: st.entries, st.next + 1⟩)

/-- `RuntimeStorage::get`. -/
def Storage.get (st : Storage) (a : Nat) : Option StoData :=
  (st.entries.find? (fun e => e.1 == a)).map (fun e => e.2.2)

/-- `RuntimeStorage::delete`. -/
def Storage.delete (st : Storage) (a : Nat) (pool : String) : Storage :=
  { st with entries := st.entries.filter (fun e => !(e.1 == a && e.2.1 == pool)) }

/-- The empty storage. -/
def Storage.empty : Storage := ⟨[], 1⟩

/-- `u32::count_ones`: the sum of the 32 bits of the value. -/
def countOnes (n : Nat) : Nat :=
  (List.range 32).foldl (fun acc i => acc + n / 2 ^ i % 2) 0

/-- `CidrSubnet` (`subnet_map.rs`); `pfx` models `prefix`. -/
structure CidrSubnet where
  network_addr : Nat
  pfx : Nat
deriving DecidableEq, Repr

/-- `SubnetV4Map` (`subnet_map.rs`): the `BTreeMap<CidrSubnet, u16>` of
storage addresses.  `Ord` on `CidrSubnet` compares `network_addr` only,
so lookups are keyed by network address alone; the shared storage is
passed explicitly to each operation. -/
structure SubnetV4Map where
  subnets : List (CidrSubnet × Nat)
deriving DecidableEq, Repr

/-- `SubnetV4Map::get_subnet`: address lookup in the tree (by the
`CidrSubnet` order, i.e. network address), then fetch from storage. -/
def SubnetV4Map.get_subnet (m : SubnetV4Map) (st : Storage) (subnet : CidrSubnet) :
    Option Ipv4Subnet :=
  match m.subnets.find? (fun e => e.1.network_addr == subnet.network_addr) with
  | none => none
  | some e =>
    match st.get e.2 with
    | some (.ipv4Subnet s) => some s
    | _ => none

/-- `SubnetV4Map::update_subnet`: `unwrap()` of the tree lookup (a panic
when the subnet was never inserted), delete the old storage entry, store
the new one, overwrite the tree value. -/
def SubnetV4Map.update_subnet (m : SubnetV4Map) (st : Storage) (subnet : Ipv4Subnet) :
    RRes (SubnetV4Map × Storage) :=
  let cidr : CidrSubnet := ⟨subnet.network_addr, subnet.pfx⟩
  match m.subnets.find? (fun e => e.1.network_addr == cidr.network_addr) with
  | none => .panicked
  | some e =>
    let st1 := st.delete e.2 "Subnetv4"
    let (new_address, st2) := st1.store (.ipv4Subnet subnet) "Subnetv4"
    .ok (⟨m.subnets.map (fun q =>
            if q.1.network_addr == cidr.network_addr then (q.1, new_address) else q)⟩, st2)

/-- `AllocationDraft` (`allocator.rs`). -/
structure AllocationDraft where
  ip_addr : Nat
  options : DhcpOptions
deriving DecidableEq, Repr

/-- `StaticAllocation` (`static_allocation.rs`). -/
structure StaticAllocation where
  cid : HardwareAddress
  ip_addr : Nat
  options : DhcpOptions
deriving DecidableEq, Repr

/-- `StaticAllocator` (`static_allocator.rs`): the subnet map, the
`HashMap<HardwareAddress, StaticAllocation>` registry (association list),
and the shared runtime storage the subnet map writes through. -/
structure StaticAllocator where
  subnet_map : SubnetV4Map
  registry : List (HardwareAddress × StaticAllocation)
  storage : Storage
deriving DecidableEq, Repr

/-- `HashMap::insert` keyed by `HardwareAddress`. -/
def registryInsert (l : List (HardwareAddress × StaticAllocation))
    (k : HardwareAddress) (v : StaticAllocation) :
    List (HardwareAddress × StaticAllocation) :=
  if (l.find? (fun e => e.1 == k)).isSome then
    l.map (fun e => if e.1 == k then (k, v) else e)
  else l ++ [(k, v)]

/-- `impl Allocator for StaticAllocator — fn allocate`
(`static_allocator.rs`).  Only DISCOVER and REQUEST are served.  The
client identifier (option 61) is truncated to 16 bytes by
`cidc[..16].try_into().unwrap()` — an out-of-bounds slice panic whenever
it is shorter than 16 bytes.  The function takes `&mut self` but never
writes through it; the second component of the result is the (unchanged)
allocator state. -/
def StaticAllocator.allocate (sa : StaticAllocator) (msg : DhcpMessage) :
    RRes (Option AllocationDraft) × StaticAllocator :=
  match msg with
  | .dhcpDiscover request | .dhcpRequest request =>
    (match request.options.client_identifier with
     | some cid =>
       if cid.length < 16 then (.panicked, sa)
       else
         let client_id := cid.take 16
         match sa.registry.find? (fun e => e.1 == HardwareAddress.new client_id) with
         | none => (.ok none, sa)
         | some e =>
           match e.2.options.requested_ip with
           | some ip_addr => (.ok (some ⟨ip_addr, e.2.options⟩), sa)
           | none => (.ok none, sa)
     | none => (.ok none, sa))
  | _ => (.ok none, sa)

/-- `StaticAllocator::register_static_allocation`: derive the owning
subnet from `requested_ip & subnet_mask` and `count_ones(subnet_mask)`,
`force_allocate` the address there, insert into the registry, write the
updated subnet back.  `Err(())` is `false`; the `force_allocate`
underflow panic and the `update_subnet` unwrap panic propagate. -/
def StaticAllocator.register_static_allocation (sa : StaticAllocator)
    (alloc : StaticAllocation) : RRes (Bool × StaticAllocator) :=
  match alloc.options.subnet_mask with
  | none => .ok (false, sa)
  | some subnet_mask =>
    match alloc.options.requested_ip with
    | none => .ok (false, sa)
    | some requested_ip =>
      let network_ip := requested_ip &&& subnet_mask
      let cidr : CidrSubnet := ⟨network_ip, countOnes subnet_mask⟩
      match sa.subnet_map.get_subnet sa.storage cidr with
      | none => .ok (false, sa)
      | some subnet =>
        match subnet.force_allocate requested_ip with
        | .panicked => .panicked
        | .diverged => .diverged
        | .ok (ok?, subnet2) =>
          if !ok? then .ok (false, sa)
          else
            let registry2 := registryInsert sa.registry alloc.cid alloc
            match sa.subnet_map.update_subnet sa.storage subnet2 with
            | .panicked => .panicked
            | .diverged => .diverged
            | .ok (map2, st2) =>
              .ok (true, ⟨map2, registry2, st2⟩)

/-- `TransactionManager` (`manager.rs`): the `xid → storage address`
index and the shared runtime storage. -/
structure TransactionManager where
  index : List (Nat × Nat)
  storage : Storage
deriving DecidableEq, Repr

/-- `HashMap::insert` on the `xid → address` index. -/
def idxInsert (l : List (Nat × Nat)) (k v : Nat) : List (Nat × Nat) :=
  if (l.find? (fun e => e.1 == k)).isSome then
    l.map (fun e => if e.1 == k then (k, v) else e)
  else l ++ [(k, v)]

/-- `HashMap::remove` on the `xid → address` index. -/
def idxRemove (l : List (Nat × Nat)) (k : Nat) : List (Nat × Nat) :=
  l.filter (fun e => !(e.1 == k))

/-- `TransactionManager::get_transaction_address`. -/
def TransactionManager.get_transaction_address (m : TransactionManager) (xid : Nat) :
    Option Nat :=
  (m.index.find? (fun e => e.1 == xid)).map (fun e => e.2)

/-- `TransactionManager::is_in`. -/
def TransactionManager.is_in (m : TransactionManager) (xid : Nat) : Bool :=
  (m.index.find? (fun e => e.1 == xid)).isSome

/-- `TransactionManager::get_transaction`: index lookup, storage fetch,
`extract!(data, Data::Transaction)`. -/
def TransactionManager.get_transaction (m : TransactionManager) (transaction_id : Nat) :
    Except String Transaction :=
  match m.get_transaction_address transaction_id with
  | none => .error "Error"
  | some a =>
    match m.storage.get a with
    | none => .error "storage get failed"
    | some (.transaction t) => .ok t
    | some _ => .error "Error"

/-- `TransactionManager::initiate_transaction` (with `Utc::now()` passed
explicitly): refuse an existing `xid`, otherwise store a new PENDING
transaction and index its address. -/
def TransactionManager.initiate_transaction (m : TransactionManager)
    (transaction_id : Nat) (now : Int) : Except String Unit × TransactionManager :=
  match m.index.find? (fun e => e.1 == transaction_id) with
  | some _ => (.error "Transaction already exists", m)
  | none =>
    let transaction := (Transaction.init_new transaction_id now).set_state .pending
    let (address, st) := m.storage.store (.transaction transaction) "Transactions"
    (.ok (), ⟨idxInsert m.index transaction_id address, st⟩)

/-- `TransactionManager::update_transaction_state`: re-store the
transaction with the new state under a fresh address and re-index it. -/
def TransactionManager.update_transaction_state (m : TransactionManager)
    (transaction_id : Nat) (state : TxState) : Except String Unit × TransactionManager :=
  match m.get_transaction_address transaction_id with
  | none => (.error "No address for given transaction", m)
  | some address =>
    match m.get_transaction transaction_id with
    | .error e => (.error e, m)
    | .ok t =>
      let t1 := t.set_state state
      let st1 := m.storage.delete address "Transactions"
      let (new_address, st2) := st1.store (.transaction t1) "Transactions"
      (.ok (), ⟨idxInsert (idxRemove m.index transaction_id) transaction_id new_address, st2⟩)

/-- `TransactionManager::bind_lease`.  Note the guard: the lease is bound
whenever `pending_lease_address == 0`, the transaction's *state* is not
inspected.  On success the state is set to BOUND, the lease is stored in
the pending pool and the transaction is re-stored with the lease
address. -/
def TransactionManager.bind_lease (m : TransactionManager) (xid : Nat) (lease : LeaseV4) :
    Except String Nat × TransactionManager :=
  match m.get_transaction xid with
  | .error e => (.error e, m)
  | .ok t =>
    if t.pending_lease_address == 0 then
      match m.update_transaction_state t.xid .bound with
      | (.error e, m1) => (.error e, m1)
      | (.ok _, m1) =>
        match m1.get_transaction t.xid with
        | .error e => (.error e, m1)
        | .ok t1 =>
          let (lease_address, st1) := m1.storage.store (.lease lease) "PendingLeases"
          let t2 := t1.bind lease_address
          let st2 := st1.delete t2.uid "Transactions"
          let (address, st3) := st2.store (.transaction t2) "Transactions"
          (.ok lease_address, ⟨idxInsert (idxRemove m1.index t.xid) t.xid address, st3⟩)
    else
      (.error "Lease already bound to this transaction", m)

/-- `TransactionManager::delete_transaction`: drop the index entry, the
transaction's storage entry (at `t.uid`) and its pending-lease entry. -/
def TransactionManager.delete_transaction (m : TransactionManager)
    (transaction_id : Nat) : Except String Unit × TransactionManager :=
  match m.get_transaction transaction_id with
  | .error e => (.error e, m)
  | .ok t =>
    let st1 := m.storage.delete t.uid "Transactions"
    let st2 := st1.delete t.pending_lease_address "PendingLeases"
    (.ok (), ⟨idxRemove m.index transaction_id, st2⟩)

/-- `TransactionManager::abort`. -/
def TransactionManager.abort (m : TransactionManager) (transaction_id : Nat) :
    Except String Nat × TransactionManager :=
  match m.delete_transaction transaction_id with
  | (.error e, m1) => (.error e, m1)
  | (.ok _, m1) => (.ok 0, m1)

/-- `TransactionManager::get_transaction_lease`. -/
def TransactionManager.get_transaction_lease (m : TransactionManager)
    (transaction_id : Nat) : Except String LeaseV4 :=
  match m.get_transaction transaction_id with
  | .error e => .error e
  | .ok t =>
    match m.storage.get t.pending_lease_address with
    | none => .error "storage get failed"
    | some (.lease l) => .ok l
    | some _ => .error "No lease"

/-- `TransactionManager::commit`: fetch the pending lease, delete the
transaction (and the pending-pool entry), store the lease in the
confirmed pool. -/
def TransactionManager.commit (m : TransactionManager) (transaction_id : Nat) :
    Except String Unit × TransactionManager :=
  match m.get_transaction_lease transaction_id with
  | .error e => (.error e, m)
  | .ok lease =>
    match m.delete_transaction transaction_id with
    | (.error e, m1) => (.error e, m1)
    | (.ok _, m1) =>
      let (_, st) := m1.storage.store (.lease lease) "Leases"
      (.ok (), { m1 with storage := st })

/-- `TransactionManager::handle_ack`: commit a REQUESTED transaction,
`Ok(())` — and no state change — for every other state. -/
def TransactionManager.handle_ack (m : TransactionManager) (packet : DhcpV4Packet) :
    Except String Unit × TransactionManager :=
  match m.get_transaction packet.xid with
  | .error e => (.error e, m)
  | .ok t =>
    match t.state with
    | .requested => m.commit packet.xid
    | _ => (.ok (), m)

/-- `TransactionManager::handle_offer`: BOUND moves to WAITING, anything
else is an error. -/
def TransactionManager.handle_offer (m : TransactionManager) (packet : DhcpV4Packet) :
    Except String Unit × TransactionManager :=
  match m.get_transaction packet.xid with
  | .error e => (.error e, m)
  | .ok t =>
    match t.state with
    | .bound =>
      match m.update_transaction_state packet.xid .waiting with
      | (.error e, m1) => (.error e, m1)
      | (.ok _, m1) => (.ok (), m1)
    | _ => (.error "Trying to offer but no lease has been bound", m)

/-- `TransactionManager::handle_nack`. -/
def TransactionManager.handle_nack (m : TransactionManager) (_packet : DhcpV4Packet) :
    Except String Unit × TransactionManager :=
  (.ok (), m)

/-- `TransactionManager::handle_output`: dispatch on option 53 of the
outbound packet (2 = OFFER, 5 = ACK, 6 = NAK). -/
def TransactionManager.handle_output (m : TransactionManager) (packet : DhcpV4Packet) :
    Except String Unit × TransactionManager :=
  match packet.options.message_type with
  | some 2 => m.handle_offer packet
  | some 5 => m.handle_ack packet
  | some 6 => m.handle_nack packet
  | _ => (.ok (), m)

/-- The `for transaction_id in outdated_transactions { self.abort(id)?; }`
loop of `TransactionManager::watchout`. -/
def abortLoop (m : TransactionManager) (ids : List Nat) :
    Except String Unit × TransactionManager :=
  match ids with
  | [] => (.ok (), m)
  | id :: rest =>
    match m.abort id with
    | (.error e, m1) => (.error e, m1)
    | (.ok _, m1) => abortLoop m1 rest

/-- `TransactionManager::watchout` (with `Utc::now()` passed explicitly):
collect the keys, filter those whose transaction is `outdated` (a key
whose transaction cannot be fetched is kept), abort each. -/
def TransactionManager.watchout (m : TransactionManager) (now : Int) :
    Except String Unit × TransactionManager :=
  let keys := m.index.map (fun e => e.1)
  let outdated_transactions := keys.filter (fun k =>
    match m.get_transaction k with
    | .ok t => t.outdated now
    | .error _ => false)
  abortLoop m outdated_transactions

/-- The option codes the decoder dispatches on (`dhcp_options.rs`, match
arms of the decode loop). -/
def decodableCodes : List Nat := [1, 4, 5, 12, 15, 26, 28, 50, 51, 53, 54, 55, 58, 59, 61]

/-- Invariant of every record the option decoder can return normally on
byte input: `output_order` stays `none`, `defined_options` is a
duplicate-free subset of the decodable codes, every populated field was
populated by its own setter (so its code is defined and its value is in
range), and a field whose code is undefined is unpopulated.  Options 4
and 5 can only hold the empty list — a non-empty IPv4-list payload makes
the decoder diverge.  The codes 3, 7 and 42 have no decode path (the
option-42 arm stores into `time_server`), and `set_wpad` leaves 252
undefined. -/
structure DecodedWF (o : DhcpOptions) : Prop where
  output_none : o.output_order = none
  defined_nodup : o.defined_options.Nodup
  defined_sub : ∀ c ∈ o.defined_options, c ∈ decodableCodes
  router_none : o.router_option = none
  log_none : o.log_server = none
  ntp_none : o.ntp_servers = none
  mask_some : 1 ∈ o.defined_options → ∀ m, o.subnet_mask = some m → m < 2 ^ 32
  mask_none : 1 ∉ o.defined_options → o.subnet_mask = none
  ts_some : 4 ∈ o.defined_options → o.time_server = some []
  ts_none : 4 ∉ o.defined_options → o.time_server = none
  ns_some : 5 ∈ o.defined_options → o.name_server = some []
  ns_none : 5 ∉ o.defined_options → o.name_server = none
  host_some : 12 ∈ o.defined_options →
    ∃ s, o.hostname = some s ∧ validUtf8 s = true ∧ s.length ≤ 255
  host_none : 12 ∉ o.defined_options → o.hostname = none
  domain_some : 15 ∈ o.defined_options →
    ∃ s, o.domain_name = some s ∧ validUtf8 s = true ∧ s.length ≤ 255
  domain_none : 15 ∉ o.defined_options → o.domain_name = none
  mtu_some : 26 ∈ o.defined_options → ∃ v, o.interface_mtu = some v ∧ v < 2 ^ 16
  mtu_none : 26 ∉ o.defined_options → o.interface_mtu = none
  bcast_some : 28 ∈ o.defined_options → ∀ b, o.broadcast_addr = some b → b < 2 ^ 32
  bcast_none : 28 ∉ o.defined_options → o.broadcast_addr = none
  req_some : 50 ∈ o.defined_options → ∀ r, o.requested_ip = some r → r < 2 ^ 32
  req_none : 50 ∉ o.defined_options → o.requested_ip = none
  lease_some : 51 ∈ o.defined_options → ∃ v, o.lease_time = some v ∧ v < 2 ^ 32
  lease_none : 51 ∉ o.defined_options → o.lease_time = none
  msg_some : 53 ∈ o.defined_options → ∃ v, o.message_type = some v ∧ v ≤ 9
  msg_none : 53 ∉ o.defined_options → o.message_type = none
  serv_some : 54 ∈ o.defined_options → ∃ v, o.server_identifier = some v ∧ v < 2 ^ 32
  serv_none : 54 ∉ o.defined_options → o.server_identifier = none
  param_some : 55 ∈ o.defined_options → ∃ l, o.parameter_request = some l ∧ l ≠ []
  param_none : 55 ∉ o.defined_options → o.parameter_request = none
  renew_some : 58 ∈ o.defined_options → ∃ v, o.renewal_time = some v ∧ v < 2 ^ 32
  renew_none : 58 ∉ o.defined_options → o.renewal_time = none
  rebind_some : 59 ∈ o.defined_options → ∃ v, o.rebinding_time = some v ∧ v < 2 ^ 32
  rebind_none : 59 ∉ o.defined_options → o.rebinding_time = none
  cid_some : 61 ∈ o.defined_options → ∃ l, o.client_identifier = some l ∧ l.length ≤ 255
  cid_none : 61 ∉ o.defined_options → o.client_identifier = none

/-- Replay, on `acc`, the decode-time effect of the encoded chunk for
option code `c` of record `o` (used to state what decoding an encoded
record rebuilds). -/
def applyCode (c : Nat) (o acc : DhcpOptions) : DhcpOptions :=
  if c = 1 then acc.set_subnet_mask o.subnet_mask
  else if c = 4 then acc.set_time_server o.time_server
  else if c = 5 then acc.set_name_server o.name_server
  else if c = 12 then acc.set_hostname o.hostname
  else if c = 15 then acc.set_domain_name o.domain_name
  else if c = 26 then acc.set_interface_mtu o.interface_mtu
  else if c = 51 then acc.set_lease_time o.lease_time
  else if c = 53 then acc.set_message_type o.message_type
  else if c = 54 then acc.set_server_identifier o.server_identifier
  else if c = 55 then
    match o.parameter_request with
    | some l => l.foldl DhcpOptions.add_parameter_request acc
    | none => acc
  else if c = 58 then acc.set_renewal_time o.renewal_time
  else if c = 59 then acc.set_rebinding_time o.rebinding_time
  else if c = 61 then acc.set_client_identifier o.client_identifier
  else acc

/-- Fold `applyCode` over a list of codes. -/
def foldApply (cs : List Nat) (o acc : DhcpOptions) : DhcpOptions :=
  cs.foldl (fun a c => applyCode c o a) acc

/-- C1 counterexample input: a WPAD option (code 252) carrying the single
byte `a`. -/
def c1CexInput : List Nat := [252, 1, 97]

/-- A packet skeleton used by concrete fixtures: BOOTP reply header
fields, all-zero addresses, the given options. -/
def mkFixturePacket (opts : DhcpOptions) : DhcpV4Packet :=
  ⟨2, 1, 6, 0, 1, 0, [0, 0], 0, 0, 0, 0,
    HardwareAddress.new (List.replicate 16 0),
    List.replicate 64 0, List.replicate 128 0, opts⟩

/-- C2 fixture: a DISCOVER whose option-61 client identifier has only 3
bytes. -/
def c2ShortCidPacket : DhcpV4Packet :=
  mkFixturePacket (DhcpOptions.new.set_client_identifier (some [1, 2, 3]))

/-- C2 fixture: a static allocator with no subnets and no registrations. -/
def c2Allocator : StaticAllocator := ⟨⟨[]⟩, [], Storage.empty⟩

/-- C6 fixture: a 240-byte packet whose `xid` field holds the wire bytes
`00 00 00 01` and whose `secs` field holds `00 01`, options block empty. -/
def c6RawPacket : List Nat :=
  [1, 1, 6, 0, 0, 0, 0, 1, 0, 1] ++ List.replicate 230 0

/-- C4 fixture: a `192.168.0.0/30` subnet whose dynamic pointer has
reached offset 3 — the broadcast offset (`count = 4`). -/
def c4Subnet : Ipv4Subnet :=
  { Ipv4Subnet.new 0xC0A80000 30 with alloc_ptr := 3 }

/-- C4 fixture: same subnet with the pointer at `count` itself. -/
def c4SubnetAtCount : Ipv4Subnet :=
  { Ipv4Subnet.new 0xC0A80000 30 with alloc_ptr := 4 }

/-- C5 fixture: a fresh `192.168.0.0/24` subnet. -/
def c5Subnet0 : Ipv4Subnet := Ipv4Subnet.new 0xC0A80000 24

/-- C5 fixture: `c5Subnet0` after `force_allocate(192.168.0.5)`. -/
def c5Subnet1 : Ipv4Subnet :=
  match c5Subnet0.force_allocate 0xC0A80005 with
  | .ok (_, s) => s
  | _ => c5Subnet0

/-- C5 fixture: `c5Subnet1` after `free(192.168.0.5)`. -/
def c5Subnet2 : Ipv4Subnet := (c5Subnet1.free 0xC0A80005).2

/-- C7 fixture: a WAITING transaction with no bound lease
(`pending_lease_address = 0`), stored at address 5 for xid 1. -/
def c7Transaction : Transaction := ⟨.waiting, 0, 0, 5, 1⟩

/-- C7 fixture: the manager holding `c7Transaction`. -/
def c7Manager : TransactionManager :=
  ⟨[(1, 5)], ⟨[(5, "Transactions", .transaction c7Transaction)], 6⟩⟩

/-- C7 fixture: a BOUND transaction that already holds lease address 9. -/
def c7BoundManager : TransactionManager :=
  ⟨[(1, 5)], ⟨[(5, "Transactions", .transaction ⟨.bound, 0, 9, 5, 1⟩)], 10⟩⟩

/-- C9 fixture: a WAITING transaction with a pending lease, stored at
address 4 for xid 2. -/
def c9Manager : TransactionManager :=
  ⟨[(2, 4)], ⟨[(4, "Transactions", .transaction ⟨.waiting, 50, 3, 4, 2⟩)], 11⟩⟩

/-- C9 fixture: an outbound ACK (message type 5) for xid 2. -/
def c9AckPacket : DhcpV4Packet :=
  { mkFixturePacket (DhcpOptions.new.set_message_type (some 5)) with xid := 2 }

/-- Does the index key `k` currently resolve to an outdated transaction
of `m` (the filter of `watchout`)? -/
def staleAt (m : TransactionManager) (now : Int) (k : Nat) : Bool :=
  match m.get_transaction k with
  | .ok t => t.outdated now
  | .error _ => false

/-- Well-formed manager: distinct xids, distinct storage addresses, and
every index entry resolves (as the *first* storage entry at its address)
to a `Transactions`-pool transaction with matching `xid` and `uid`. -/
def TransactionManager.wf (m : TransactionManager) : Prop :=
  (m.index.map Prod.fst).Nodup ∧
  (m.index.map Prod.snd).Nodup ∧
  ∀ p ∈ m.index, ∃ t : Transaction,
    m.storage.entries.find? (fun e => e.1 == p.2)
      = some (p.2, "Transactions", .transaction t) ∧
    t.xid = p.1 ∧ t.uid = p.2

/-- C8 fixture: one stale transaction (xid 1, started at 0) and one fresh
one (xid 2, started at 100). -/
def c8Manager : TransactionManager :=
  ⟨[(1, 5), (2, 7)],
   ⟨[(5, "Transactions", .transaction ⟨.pending, 0, 0, 5, 1⟩),
     (7, "Transactions", .transaction ⟨.pending, 100, 0, 7, 2⟩)], 8⟩⟩

/-- Coherent static allocator: every subnet-map entry resolves in storage
to a subnet whose network address is the entry's key. -/
def StaticAllocator.coherent (sa : StaticAllocator) : Prop :=
  ∀ e ∈ sa.subnet_map.subnets, ∃ s : Ipv4Subnet,
    sa.storage.get e.2 = some (.ipv4Subnet s) ∧ s.network_addr = e.1.network_addr

/-- C10 fixture: storage holding one `192.168.0.0/24` subnet. -/
def c10Storage0 : Nat × Storage :=
  Storage.empty.store (.ipv4Subnet (Ipv4Subnet.new 0xC0A80000 24)) "Subnetv4"

/-- C10 fixture: the allocator over that one subnet, empty registry. -/
def c10Allocator : StaticAllocator :=
  ⟨⟨[(⟨0xC0A80000, 24⟩, c10Storage0.1)]⟩, [], c10Storage0.2⟩

/-- C10 fixture: a static allocation of `192.168.0.3/24` for the
broadcast hardware address. -/
def c10Registration : StaticAllocation :=
  ⟨HardwareAddress.broadcast, 0xC0A80003,
    (DhcpOptions.new.set_requested_ip (some 0xC0A80003)).set_subnet_mask (some 0xFFFFFF00)⟩

/-- C10 fixture: a DISCOVER carrying a 16-byte client identifier. -/
def c10DiscoverPacket : DhcpV4Packet :=
  mkFixturePacket (DhcpOptions.new.set_client_identifier
    (some [15, 15, 15, 15, 15, 15, 0, 0, 0, 0, 0, 0, 0, 0, 0, 0]))

/-- C10 fixture: the allocator after registering `c10Registration`. -/
def c10After : StaticAllocator :=
  match c10Allocator.register_static_allocation c10Registration with
  | .ok (_, sa2) => sa2
  | _ => c10Allocator

/-! ## Helper lemmas -/

theorem parseIpv4ListFuel_none_of_four_le (bytes : List Nat) (h : 4 ≤ bytes.length) :
    ∀ fuel acc, parseIpv4ListFuel fuel bytes acc = none := by
  intro fuel
  induction fuel with
  | zero => intro acc; rfl
  | succ n ih =>
    intro acc
    unfold parseIpv4ListFuel
    have h1 : ¬ bytes.isEmpty := by
      cases bytes with
      | nil => simp at h
      | cons a l => simp [List.isEmpty]
    have h2 : ¬ bytes.length < 4 := by omega
    simp only [h1, if_false, h2, Bool.false_eq_true]
    exact ih _

/-! ## C2 -/

/-- **C2** — the claim fails on the code: option decoding *panics* on the
truncated inputs `[12]` (code byte with no length byte, `Vec::remove(0)`
on an empty vector) and `[51, 0]` (`BigEndian::read_u32` on an empty
payload), instead of returning the partial record; and
`StaticAllocator::allocate` *panics* on a client identifier shorter than
16 bytes (`cidc[..16]` slice out of bounds), instead of returning
`None`. -/
theorem C2_core_panics_on_client_input :
    dhcpOptionsFromBytes [12] = .panicked ∧
    dhcpOptionsFromBytes [51, 0] = .panicked ∧
    dhcpOptionsFromBytes [53, 0] = .panicked ∧
    (c2Allocator.allocate (.dhcpDiscover c2ShortCidPacket)).1 = .panicked := by
  refine ⟨?_, ?_, ?_, ?_⟩
  · simp [dhcpOptionsFromBytes, decodeLoop]
  · simp [dhcpOptionsFromBytes, decodeLoop]
  · simp [dhcpOptionsFromBytes, decodeLoop]
  · decide

/-! ## C3 -/

/-- **C3** — the claim fails on the code, in both parts: (a) the
IPv4-list parser used for options 4, 5 and 42 never consumes its input —
on any payload of at least 4 bytes its loop state never changes and it
runs forever (`parseIpv4ListFuel` exhausts *every* fuel), so decoding
`[4, 4, 1, 2, 3, 4]` does not terminate; (b) the end-of-options marker
255 does not stop the scan — it is skipped like padding, and an option
placed after it is still decoded. -/
theorem C3_decoding_no_termination :
    dhcpOptionsFromBytes [4, 4, 1, 2, 3, 4] = .diverged ∧
    (∀ fuel acc, parseIpv4ListFuel fuel [1, 2, 3, 4] acc = none) ∧
    dhcpOptionsFromBytes [255, 53, 1, 5] = .ok (DhcpOptions.new.set_message_type (some 5)) := by
  refine ⟨?_, ?_, ?_⟩
  · simp [dhcpOptionsFromBytes, decodeLoop, parseIpv4ListFuel]
  · exact parseIpv4ListFuel_none_of_four_le [1, 2, 3, 4] (by simp)
  · simp [dhcpOptionsFromBytes, decodeLoop]

/-! ## C6 -/

set_option maxRecDepth 4000 in
/-- **C6** — the claim fails on the code: `from_raw_bytes` reads `xid`
with `u32::from_le_bytes` and `secs` with `u16::from_le_bytes`.  On a
packet whose xid wire bytes are `00 00 00 01` the big-endian value the
claim requires is 1, but the parser returns `2^24 = 16777216`; the secs
bytes `00 01` (big-endian 1) parse as 256. -/
theorem C6_xid_secs_little_endian :
    parsedXid c6RawPacket = 16777216 ∧
    parsedSecs c6RawPacket = 256 ∧
    readU32BE [0, 0, 0, 1] = 1 ∧
    readU16BE [0, 1] = 1 := by
  have hlen : ¬ c6RawPacket.length < 240 := by decide
  have hdrop : c6RawPacket.drop 240 = [] := by decide
  have hopts : dhcpOptionsFromBytes (c6RawPacket.drop 240) = .ok DhcpOptions.new := by
    rw [hdrop]; simp [dhcpOptionsFromBytes, decodeLoop]
  refine ⟨?_, ?_, by decide, by decide⟩
  · simp only [parsedXid, DhcpV4Packet.from_raw_bytes, hlen, if_false, hopts]
    decide
  · simp only [parsedSecs, DhcpV4Packet.from_raw_bytes, hlen, if_false, hopts]
    decide

/-! ## C4 -/

/-- **C4** — counterexample to the claim as stated: in the `/30` subnet
`c4Subnet` (count 4, `released` empty, `alloc_ptr = 3 ≤ count − 1`),
`allocate()` returns `network + 3` — which *is* the broadcast address;
and with `alloc_ptr = 4 = count > count − 1`, where the claim demands
failure, `allocate()` still succeeds and hands out `network + 4`, the
first address *past* the subnet. -/
theorem C4_counterexample :
    c4Subnet.released = [] ∧ c4Subnet.count = 4 ∧ c4Subnet.alloc_ptr = 3 ∧
    (c4Subnet.allocate).1 = some c4Subnet.broadcast ∧
    c4SubnetAtCount.alloc_ptr = 4 ∧
    (c4SubnetAtCount.allocate).1 = some (c4SubnetAtCount.broadcast + 1) := by
  decide

/-- **C4** (amended) — what `allocate()` actually does, on the prefixes
`[1, 31]` where the debug and release builds agree (at prefix 32 the
count computation underflows a `u8` — a debug-build panic — and the
release masked shift yields count 0, so a `/32` subnet never allocates):
LIFO pop of `released` when non-empty; otherwise it succeeds exactly
while `alloc_ptr ≤ count` (not `count − 1`), returning
`network + alloc_ptr` and incrementing the pointer, and fails only when
`alloc_ptr > count`.  Consequently the network address (offset 0) is
never returned from the pointer path (the pointer starts at 1 and only
grows), but the broadcast offset `count − 1` — and even offset `count` —
are returned. -/
theorem C4_allocate_behaviour (s : Ipv4Subnet) (hpfx : 1 ≤ s.pfx ∧ s.pfx ≤ 31) :
    (s.released ≠ [] →
      s.allocate = (some (s.released.getLastD 0), { s with released := s.released.dropLast })) ∧
    (s.released = [] → s.count < s.alloc_ptr → s.allocate = (none, s)) ∧
    (s.released = [] → s.alloc_ptr ≤ s.count →
      s.allocate = (some ((s.network_addr + s.alloc_ptr) % 2 ^ 32),
        { s with alloc_ptr := s.alloc_ptr + 1 })) ∧
    (s.released = [] → 1 ≤ s.alloc_ptr → s.network_addr + s.count < 2 ^ 32 →
      (s.allocate).1 ≠ some s.network_addr) := by
  refine ⟨?_, ?_, ?_, ?_⟩
  · intro hrel
    have h1 : s.released.isEmpty = false := by
      cases hh : s.released with
      | nil => exact absurd hh hrel
      | cons a l => simp
    simp [Ipv4Subnet.allocate, h1]
  · intro hrel hcnt
    have h1 : s.released.isEmpty = true := by simp [hrel]
    simp [Ipv4Subnet.allocate, h1, hcnt]
  · intro hrel hcnt
    have h1 : s.released.isEmpty = true := by simp [hrel]
    have h2 : ¬ s.count < s.alloc_ptr := by omega
    simp [Ipv4Subnet.allocate, h1, h2]
  · intro hrel hptr hbound
    have h1 : s.released.isEmpty = true := by simp [hrel]
    by_cases hcnt : s.count < s.alloc_ptr
    · simp [Ipv4Subnet.allocate, h1, hcnt]
    · have h3 : s.network_addr + s.alloc_ptr < 2 ^ 32 := by omega
      simp only [Ipv4Subnet.allocate, h1, Bool.and_true, decide_eq_true_eq, hcnt, if_false,
        Bool.not_true, Bool.false_eq_true, if_false]
      rw [Nat.mod_eq_of_lt h3]
      intro hcontra
      have := Option.some.inj hcontra
      omega

/-- **C4** (amended) — witness: the first allocation in a fresh
`192.168.0.0/24` subnet hands out `network + 1` and bumps the pointer. -/
theorem C4_allocate_behaviour_witness :
    (Ipv4Subnet.new 0xC0A80000 24).allocate
      = (some ((0xC0A80000 + 1) % 2 ^ 32),
         { Ipv4Subnet.new 0xC0A80000 24 with alloc_ptr := 2 }) :=
  (C4_allocate_behaviour (Ipv4Subnet.new 0xC0A80000 24) (by decide)).2.2.1 rfl (by decide)

/-! ## C5 -/

/-- **C5** — counterexample to the claim as stated: starting from the
fresh `/24` subnet `c5Subnet0`, `force_allocate(192.168.0.5)` succeeds
(the address becomes reserved), after which `free(192.168.0.5)` *also*
succeeds — a reserved address is "allocated", so `free` pushes it onto
`released` without touching `reserved` — leaving `192.168.0.5`
simultaneously in `released` and in the reserved set. -/
theorem C5_counterexample :
    c5Subnet0.force_allocate 0xC0A80005 = .ok (true, c5Subnet1) ∧
    (c5Subnet1.free 0xC0A80005).1 = true ∧
    (c5Subnet1.free 0xC0A80005).2 = c5Subnet2 ∧
    0xC0A80005 ∈ c5Subnet2.released ∧
    0xC0A80005 ∈ c5Subnet2.force_allocated := by
  decide

/-- **C5** (amended) — the parts of the claim the code does satisfy:
`free` never modifies the reserved (`force_allocated`) set, and
`force_allocate` (for addresses at or above the network address, where
its `u32` offset subtraction cannot panic) succeeds only on free
addresses and leaves the state unchanged when it refuses.  The global
disjointness of `released` and `reserved` does *not* hold — freeing a
reserved address breaks it (see the counterexample). -/
theorem C5_free_reserved_frame (s : Ipv4Subnet) (ip : Nat) :
    (s.free ip).2.force_allocated = s.force_allocated ∧
    (s.network_addr ≤ ip →
      ∀ b s2, s.force_allocate ip = .ok (b, s2) → b = true → s.is_freeRaw ip = true) ∧
    (s.network_addr ≤ ip →
      ∀ b s2, s.force_allocate ip = .ok (b, s2) → b = false → s2 = s) := by
  refine ⟨?_, ?_, ?_⟩
  · unfold Ipv4Subnet.free
    by_cases h1 : s.contains ip = true
    · by_cases h2 : s.is_freeRaw ip = true <;> simp [h1, h2]
    · simp [Bool.not_eq_true] at h1
      simp [h1]
  · intro hle b s2 hfa hb
    unfold Ipv4Subnet.force_allocate Ipv4Subnet.is_free at hfa
    have hnlt : ¬ ip < s.network_addr := by omega
    simp only [hnlt, if_false] at hfa
    by_cases hfree : s.is_freeRaw ip = true
    · exact hfree
    · simp [Bool.not_eq_true] at hfree
      simp [hfree, hb] at hfa
  · intro hle b s2 hfa hb
    unfold Ipv4Subnet.force_allocate Ipv4Subnet.is_free at hfa
    have hnlt : ¬ ip < s.network_addr := by omega
    simp only [hnlt, if_false] at hfa
    by_cases hfree : s.is_freeRaw ip = true
    · simp [hfree, hb] at hfa
    · simp [Bool.not_eq_true] at hfree
      simp [hfree] at hfa
      exact hfa.2.symm

/-- **C5** (amended) — witness at `c5Subnet0` / `192.168.0.5`: freeing
leaves the reserved set alone, and the successful `force_allocate` of
the counterexample state implies the address was free. -/
theorem C5_free_reserved_frame_witness :
    (c5Subnet0.free 0xC0A80005).2.force_allocated = c5Subnet0.force_allocated ∧
    c5Subnet0.is_freeRaw 0xC0A80005 = true :=
  ⟨(C5_free_reserved_frame c5Subnet0 0xC0A80005).1,
   (C5_free_reserved_frame c5Subnet0 0xC0A80005).2.1 (by decide) true c5Subnet1
     (by decide) rfl⟩

/-! ## C9 -/

/-- **C9** — confirmed: when the transaction for the packet's xid exists
in any state other than REQUESTED, handling an outbound ACK
(`handle_output` on message type 5) returns `Ok(())` and the manager —
index, states, pending leases, pools — is left exactly as it was; only a
REQUESTED transaction triggers the commit. -/
theorem C9_ack_ignores_non_requested (m : TransactionManager) (p : DhcpV4Packet)
    (t : Transaction) (hmsg : p.options.message_type = some 5)
    (ht : m.get_transaction p.xid = .ok t) (hstate : t.state ≠ .requested) :
    m.handle_output p = (.ok (), m) := by
  obtain ⟨ts, tstart, tpla, tuid, txid⟩ := t
  simp only [TransactionManager.handle_output, hmsg]
  unfold TransactionManager.handle_ack
  rw [ht]
  cases ts
  all_goals first | rfl | exact absurd rfl hstate

/-- **C9** — witness: an outbound ACK for the WAITING transaction of
`c9Manager` succeeds and leaves the manager untouched. -/
theorem C9_ack_ignores_non_requested_witness :
    c9Manager.handle_output c9AckPacket = (.ok (), c9Manager) :=
  C9_ack_ignores_non_requested c9Manager c9AckPacket ⟨.waiting, 50, 3, 4, 2⟩
    (by decide) (by rfl) (by decide)

/-! ## More helper lemmas -/

theorem find?_map_eq {α : Type} (l : List α) (p : α → Bool) (f : α → α)
    (hp : ∀ x, p (f x) = p x) : (l.map f).find? p = (l.find? p).map f := by
  induction l with
  | nil => rfl
  | cons a l ih =>
    by_cases h : p a = true
    · rw [List.map_cons, List.find?_cons_of_pos _ (by rw [hp]; exact h),
        List.find?_cons_of_pos _ h]
      rfl
    · rw [List.map_cons, List.find?_cons_of_neg _ (by rw [hp]; simpa using h),
        List.find?_cons_of_neg _ (by simpa using h), ih]

theorem hsInsert_mem (s : List Nat) (x y : Nat) : y ∈ hsInsert s x ↔ y ∈ s ∨ y = x := by
  unfold hsInsert
  by_cases h : x ∈ s
  · simp only [h, if_true]
    constructor
    · exact Or.inl
    · rintro (hy | rfl)
      · exact hy
      · exact h
  · simp [h]

theorem hsInsert_nodup (s : List Nat) (x : Nat) (h : s.Nodup) : (hsInsert s x).Nodup := by
  unfold hsInsert
  by_cases hx : x ∈ s
  · simpa [hx]
  · simp only [hx, if_false]
    exact List.Nodup.append h (List.nodup_singleton x)
      (by intro a ha hax; simp at hax; exact hx (hax ▸ ha))

theorem contains_of_mem (s : List Nat) (x : Nat) (h : x ∈ s) : s.contains x = true := by
  simpa [List.contains] using List.elem_iff.mpr h

theorem hsInsert_contains_self (s : List Nat) (x : Nat) : (hsInsert s x).contains x = true :=
  contains_of_mem _ _ ((hsInsert_mem s x x).mpr (Or.inr rfl))

/-! ## C10 -/

/-- **C10** — confirmed: `StaticAllocator::allocate` takes `&mut self`
but performs no write at all — registry, subnet map and storage come back
exactly as they were, on every message; and the reservation of a
statically allocated IP is performed by `register_static_allocation`: on
success (for a coherent allocator) the subnet stored for the allocation's
derived CIDR has the requested IP in its `force_allocated` set. -/
theorem C10_allocate_is_read_only (sa : StaticAllocator) (msg : DhcpMessage) :
    (sa.allocate msg).2 = sa ∧
    (∀ alloc sa2, sa.coherent →
      sa.register_static_allocation alloc = .ok (true, sa2) →
      ∀ mask ip, alloc.options.subnet_mask = some mask →
        alloc.options.requested_ip = some ip →
        ∃ s2 : Ipv4Subnet,
          sa2.subnet_map.get_subnet sa2.storage ⟨ip &&& mask, countOnes mask⟩ = some s2 ∧
          s2.force_allocated.contains ip = true) := by
  constructor
  · unfold StaticAllocator.allocate
    repeat' split
    all_goals first
      | rfl
      | (dsimp only
         repeat' split
         all_goals rfl)
  · intro alloc sa2 hco hreg mask ip hmask hip
    unfold StaticAllocator.register_static_allocation at hreg
    rw [hmask, hip] at hreg
    dsimp only at hreg
    cases hget : sa.subnet_map.get_subnet sa.storage ⟨ip &&& mask, countOnes mask⟩ with
    | none => rw [hget] at hreg; simp at hreg
    | some subnet =>
      rw [hget] at hreg
      dsimp only at hreg
      cases hfa : subnet.force_allocate ip with
      | panicked => rw [hfa] at hreg; simp at hreg
      | diverged => rw [hfa] at hreg; simp at hreg
      | ok pr =>
        obtain ⟨b, subnet2⟩ := pr
        rw [hfa] at hreg
        dsimp only at hreg
        cases b with
        | false => simp at hreg
        | true =>
          simp only [Bool.not_true, Bool.false_eq_true, if_false] at hreg
          -- the reserved subnet copy: network address unchanged, ip inserted
          have hsub2 : subnet2 = { subnet with
              force_allocated := hsInsert subnet.force_allocated ip } ∧
              subnet.is_freeRaw ip = true ∧ ¬ ip < subnet.network_addr := by
            unfold Ipv4Subnet.force_allocate Ipv4Subnet.is_free at hfa
            by_cases hip2 : ip < subnet.network_addr
            · simp [hip2] at hfa
            · simp only [hip2, if_false] at hfa
              by_cases hfree : subnet.is_freeRaw ip = true
              · simp only [hfree, Bool.not_true, Bool.false_eq_true, if_false,
                  RRes.ok.injEq, Prod.mk.injEq] at hfa
                exact ⟨hfa.2.symm, hfree, hip2⟩
              · simp [Bool.not_eq_true] at hfree
                simp [hfree] at hfa
          -- the map entry located by get_subnet
          have hfind := hget
          unfold SubnetV4Map.get_subnet at hfind
          cases he : sa.subnet_map.subnets.find?
              (fun e => e.1.network_addr == (⟨ip &&& mask, countOnes mask⟩ : CidrSubnet).network_addr) with
          | none => rw [he] at hfind; simp at hfind
          | some e =>
            rw [he] at hfind
            dsimp only at hfind
            have hemem : e ∈ sa.subnet_map.subnets := List.mem_of_find?_eq_some he
            have hkey : e.1.network_addr = ip &&& mask := by
              have := List.find?_some he
              simpa using this
            obtain ⟨s3, hs3, hs3net⟩ := hco e hemem
            have hsubeq : subnet = s3 := by
              rw [hs3] at hfind
              simpa using hfind.symm
            have hnet : subnet.network_addr = ip &&& mask := by
              rw [hsubeq, hs3net, hkey]
            have hnet2 : subnet2.network_addr = ip &&& mask := by
              rw [hsub2.1]; exact hnet
            have he2 : List.find? (fun q => q.1.network_addr == ip &&& mask)
                sa.subnet_map.subnets = some e := he
            -- reduce update_subnet inside hreg
            unfold SubnetV4Map.update_subnet at hreg
            dsimp only at hreg
            rw [hnet2, he2] at hreg
            dsimp only [Storage.store] at hreg
            have hsa2 := hreg
            simp only [RRes.ok.injEq, Prod.mk.injEq, true_and] at hsa2
            -- unpack the resulting allocator
            refine ⟨subnet2, ?_, ?_⟩
            · rw [← hsa2]
              unfold SubnetV4Map.get_subnet
              dsimp only
              rw [find?_map_eq _ _ _ (by
                intro x
                by_cases hx : (x.1.network_addr == ip &&& mask) = true <;> simp [hx])]
              rw [he2]
              dsimp only [Option.map]
              rw [show (e.1.network_addr == ip &&& mask) = true by simp [hkey]]
              simp [Storage.get, StoData.setUid]
            · rw [hsub2.1]
              exact hsInsert_contains_self _ _

/-- **C10** — witness: on the one-subnet allocator `c10Allocator`, a
DISCOVER leaves the state untouched, and registering `c10Registration`
reserves `192.168.0.3` inside the stored subnet. -/
theorem C10_allocate_is_read_only_witness :
    (c10Allocator.allocate (.dhcpDiscover c10DiscoverPacket)).2 = c10Allocator ∧
    ∃ s2 : Ipv4Subnet,
      c10After.subnet_map.get_subnet c10After.storage
        ⟨0xC0A80003 &&& 0xFFFFFF00, countOnes 0xFFFFFF00⟩ = some s2 ∧
      s2.force_allocated.contains 0xC0A80003 = true :=
  ⟨(C10_allocate_is_read_only c10Allocator (.dhcpDiscover c10DiscoverPacket)).1,
   (C10_allocate_is_read_only c10Allocator (.dhcpDiscover c10DiscoverPacket)).2
     c10Registration c10After
     (by
       intro e he
       simp only [c10Allocator, List.mem_singleton] at he
       subst he
       exact ⟨Ipv4Subnet.new 0xC0A80000 24, by decide, by decide⟩)
     (by decide) 0xFFFFFF00 0xC0A80003 rfl rfl⟩

/-! ## Index helper lemmas -/

theorem find?_idxRemove (l : List (Nat × Nat)) (k : Nat) :
    (idxRemove l k).find? (fun e => e.1 == k) = none := by
  apply List.find?_eq_none.mpr
  intro x hx
  have := List.of_mem_filter hx
  simpa using this

theorem idxInsert_remove_find? (l : List (Nat × Nat)) (k v : Nat) :
    (idxInsert (idxRemove l k) k v).find? (fun e => e.1 == k) = some (k, v) := by
  unfold idxInsert
  rw [find?_idxRemove]
  simp only [Option.isSome_none, Bool.false_eq_true, if_false]
  rw [List.find?_append, find?_idxRemove]
  simp

/-! ## C7 -/

/-- **C7** — counterexample to the claim as stated: `c7Manager` holds a
transaction in state WAITING (not PENDING) whose `pending_lease_address`
is 0, and `bind_lease` *succeeds* on it — storing the lease at address 7
and moving the transaction to BOUND — because the Rust guard only checks
`pending_lease_address == 0`, never the state. -/
theorem C7_counterexample :
    c7Manager.get_transaction 1 = .ok c7Transaction ∧
    c7Transaction.state = .waiting ∧
    (c7Manager.bind_lease 1 ⟨77⟩).1 = .ok 7 ∧
    (c7Manager.bind_lease 1 ⟨77⟩).2.get_transaction 1
      = .ok ⟨.bound, 0, 7, 8, 1⟩ := by
  refine ⟨by rfl, rfl, by rfl, by rfl⟩

/-- **C7** (amended) — what `bind_lease` actually guards on: for an
existing transaction (with matching stored xid) it *fails*, leaving the
manager unchanged, exactly when a lease is already bound
(`pending_lease_address ≠ 0`), and succeeds whenever
`pending_lease_address = 0` — regardless of the transaction's state —
storing the lease in the pending pool and moving the transaction to
BOUND with the lease address recorded. -/
theorem C7_bind_lease_guard (m : TransactionManager) (xid : Nat) (lease : LeaseV4)
    (t : Transaction) (ht : m.get_transaction xid = .ok t) (hx : t.xid = xid) :
    (t.pending_lease_address ≠ 0 →
      m.bind_lease xid lease = (.error "Lease already bound to this transaction", m)) ∧
    (t.pending_lease_address = 0 →
      ∃ a m2, m.bind_lease xid lease = (.ok a, m2) ∧
        m2.storage.entries.find? (fun e => e.1 == a)
          = some (a, "PendingLeases", .lease lease) ∧
        ∃ t2, m2.get_transaction xid = .ok t2 ∧
          t2.state = .bound ∧ t2.pending_lease_address = a) := by
  have htOrig := ht
  unfold TransactionManager.get_transaction at ht
  cases hfind : m.get_transaction_address xid with
  | none => rw [hfind] at ht; simp at ht
  | some a0 =>
    rw [hfind] at ht
    dsimp only at ht
    cases hget : m.storage.get a0 with
    | none => rw [hget] at ht; simp at ht
    | some d =>
      rw [hget] at ht
      cases d with
      | lease l => simp at ht
      | ipv4Subnet s => simp at ht
      | transaction t0 =>
        have ht0 : t0 = t := by simpa using ht
        subst ht0
        constructor
        · intro hpl
          unfold TransactionManager.bind_lease
          rw [htOrig]
          dsimp only
          rw [show (t0.pending_lease_address == 0) = false by simpa using hpl]
          simp
        · intro hpl
          have hUTS : m.update_transaction_state xid .bound =
              (.ok (), ⟨idxInsert (idxRemove m.index xid) xid m.storage.next,
                ⟨(m.storage.next, "Transactions",
                    .transaction { t0 with state := .bound, uid := m.storage.next }) ::
                  (m.storage.delete a0 "Transactions").entries,
                 m.storage.next + 1⟩⟩) := by
            unfold TransactionManager.update_transaction_state
            rw [hfind]
            dsimp only
            rw [htOrig]
            rfl
          have hGT1 : TransactionManager.get_transaction
              ⟨idxInsert (idxRemove m.index xid) xid m.storage.next,
                ⟨(m.storage.next, "Transactions",
                    .transaction { t0 with state := .bound, uid := m.storage.next }) ::
                  (m.storage.delete a0 "Transactions").entries,
                 m.storage.next + 1⟩⟩ xid
              = .ok { t0 with state := .bound, uid := m.storage.next } := by
            unfold TransactionManager.get_transaction TransactionManager.get_transaction_address
            rw [idxInsert_remove_find?]
            simp [Storage.get]
          unfold TransactionManager.bind_lease
          rw [htOrig]
          dsimp only
          rw [show (t0.pending_lease_address == 0) = true by simp [hpl]]
          simp only [if_true]
          rw [hx, hUTS]
          dsimp only
          rw [hGT1]
          dsimp only [Storage.store, Storage.delete, StoData.setUid, Transaction.bind]
          refine ⟨m.storage.next + 1, _, rfl, ?_, ?_⟩
          · rw [List.find?_cons_of_neg _ (by simp), List.filter_cons, if_pos (by simp),
              List.find?_cons_of_pos _ (by simp)]
          unfold TransactionManager.get_transaction TransactionManager.get_transaction_address
          rw [idxInsert_remove_find?]
          dsimp only
          refine ⟨⟨TxState.bound, t0.start, m.storage.next + 1, m.storage.next + 1 + 1, t0.xid⟩,
            ?_, rfl, rfl⟩
          simp [Storage.get]

/-- **C7** (amended) — witness: on `c7BoundManager`, whose transaction
already holds lease address 9, `bind_lease` is rejected and the manager
is unchanged. -/
theorem C7_bind_lease_guard_witness :
    c7BoundManager.bind_lease 1 ⟨3⟩
      = (.error "Lease already bound to this transaction", c7BoundManager) :=
  (C7_bind_lease_guard c7BoundManager 1 ⟨3⟩ ⟨.bound, 0, 9, 5, 1⟩ (by rfl) rfl).1 (by decide)

/-! ## C8 helper lemmas -/

theorem find?_filter_of_found {α : Type} (l : List α) (p q : α → Bool) (e : α)
    (he : l.find? p = some e) (hq : q e = true) : (l.filter q).find? p = some e := by
  induction l with
  | nil => simp at he
  | cons a l ih =>
    by_cases hpa : p a = true
    · rw [List.find?_cons_of_pos _ hpa] at he
      injection he with he1
      subst he1
      rw [List.filter_cons, if_pos hq, List.find?_cons_of_pos _ hpa]
    · rw [List.find?_cons_of_neg _ (by simpa using hpa)] at he
      rw [List.filter_cons]
      by_cases hqa : q a = true
      · rw [if_pos hqa, List.find?_cons_of_neg _ (by simpa using hpa)]
        exact ih he
      · rw [if_neg hqa]
        exact ih he

theorem find?_of_mem_nodupKeys (l : List (Nat × Nat)) (k a : Nat)
    (hmem : (k, a) ∈ l) (hnd : (l.map Prod.fst).Nodup) :
    l.find? (fun e => e.1 == k) = some (k, a) := by
  induction l with
  | nil => simp at hmem
  | cons b l ih =>
    rcases List.mem_cons.mp hmem with hb | hmem2
    · subst hb
      exact List.find?_cons_of_pos _ (by simp)
    · have hbk : b.1 ≠ k := by
        intro hcontra
        have hk : k ∈ l.map Prod.fst := List.mem_map_of_mem Prod.fst hmem2
        rw [List.map_cons, hcontra] at hnd
        exact (List.nodup_cons.mp hnd).1 hk
      rw [List.find?_cons_of_neg _ (by simpa using hbk)]
      exact ih hmem2 (by rw [List.map_cons] at hnd; exact (List.nodup_cons.mp hnd).2)

theorem abort_spec (m : TransactionManager) (hwf : m.wf) (k a : Nat)
    (hmem : (k, a) ∈ m.index) :
    ∃ t m1, m.get_transaction k = .ok t ∧
      m.abort k = (.ok 0, m1) ∧
      m1.index = idxRemove m.index k ∧
      m1.storage.entries = (m.storage.entries.filter
          (fun e => !(e.1 == a && e.2.1 == "Transactions"))).filter
          (fun e => !(e.1 == t.pending_lease_address && e.2.1 == "PendingLeases")) ∧
      m1.wf ∧
      (∀ p ∈ m.index, p.1 ≠ k → m1.get_transaction p.1 = m.get_transaction p.1) := by
  obtain ⟨hnd1, hnd2, hres⟩ := hwf
  obtain ⟨t, hget, hxid, huid⟩ := hres (k, a) hmem
  have hfind := find?_of_mem_nodupKeys m.index k a hmem hnd1
  have hgt : m.get_transaction k = .ok t := by
    unfold TransactionManager.get_transaction TransactionManager.get_transaction_address
    rw [hfind]
    simp only [Option.map]
    rw [show m.storage.get a = some (.transaction t) from by
      unfold Storage.get; rw [hget]; rfl]
  have habort : m.abort k = (.ok 0,
      ⟨idxRemove m.index k,
       (m.storage.delete a "Transactions").delete t.pending_lease_address "PendingLeases"⟩) := by
    unfold TransactionManager.abort TransactionManager.delete_transaction
    rw [hgt]
    dsimp only
    rw [huid]
  refine ⟨t, ⟨idxRemove m.index k,
      (m.storage.delete a "Transactions").delete t.pending_lease_address "PendingLeases"⟩,
    hgt, habort, rfl, rfl, ?_, ?_⟩
  · refine ⟨?_, ?_, ?_⟩
    · exact ((List.filter_sublist _).map Prod.fst).nodup hnd1
    · exact ((List.filter_sublist _).map Prod.snd).nodup hnd2
    · intro p hp
      have hpm : p ∈ m.index := List.mem_of_mem_filter hp
      have hne : p.1 ≠ k := by
        have := List.of_mem_filter hp
        simpa using this
      obtain ⟨t2, hget2, hxid2, huid2⟩ := hres p hpm
      have hpa : p.2 ≠ a := by
        intro hcontra
        have := List.inj_on_of_nodup_map hnd2 hpm hmem (by simpa using hcontra)
        exact hne (by rw [this])
      refine ⟨t2, ?_, hxid2, huid2⟩
      unfold Storage.delete
      dsimp only
      apply find?_filter_of_found
      · apply find?_filter_of_found
        · exact hget2
        · simp [hpa]
      · simp
  · intro p hp hne
    obtain ⟨t3, hget3, hxid3, huid3⟩ := hres p hp
    have hpa : p.2 ≠ a := by
      intro hcontra
      have := List.inj_on_of_nodup_map hnd2 hp hmem (by simpa using hcontra)
      exact hne (by rw [this])
    have hpmem : (p.1, p.2) ∈ m.index := by rw [Prod.mk.eta]; exact hp
    have hfind2 : ((m.storage.delete a "Transactions").delete
        t.pending_lease_address "PendingLeases").entries.find? (fun e => e.1 == p.2)
        = some (p.2, "Transactions", .transaction t3) := by
      unfold Storage.delete
      dsimp only
      apply find?_filter_of_found
      · apply find?_filter_of_found
        · exact hget3
        · simp [hpa]
      · simp
    have hp2 : (idxRemove m.index k).find? (fun e => e.1 == p.1) = some (p.1, p.2) := by
      apply find?_filter_of_found
      · exact find?_of_mem_nodupKeys m.index p.1 p.2 hpmem hnd1
      · simp [hne]
    unfold TransactionManager.get_transaction TransactionManager.get_transaction_address
    rw [hp2, find?_of_mem_nodupKeys m.index p.1 p.2 hpmem hnd1]
    simp only [Option.map]
    rw [show ((m.storage.delete a "Transactions").delete
          t.pending_lease_address "PendingLeases").get p.2 = some (.transaction t3) from by
      unfold Storage.get; rw [hfind2]; rfl]
    rw [show m.storage.get p.2 = some (.transaction t3) from by
      unfold Storage.get; rw [hget3]; rfl]

theorem abortLoop_spec (ids : List Nat) : ∀ m : TransactionManager, m.wf →
    (∀ id ∈ ids, ∃ a, (id, a) ∈ m.index) → ids.Nodup →
    ∃ m2, abortLoop m ids = (.ok (), m2) ∧
      m2.index = m.index.filter (fun p => !(ids.contains p.1)) ∧
      m2.wf ∧
      (∀ p ∈ m2.index, m2.get_transaction p.1 = m.get_transaction p.1) ∧
      (∀ x ∈ m2.storage.entries, x ∈ m.storage.entries) ∧
      (∀ id ∈ ids, ∀ t : Transaction, m.get_transaction id = .ok t →
        ∀ x ∈ m2.storage.entries,
          ¬(x.1 = t.pending_lease_address ∧ x.2.1 = "PendingLeases")) := by
  induction ids with
  | nil =>
    intro m hwf _ _
    refine ⟨m, rfl, ?_, hwf, fun p _ => rfl, fun x hx => hx, by simp⟩
    simp
  | cons id rest ih =>
    intro m hwf hids hnd
    obtain ⟨a, hmem⟩ := hids id (List.mem_cons_self id rest)
    obtain ⟨t, m1, hgt, habort, hidx1, hentries1, hwf1, hpres1⟩ := abort_spec m hwf id a hmem
    have hstep : abortLoop m (id :: rest) = abortLoop m1 rest := by
      rw [show abortLoop m (id :: rest) = (match m.abort id with
           | (.error e, m1) => (.error e, m1)
           | (.ok _, m1) => abortLoop m1 rest) from rfl, habort]
    have hidnotin : id ∉ rest := (List.nodup_cons.mp hnd).1
    have hids1 : ∀ id2 ∈ rest, ∃ a2, (id2, a2) ∈ m1.index := by
      intro id2 hid2
      obtain ⟨a2, hmem2⟩ := hids id2 (List.mem_cons_of_mem id hid2)
      refine ⟨a2, ?_⟩
      rw [hidx1]
      apply List.mem_filter.mpr
      refine ⟨hmem2, ?_⟩
      simp only [Bool.not_eq_true']
      simp only [beq_eq_false_iff_ne, ne_eq]
      intro hcontra
      exact hidnotin (hcontra ▸ hid2)
    obtain ⟨m2, hloop2, hidx2, hwf2, hpres2, hsub2, hlease2⟩ :=
      ih m1 hwf1 hids1 (List.nodup_cons.mp hnd).2
    have hmemfilter : ∀ p, p ∈ m1.index ↔ (p ∈ m.index ∧ (p.1 == id) = false) := by
      intro p
      rw [hidx1]
      unfold idxRemove
      constructor
      · intro hpf
        exact ⟨List.mem_of_mem_filter hpf, by simpa using List.of_mem_filter hpf⟩
      · intro ⟨h1, h2⟩
        exact List.mem_filter.mpr ⟨h1, by simpa using h2⟩
    refine ⟨m2, by rw [hstep]; exact hloop2, ?_, hwf2, ?_, ?_, ?_⟩
    · rw [hidx2, hidx1]
      unfold idxRemove
      rw [List.filter_filter]
      apply List.filter_congr
      intro p hp
      by_cases hpe : p.1 = id <;> simp [List.contains_cons, Bool.and_comm, hpe]
    · intro p hp
      have hp1 : p ∈ m1.index := by
        rw [hidx2] at hp
        exact List.mem_of_mem_filter hp
      have hpm : p ∈ m.index := ((hmemfilter p).mp hp1).1
      have hpne : p.1 ≠ id := by
        have := ((hmemfilter p).mp hp1).2
        simpa using this
      rw [hpres2 p hp]
      exact hpres1 p hpm hpne
    · intro x hx
      have hx1 : x ∈ m1.storage.entries := hsub2 x hx
      rw [hentries1] at hx1
      exact List.mem_of_mem_filter (List.mem_of_mem_filter hx1)
    · intro id2 hid2 t2 hgt2 x hx
      rcases List.mem_cons.mp hid2 with rfl | hid2r
      · have ht2 : t2 = t := by
          rw [hgt] at hgt2
          simpa using hgt2.symm
        subst ht2
        have hx1 : x ∈ m1.storage.entries := hsub2 x hx
        rw [hentries1] at hx1
        have := List.of_mem_filter hx1
        intro ⟨hc1, hc2⟩
        simp only [Bool.not_eq_true', Bool.and_eq_false_iff, beq_eq_false_iff_ne, ne_eq] at this
        rcases this with h | h
        · exact h hc1
        · exact h hc2
      · obtain ⟨a2, hmem2⟩ := hids id2 (List.mem_cons_of_mem id hid2r)
        have hne2 : id2 ≠ id := fun hcontra => hidnotin (hcontra ▸ hid2r)
        have hgt1 : m1.get_transaction id2 = m.get_transaction id2 :=
          hpres1 (id2, a2) hmem2 hne2
        exact hlease2 id2 hid2r t2 (by rw [hgt1]; exact hgt2) x hx

theorem mem_of_contains (l : List Nat) (x : Nat) (h : l.contains x = true) : x ∈ l :=
  List.elem_iff.mp (by simpa [List.contains] using h)

theorem wf_get_transaction (m : TransactionManager) (hwf : m.wf) (p : Nat × Nat)
    (hp : p ∈ m.index) : ∃ t : Transaction,
    m.get_transaction p.1 = .ok t ∧ t.xid = p.1 ∧ t.uid = p.2 := by
  obtain ⟨hnd1, hnd2, hres⟩ := hwf
  obtain ⟨t, hget, hxid, huid⟩ := hres p hp
  have hpmem : (p.1, p.2) ∈ m.index := by rw [Prod.mk.eta]; exact hp
  have hfind := find?_of_mem_nodupKeys m.index p.1 p.2 hpmem hnd1
  refine ⟨t, ?_, hxid, huid⟩
  unfold TransactionManager.get_transaction TransactionManager.get_transaction_address
  rw [hfind]
  simp only [Option.map]
  rw [show m.storage.get p.2 = some (.transaction t) from by
    unfold Storage.get; rw [hget]; rfl]

/-! ## C8 -/

/-- **C8** — confirmed: for a well-formed manager, `watchout()` succeeds
and afterwards the index holds exactly the transactions that were not
stale (those with `now − start > 30 s` are aborted and removed, the rest
are kept with their records untouched); every remaining transaction is at
most 30 seconds old, and each aborted transaction's pending-lease entry
is gone from the pending pool. -/
theorem C8_watchout_removes_stale (m : TransactionManager) (now : Int) (hwf : m.wf) :
    ∃ m2, m.watchout now = (.ok (), m2) ∧
      m2.index = m.index.filter (fun p => !staleAt m now p.1) ∧
      (∀ p ∈ m2.index, ∃ t : Transaction,
        m2.get_transaction p.1 = .ok t ∧ now - t.start ≤ 30) ∧
      (∀ p ∈ m.index, staleAt m now p.1 = true →
        ∀ t : Transaction, m.get_transaction p.1 = .ok t →
          ∀ x ∈ m2.storage.entries,
            ¬(x.1 = t.pending_lease_address ∧ x.2.1 = "PendingLeases")) := by
  have hkeys : (m.index.map Prod.fst).Nodup := hwf.1
  have hw : m.watchout now
      = abortLoop m ((m.index.map (fun e => e.1)).filter (staleAt m now)) := rfl
  have hids : ∀ id ∈ (m.index.map (fun e => e.1)).filter (staleAt m now),
      ∃ a, (id, a) ∈ m.index := by
    intro id hid
    have := List.mem_of_mem_filter hid
    obtain ⟨p, hp, hp1⟩ := List.mem_map.mp this
    exact ⟨p.2, by rw [← hp1, Prod.mk.eta]; exact hp⟩
  have hnd : ((m.index.map (fun e => e.1)).filter (staleAt m now)).Nodup :=
    (List.filter_sublist _).nodup (by simpa using hkeys)
  obtain ⟨m2, hloop, hidx, hwf2, hpres, hsub, hlease⟩ :=
    abortLoop_spec _ m hwf hids hnd
  refine ⟨m2, by rw [hw]; exact hloop, ?_, ?_, ?_⟩
  · rw [hidx]
    apply List.filter_congr
    intro p hp
    by_cases hstale : staleAt m now p.1 = true
    · have hmemIds : p.1 ∈ (m.index.map (fun e => e.1)).filter (staleAt m now) :=
        List.mem_filter.mpr ⟨List.mem_map_of_mem _ hp, hstale⟩
      rw [contains_of_mem _ _ hmemIds, hstale]
    · have hsf : staleAt m now p.1 = false := by
        cases hb : staleAt m now p.1
        · rfl
        · exact absurd hb hstale
      have hcf : ((m.index.map (fun e => e.1)).filter (staleAt m now)).contains p.1
          = false := by
        cases hb : ((m.index.map (fun e => e.1)).filter (staleAt m now)).contains p.1
        · rfl
        · exact absurd (List.of_mem_filter (mem_of_contains _ _ hb)) hstale
      rw [hcf, hsf]
  · intro p hp
    have hpm1 : p ∈ m.index ∧
        ((m.index.map (fun e => e.1)).filter (staleAt m now)).contains p.1 = false := by
      rw [hidx] at hp
      exact ⟨List.mem_of_mem_filter hp, by simpa using List.of_mem_filter hp⟩
    obtain ⟨t, hgt, hxid, huid⟩ := wf_get_transaction m hwf p hpm1.1
    refine ⟨t, by rw [hpres p hp]; exact hgt, ?_⟩
    have hsf : staleAt m now p.1 = false := by
      cases hb : staleAt m now p.1
      · rfl
      · have hmemIds : p.1 ∈ (m.index.map (fun e => e.1)).filter (staleAt m now) :=
          List.mem_filter.mpr ⟨List.mem_map_of_mem _ hpm1.1, hb⟩
        rw [contains_of_mem _ _ hmemIds] at hpm1
        exact absurd hpm1.2 (by simp)
    unfold staleAt at hsf
    rw [hgt] at hsf
    unfold Transaction.outdated at hsf
    simpa using hsf
  · intro p hp hstale t hgt x hx
    have hmemIds : p.1 ∈ (m.index.map (fun e => e.1)).filter (staleAt m now) :=
      List.mem_filter.mpr ⟨List.mem_map_of_mem _ hp, hstale⟩
    exact hlease p.1 hmemIds t hgt x hx

/-- **C8** — witness: on `c8Manager` (one transaction started at 0, one
at 100) a sweep at time 120 keeps exactly the fresh one. -/
theorem C8_watchout_removes_stale_witness :
    ∃ m2, c8Manager.watchout 120 = (.ok (), m2) ∧
      m2.index = c8Manager.index.filter (fun p => !staleAt c8Manager 120 p.1) ∧
      (∀ p ∈ m2.index, ∃ t : Transaction,
        m2.get_transaction p.1 = .ok t ∧ 120 - t.start ≤ 30) ∧
      (∀ p ∈ c8Manager.index, staleAt c8Manager 120 p.1 = true →
        ∀ t : Transaction, c8Manager.get_transaction p.1 = .ok t →
          ∀ x ∈ m2.storage.entries,
            ¬(x.1 = t.pending_lease_address ∧ x.2.1 = "PendingLeases")) :=
  C8_watchout_removes_stale c8Manager 120 ⟨by decide, by decide, by
    intro p hp
    rcases List.mem_cons.mp hp with rfl | hp2
    · exact ⟨⟨.pending, 0, 0, 5, 1⟩, by rfl, rfl, rfl⟩
    · rcases List.mem_cons.mp hp2 with rfl | hp3
      · exact ⟨⟨.pending, 100, 0, 7, 2⟩, by rfl, rfl, rfl⟩
      · simp at hp3⟩

/-! ## C1 helper lemmas: bytes and arithmetic -/

theorem readU32BE_toBE32 (m : Nat) (h : m < 2 ^ 32) : readU32BE (toBE32 m) = m := by
  unfold readU32BE toBE32
  simp only [List.getD]
  norm_num
  omega

theorem readU16BE_toBE16 (v : Nat) (h : v < 2 ^ 16) : readU16BE (toBE16 v) = v := by
  unfold readU16BE toBE16
  simp only [List.getD]
  norm_num
  omega

theorem toBE32_length (m : Nat) : (toBE32 m).length = 4 := rfl

theorem toBE16_length (v : Nat) : (toBE16 v).length = 2 := rfl

theorem byteValid_getD (l : List Nat) (h : byteValid l) (i : Nat) : l.getD i 0 < 256 := by
  by_cases hi : i < l.length
  · rw [List.getD_eq_getElem l 0 hi]
    exact h _ (List.getElem_mem hi)
  · rw [List.getD_eq_default l 0 (by omega)]
    norm_num

theorem byteValid_readU32BE (l : List Nat) (h : byteValid l) : readU32BE l < 2 ^ 32 := by
  unfold readU32BE
  have h0 := byteValid_getD l h 0
  have h1 := byteValid_getD l h 1
  have h2 := byteValid_getD l h 2
  have h3 := byteValid_getD l h 3
  omega

theorem byteValid_readU16BE (l : List Nat) (h : byteValid l) : readU16BE l < 2 ^ 16 := by
  unfold readU16BE
  have h0 := byteValid_getD l h 0
  have h1 := byteValid_getD l h 1
  omega

theorem byteValid_cons (b : Nat) (l : List Nat) (h : byteValid (b :: l)) :
    b < 256 ∧ byteValid l :=
  ⟨h b (List.mem_cons_self b l), fun x hx => h x (List.mem_cons_of_mem b hx)⟩

theorem byteValid_take (l : List Nat) (n : Nat) (h : byteValid l) : byteValid (l.take n) :=
  fun x hx => h x (List.mem_of_mem_take hx)

theorem byteValid_drop (l : List Nat) (n : Nat) (h : byteValid l) : byteValid (l.drop n) :=
  fun x hx => h x (List.mem_of_mem_drop hx)

theorem mem_hsInsert_of_ne (s : List Nat) (x c : Nat) (h : c ∈ hsInsert s x)
    (hne : c ≠ x) : c ∈ s := by
  rcases (hsInsert_mem s x c).mp h with h1 | h2
  · exact h1
  · exact absurd h2 hne

theorem not_mem_hsInsert (s : List Nat) (x c : Nat) (h : c ∉ hsInsert s x) : c ∉ s :=
  fun hm => h ((hsInsert_mem s x c).mpr (Or.inl hm))

theorem self_mem_hsInsert (s : List Nat) (x : Nat) : x ∈ hsInsert s x :=
  (hsInsert_mem s x x).mpr (Or.inr rfl)

theorem foldl_hsInsert_of_nodup (cs : List Nat) : ∀ acc : List Nat,
    (acc ++ cs).Nodup → cs.foldl hsInsert acc = acc ++ cs := by
  induction cs with
  | nil => intro acc _; simp
  | cons c cs ih =>
    intro acc hnd
    have hc : c ∉ acc := by
      intro hmem
      have := (List.nodup_append.mp hnd).2.2
      exact this hmem (List.mem_cons_self c cs)
    have h1 : hsInsert acc c = acc ++ [c] := by simp [hsInsert, hc]
    rw [List.foldl_cons, h1, ih (acc ++ [c]) (by simpa using hnd)]
    simp

theorem parseIpv4ListFuel2_some (raw l : List Nat)
    (h : parseIpv4ListFuel 2 raw [] = some l) : l = [] := by
  by_cases hlen : raw.length < 4
  · unfold parseIpv4ListFuel at h
    cases raw with
    | nil => simpa using h.symm
    | cons a r =>
      simp only [List.isEmpty_cons, Bool.false_eq_true, if_false, hlen, if_true] at h
      simpa using h.symm
  · rw [parseIpv4ListFuel_none_of_four_le raw (by omega) 2 []] at h
    exact absurd h (by simp)

theorem hsInsert_idem (s : List Nat) (x : Nat) : hsInsert (hsInsert s x) x = hsInsert s x := by
  unfold hsInsert
  by_cases h : x ∈ s <;> simp [h]

theorem foldl_add_param (l : List Nat) : ∀ acc : DhcpOptions,
    l.foldl DhcpOptions.add_parameter_request acc =
      { acc with
        defined_options := if l = [] then acc.defined_options
          else hsInsert acc.defined_options 55,
        parameter_request :=
          match acc.parameter_request with
          | some p => if l = [] then some p else some (p ++ l)
          | none => if l = [] then none else some l } := by
  induction l with
  | nil =>
    intro acc
    cases hp : acc.parameter_request <;> (simp [hp]; rw [← hp])
  | cons a l ih =>
    intro acc
    rw [List.foldl_cons, ih]
    unfold DhcpOptions.add_parameter_request
    cases hp : acc.parameter_request <;>
      by_cases hl : l = [] <;>
        simp [hp, hl, hsInsert_idem]

theorem DecodedWF_new : DecodedWF DhcpOptions.new := by
  constructor <;> simp [DhcpOptions.new]

/-! ## DecodedWF preservation under the decode-time setters -/

theorem wf_set_subnet_mask (o : DhcpOptions) (h : DecodedWF o) (v : Option Nat)
    (hv : ∀ m, v = some m → m < 2 ^ 32) : DecodedWF (o.set_subnet_mask v) := by
  unfold DhcpOptions.set_subnet_mask
  constructor <;>
    first
      | exact h.output_none
      | exact hsInsert_nodup _ _ h.defined_nodup
      | (intro c hc
         rcases (hsInsert_mem _ _ _).mp hc with h1 | rfl
         · exact h.defined_sub _ h1
         · decide)
      | exact h.router_none
      | exact h.log_none
      | exact h.ntp_none
      | exact fun hm => h.mask_some (mem_hsInsert_of_ne _ _ _ hm (by decide))
      | exact fun hm => h.mask_none (not_mem_hsInsert _ _ _ hm)
      | exact fun hm => h.ts_some (mem_hsInsert_of_ne _ _ _ hm (by decide))
      | exact fun hm => h.ts_none (not_mem_hsInsert _ _ _ hm)
      | exact fun hm => h.ns_some (mem_hsInsert_of_ne _ _ _ hm (by decide))
      | exact fun hm => h.ns_none (not_mem_hsInsert _ _ _ hm)
      | exact fun hm => h.host_some (mem_hsInsert_of_ne _ _ _ hm (by decide))
      | exact fun hm => h.host_none (not_mem_hsInsert _ _ _ hm)
      | exact fun hm => h.domain_some (mem_hsInsert_of_ne _ _ _ hm (by decide))
      | exact fun hm => h.domain_none (not_mem_hsInsert _ _ _ hm)
      | exact fun hm => h.mtu_some (mem_hsInsert_of_ne _ _ _ hm (by decide))
      | exact fun hm => h.mtu_none (not_mem_hsInsert _ _ _ hm)
      | exact fun hm => h.bcast_some (mem_hsInsert_of_ne _ _ _ hm (by decide))
      | exact fun hm => h.bcast_none (not_mem_hsInsert _ _ _ hm)
      | exact fun hm => h.req_some (mem_hsInsert_of_ne _ _ _ hm (by decide))
      | exact fun hm => h.req_none (not_mem_hsInsert _ _ _ hm)
      | exact fun hm => h.lease_some (mem_hsInsert_of_ne _ _ _ hm (by decide))
      | exact fun hm => h.lease_none (not_mem_hsInsert _ _ _ hm)
      | exact fun hm => h.msg_some (mem_hsInsert_of_ne _ _ _ hm (by decide))
      | exact fun hm => h.msg_none (not_mem_hsInsert _ _ _ hm)
      | exact fun hm => h.serv_some (mem_hsInsert_of_ne _ _ _ hm (by decide))
      | exact fun hm => h.serv_none (not_mem_hsInsert _ _ _ hm)
      | exact fun hm => h.param_some (mem_hsInsert_of_ne _ _ _ hm (by decide))
      | exact fun hm => h.param_none (not_mem_hsInsert _ _ _ hm)
      | exact fun hm => h.renew_some (mem_hsInsert_of_ne _ _ _ hm (by decide))
      | exact fun hm => h.renew_none (not_mem_hsInsert _ _ _ hm)
      | exact fun hm => h.rebind_some (mem_hsInsert_of_ne _ _ _ hm (by decide))
      | exact fun hm => h.rebind_none (not_mem_hsInsert _ _ _ hm)
      | exact fun hm => h.cid_some (mem_hsInsert_of_ne _ _ _ hm (by decide))
      | exact fun hm => h.cid_none (not_mem_hsInsert _ _ _ hm)
      | exact fun _ => hv
      | (intro hnot; exact absurd (self_mem_hsInsert _ _) hnot)

theorem wf_set_time_server (o : DhcpOptions) (h : DecodedWF o) (v : Option (List Nat))
    (hv : v = some []) : DecodedWF (o.set_time_server v) := by
  unfold DhcpOptions.set_time_server
  constructor <;>
    first
      | exact h.output_none
      | exact hsInsert_nodup _ _ h.defined_nodup
      | (intro c hc
         rcases (hsInsert_mem _ _ _).mp hc with h1 | rfl
         · exact h.defined_sub _ h1
         · decide)
      | exact h.router_none
      | exact h.log_none
      | exact h.ntp_none
      | exact fun hm => h.mask_some (mem_hsInsert_of_ne _ _ _ hm (by decide))
      | exact fun hm => h.mask_none (not_mem_hsInsert _ _ _ hm)
      | exact fun hm => h.ts_some (mem_hsInsert_of_ne _ _ _ hm (by decide))
      | exact fun hm => h.ts_none (not_mem_hsInsert _ _ _ hm)
      | exact fun hm => h.ns_some (mem_hsInsert_of_ne _ _ _ hm (by decide))
      | exact fun hm => h.ns_none (not_mem_hsInsert _ _ _ hm)
      | exact fun hm => h.host_some (mem_hsInsert_of_ne _ _ _ hm (by decide))
      | exact fun hm => h.host_none (not_mem_hsInsert _ _ _ hm)
      | exact fun hm => h.domain_some (mem_hsInsert_of_ne _ _ _ hm (by decide))
      | exact fun hm => h.domain_none (not_mem_hsInsert _ _ _ hm)
      | exact fun hm => h.mtu_some (mem_hsInsert_of_ne _ _ _ hm (by decide))
      | exact fun hm => h.mtu_none (not_mem_hsInsert _ _ _ hm)
      | exact fun hm => h.bcast_some (mem_hsInsert_of_ne _ _ _ hm (by decide))
      | exact fun hm => h.bcast_none (not_mem_hsInsert _ _ _ hm)
      | exact fun hm => h.req_some (mem_hsInsert_of_ne _ _ _ hm (by decide))
      | exact fun hm => h.req_none (not_mem_hsInsert _ _ _ hm)
      | exact fun hm => h.lease_some (mem_hsInsert_of_ne _ _ _ hm (by decide))
      | exact fun hm => h.lease_none (not_mem_hsInsert _ _ _ hm)
      | exact fun hm => h.msg_some (mem_hsInsert_of_ne _ _ _ hm (by decide))
      | exact fun hm => h.msg_none (not_mem_hsInsert _ _ _ hm)
      | exact fun hm => h.serv_some (mem_hsInsert_of_ne _ _ _ hm (by decide))
      | exact fun hm => h.serv_none (not_mem_hsInsert _ _ _ hm)
      | exact fun hm => h.param_some (mem_hsInsert_of_ne _ _ _ hm (by decide))
      | exact fun hm => h.param_none (not_mem_hsInsert _ _ _ hm)
      | exact fun hm => h.renew_some (mem_hsInsert_of_ne _ _ _ hm (by decide))
      | exact fun hm => h.renew_none (not_mem_hsInsert _ _ _ hm)
      | exact fun hm => h.rebind_some (mem_hsInsert_of_ne _ _ _ hm (by decide))
      | exact fun hm => h.rebind_none (not_mem_hsInsert _ _ _ hm)
      | exact fun hm => h.cid_some (mem_hsInsert_of_ne _ _ _ hm (by decide))
      | exact fun hm => h.cid_none (not_mem_hsInsert _ _ _ hm)
      | exact fun _ => hv
      | (intro hnot; exact absurd (self_mem_hsInsert _ _) hnot)

theorem wf_set_name_server (o : DhcpOptions) (h : DecodedWF o) (v : Option (List Nat))
    (hv : v = some []) : DecodedWF (o.set_name_server v) := by
  unfold DhcpOptions.set_name_server
  constructor <;>
    first
      | exact h.output_none
      | exact hsInsert_nodup _ _ h.defined_nodup
      | (intro c hc
         rcases (hsInsert_mem _ _ _).mp hc with h1 | rfl
         · exact h.defined_sub _ h1
         · decide)
      | exact h.router_none
      | exact h.log_none
      | exact h.ntp_none
      | exact fun hm => h.mask_some (mem_hsInsert_of_ne _ _ _ hm (by decide))
      | exact fun hm => h.mask_none (not_mem_hsInsert _ _ _ hm)
      | exact fun hm => h.ts_some (mem_hsInsert_of_ne _ _ _ hm (by decide))
      | exact fun hm => h.ts_none (not_mem_hsInsert _ _ _ hm)
      | exact fun hm => h.ns_some (mem_hsInsert_of_ne _ _ _ hm (by decide))
      | exact fun hm => h.ns_none (not_mem_hsInsert _ _ _ hm)
      | exact fun hm => h.host_some (mem_hsInsert_of_ne _ _ _ hm (by decide))
      | exact fun hm => h.host_none (not_mem_hsInsert _ _ _ hm)
      | exact fun hm => h.domain_some (mem_hsInsert_of_ne _ _ _ hm (by decide))
      | exact fun hm => h.domain_none (not_mem_hsInsert _ _ _ hm)
      | exact fun hm => h.mtu_some (mem_hsInsert_of_ne _ _ _ hm (by decide))
      | exact fun hm => h.mtu_none (not_mem_hsInsert _ _ _ hm)
      | exact fun hm => h.bcast_some (mem_hsInsert_of_ne _ _ _ hm (by decide))
      | exact fun hm => h.bcast_none (not_mem_hsInsert _ _ _ hm)
      | exact fun hm => h.req_some (mem_hsInsert_of_ne _ _ _ hm (by decide))
      | exact fun hm => h.req_none (not_mem_hsInsert _ _ _ hm)
      | exact fun hm => h.lease_some (mem_hsInsert_of_ne _ _ _ hm (by decide))
      | exact fun hm => h.lease_none (not_mem_hsInsert _ _ _ hm)
      | exact fun hm => h.msg_some (mem_hsInsert_of_ne _ _ _ hm (by decide))
      | exact fun hm => h.msg_none (not_mem_hsInsert _ _ _ hm)
      | exact fun hm => h.serv_some (mem_hsInsert_of_ne _ _ _ hm (by decide))
      | exact fun hm => h.serv_none (not_mem_hsInsert _ _ _ hm)
      | exact fun hm => h.param_some (mem_hsInsert_of_ne _ _ _ hm (by decide))
      | exact fun hm => h.param_none (not_mem_hsInsert _ _ _ hm)
      | exact fun hm => h.renew_some (mem_hsInsert_of_ne _ _ _ hm (by decide))
      | exact fun hm => h.renew_none (not_mem_hsInsert _ _ _ hm)
      | exact fun hm => h.rebind_some (mem_hsInsert_of_ne _ _ _ hm (by decide))
      | exact fun hm => h.rebind_none (not_mem_hsInsert _ _ _ hm)
      | exact fun hm => h.cid_some (mem_hsInsert_of_ne _ _ _ hm (by decide))
      | exact fun hm => h.cid_none (not_mem_hsInsert _ _ _ hm)
      | exact fun _ => hv
      | (intro hnot; exact absurd (self_mem_hsInsert _ _) hnot)

theorem wf_set_hostname (o : DhcpOptions) (h : DecodedWF o) (v : Option (List Nat))
    (hv : ∃ s, v = some s ∧ validUtf8 s = true ∧ s.length ≤ 255) : DecodedWF (o.set_hostname v) := by
  unfold DhcpOptions.set_hostname
  constructor <;>
    first
      | exact h.output_none
      | exact hsInsert_nodup _ _ h.defined_nodup
      | (intro c hc
         rcases (hsInsert_mem _ _ _).mp hc with h1 | rfl
         · exact h.defined_sub _ h1
         · decide)
      | exact h.router_none
      | exact h.log_none
      | exact h.ntp_none
      | exact fun hm => h.mask_some (mem_hsInsert_of_ne _ _ _ hm (by decide))
      | exact fun hm => h.mask_none (not_mem_hsInsert _ _ _ hm)
      | exact fun hm => h.ts_some (mem_hsInsert_of_ne _ _ _ hm (by decide))
      | exact fun hm => h.ts_none (not_mem_hsInsert _ _ _ hm)
      | exact fun hm => h.ns_some (mem_hsInsert_of_ne _ _ _ hm (by decide))
      | exact fun hm => h.ns_none (not_mem_hsInsert _ _ _ hm)
      | exact fun hm => h.host_some (mem_hsInsert_of_ne _ _ _ hm (by decide))
      | exact fun hm => h.host_none (not_mem_hsInsert _ _ _ hm)
      | exact fun hm => h.domain_some (mem_hsInsert_of_ne _ _ _ hm (by decide))
      | exact fun hm => h.domain_none (not_mem_hsInsert _ _ _ hm)
      | exact fun hm => h.mtu_some (mem_hsInsert_of_ne _ _ _ hm (by decide))
      | exact fun hm => h.mtu_none (not_mem_hsInsert _ _ _ hm)
      | exact fun hm => h.bcast_some (mem_hsInsert_of_ne _ _ _ hm (by decide))
      | exact fun hm => h.bcast_none (not_mem_hsInsert _ _ _ hm)
      | exact fun hm => h.req_some (mem_hsInsert_of_ne _ _ _ hm (by decide))
      | exact fun hm => h.req_none (not_mem_hsInsert _ _ _ hm)
      | exact fun hm => h.lease_some (mem_hsInsert_of_ne _ _ _ hm (by decide))
      | exact fun hm => h.lease_none (not_mem_hsInsert _ _ _ hm)
      | exact fun hm => h.msg_some (mem_hsInsert_of_ne _ _ _ hm (by decide))
      | exact fun hm => h.msg_none (not_mem_hsInsert _ _ _ hm)
      | exact fun hm => h.serv_some (mem_hsInsert_of_ne _ _ _ hm (by decide))
      | exact fun hm => h.serv_none (not_mem_hsInsert _ _ _ hm)
      | exact fun hm => h.param_some (mem_hsInsert_of_ne _ _ _ hm (by decide))
      | exact fun hm => h.param_none (not_mem_hsInsert _ _ _ hm)
      | exact fun hm => h.renew_some (mem_hsInsert_of_ne _ _ _ hm (by decide))
      | exact fun hm => h.renew_none (not_mem_hsInsert _ _ _ hm)
      | exact fun hm => h.rebind_some (mem_hsInsert_of_ne _ _ _ hm (by decide))
      | exact fun hm => h.rebind_none (not_mem_hsInsert _ _ _ hm)
      | exact fun hm => h.cid_some (mem_hsInsert_of_ne _ _ _ hm (by decide))
      | exact fun hm => h.cid_none (not_mem_hsInsert _ _ _ hm)
      | exact fun _ => hv
      | (intro hnot; exact absurd (self_mem_hsInsert _ _) hnot)

theorem wf_set_domain_name (o : DhcpOptions) (h : DecodedWF o) (v : Option (List Nat))
    (hv : ∃ s, v = some s ∧ validUtf8 s = true ∧ s.length ≤ 255) : DecodedWF (o.set_domain_name v) := by
  unfold DhcpOptions.set_domain_name
  constructor <;>
    first
      | exact h.output_none
      | exact hsInsert_nodup _ _ h.defined_nodup
      | (intro c hc
         rcases (hsInsert_mem _ _ _).mp hc with h1 | rfl
         · exact h.defined_sub _ h1
         · decide)
      | exact h.router_none
      | exact h.log_none
      | exact h.ntp_none
      | exact fun hm => h.mask_some (mem_hsInsert_of_ne _ _ _ hm (by decide))
      | exact fun hm => h.mask_none (not_mem_hsInsert _ _ _ hm)
      | exact fun hm => h.ts_some (mem_hsInsert_of_ne _ _ _ hm (by decide))
      | exact fun hm => h.ts_none (not_mem_hsInsert _ _ _ hm)
      | exact fun hm => h.ns_some (mem_hsInsert_of_ne _ _ _ hm (by decide))
      | exact fun hm => h.ns_none (not_mem_hsInsert _ _ _ hm)
      | exact fun hm => h.host_some (mem_hsInsert_of_ne _ _ _ hm (by decide))
      | exact fun hm => h.host_none (not_mem_hsInsert _ _ _ hm)
      | exact fun hm => h.domain_some (mem_hsInsert_of_ne _ _ _ hm (by decide))
      | exact fun hm => h.domain_none (not_mem_hsInsert _ _ _ hm)
      | exact fun hm => h.mtu_some (mem_hsInsert_of_ne _ _ _ hm (by decide))
      | exact fun hm => h.mtu_none (not_mem_hsInsert _ _ _ hm)
      | exact fun hm => h.bcast_some (mem_hsInsert_of_ne _ _ _ hm (by decide))
      | exact fun hm => h.bcast_none (not_mem_hsInsert _ _ _ hm)
      | exact fun hm => h.req_some (mem_hsInsert_of_ne _ _ _ hm (by decide))
      | exact fun hm => h.req_none (not_mem_hsInsert _ _ _ hm)
      | exact fun hm => h.lease_some (mem_hsInsert_of_ne _ _ _ hm (by decide))
      | exact fun hm => h.lease_none (not_mem_hsInsert _ _ _ hm)
      | exact fun hm => h.msg_some (mem_hsInsert_of_ne _ _ _ hm (by decide))
      | exact fun hm => h.msg_none (not_mem_hsInsert _ _ _ hm)
      | exact fun hm => h.serv_some (mem_hsInsert_of_ne _ _ _ hm (by decide))
      | exact fun hm => h.serv_none (not_mem_hsInsert _ _ _ hm)
      | exact fun hm => h.param_some (mem_hsInsert_of_ne _ _ _ hm (by decide))
      | exact fun hm => h.param_none (not_mem_hsInsert _ _ _ hm)
      | exact fun hm => h.renew_some (mem_hsInsert_of_ne _ _ _ hm (by decide))
      | exact fun hm => h.renew_none (not_mem_hsInsert _ _ _ hm)
      | exact fun hm => h.rebind_some (mem_hsInsert_of_ne _ _ _ hm (by decide))
      | exact fun hm => h.rebind_none (not_mem_hsInsert _ _ _ hm)
      | exact fun hm => h.cid_some (mem_hsInsert_of_ne _ _ _ hm (by decide))
      | exact fun hm => h.cid_none (not_mem_hsInsert _ _ _ hm)
      | exact fun _ => hv
      | (intro hnot; exact absurd (self_mem_hsInsert _ _) hnot)

theorem wf_set_interface_mtu (o : DhcpOptions) (h : DecodedWF o) (v : Option Nat)
    (hv : ∃ u, v = some u ∧ u < 2 ^ 16) : DecodedWF (o.set_interface_mtu v) := by
  unfold DhcpOptions.set_interface_mtu
  constructor <;>
    first
      | exact h.output_none
      | exact hsInsert_nodup _ _ h.defined_nodup
      | (intro c hc
         rcases (hsInsert_mem _ _ _).mp hc with h1 | rfl
         · exact h.defined_sub _ h1
         · decide)
      | exact h.router_none
      | exact h.log_none
      | exact h.ntp_none
      | exact fun hm => h.mask_some (mem_hsInsert_of_ne _ _ _ hm (by decide))
      | exact fun hm => h.mask_none (not_mem_hsInsert _ _ _ hm)
      | exact fun hm => h.ts_some (mem_hsInsert_of_ne _ _ _ hm (by decide))
      | exact fun hm => h.ts_none (not_mem_hsInsert _ _ _ hm)
      | exact fun hm => h.ns_some (mem_hsInsert_of_ne _ _ _ hm (by decide))
      | exact fun hm => h.ns_none (not_mem_hsInsert _ _ _ hm)
      | exact fun hm => h.host_some (mem_hsInsert_of_ne _ _ _ hm (by decide))
      | exact fun hm => h.host_none (not_mem_hsInsert _ _ _ hm)
      | exact fun hm => h.domain_some (mem_hsInsert_of_ne _ _ _ hm (by decide))
      | exact fun hm => h.domain_none (not_mem_hsInsert _ _ _ hm)
      | exact fun hm => h.mtu_some (mem_hsInsert_of_ne _ _ _ hm (by decide))
      | exact fun hm => h.mtu_none (not_mem_hsInsert _ _ _ hm)
      | exact fun hm => h.bcast_some (mem_hsInsert_of_ne _ _ _ hm (by decide))
      | exact fun hm => h.bcast_none (not_mem_hsInsert _ _ _ hm)
      | exact fun hm => h.req_some (mem_hsInsert_of_ne _ _ _ hm (by decide))
      | exact fun hm => h.req_none (not_mem_hsInsert _ _ _ hm)
      | exact fun hm => h.lease_some (mem_hsInsert_of_ne _ _ _ hm (by decide))
      | exact fun hm => h.lease_none (not_mem_hsInsert _ _ _ hm)
      | exact fun hm => h.msg_some (mem_hsInsert_of_ne _ _ _ hm (by decide))
      | exact fun hm => h.msg_none (not_mem_hsInsert _ _ _ hm)
      | exact fun hm => h.serv_some (mem_hsInsert_of_ne _ _ _ hm (by decide))
      | exact fun hm => h.serv_none (not_mem_hsInsert _ _ _ hm)
      | exact fun hm => h.param_some (mem_hsInsert_of_ne _ _ _ hm (by decide))
      | exact fun hm => h.param_none (not_mem_hsInsert _ _ _ hm)
      | exact fun hm => h.renew_some (mem_hsInsert_of_ne _ _ _ hm (by decide))
      | exact fun hm => h.renew_none (not_mem_hsInsert _ _ _ hm)
      | exact fun hm => h.rebind_some (mem_hsInsert_of_ne _ _ _ hm (by decide))
      | exact fun hm => h.rebind_none (not_mem_hsInsert _ _ _ hm)
      | exact fun hm => h.cid_some (mem_hsInsert_of_ne _ _ _ hm (by decide))
      | exact fun hm => h.cid_none (not_mem_hsInsert _ _ _ hm)
      | exact fun _ => hv
      | (intro hnot; exact absurd (self_mem_hsInsert _ _) hnot)

theorem wf_set_broadcast_addr (o : DhcpOptions) (h : DecodedWF o) (v : Option Nat)
    (hv : ∀ b, v = some b → b < 2 ^ 32) : DecodedWF (o.set_broadcast_addr v) := by
  unfold DhcpOptions.set_broadcast_addr
  constructor <;>
    first
      | exact h.output_none
      | exact hsInsert_nodup _ _ h.defined_nodup
      | (intro c hc
         rcases (hsInsert_mem _ _ _).mp hc with h1 | rfl
         · exact h.defined_sub _ h1
         · decide)
      | exact h.router_none
      | exact h.log_none
      | exact h.ntp_none
      | exact fun hm => h.mask_some (mem_hsInsert_of_ne _ _ _ hm (by decide))
      | exact fun hm => h.mask_none (not_mem_hsInsert _ _ _ hm)
      | exact fun hm => h.ts_some (mem_hsInsert_of_ne _ _ _ hm (by decide))
      | exact fun hm => h.ts_none (not_mem_hsInsert _ _ _ hm)
      | exact fun hm => h.ns_some (mem_hsInsert_of_ne _ _ _ hm (by decide))
      | exact fun hm => h.ns_none (not_mem_hsInsert _ _ _ hm)
      | exact fun hm => h.host_some (mem_hsInsert_of_ne _ _ _ hm (by decide))
      | exact fun hm => h.host_none (not_mem_hsInsert _ _ _ hm)
      | exact fun hm => h.domain_some (mem_hsInsert_of_ne _ _ _ hm (by decide))
      | exact fun hm => h.domain_none (not_mem_hsInsert _ _ _ hm)
      | exact fun hm => h.mtu_some (mem_hsInsert_of_ne _ _ _ hm (by decide))
      | exact fun hm => h.mtu_none (not_mem_hsInsert _ _ _ hm)
      | exact fun hm => h.bcast_some (mem_hsInsert_of_ne _ _ _ hm (by decide))
      | exact fun hm => h.bcast_none (not_mem_hsInsert _ _ _ hm)
      | exact fun hm => h.req_some (mem_hsInsert_of_ne _ _ _ hm (by decide))
      | exact fun hm => h.req_none (not_mem_hsInsert _ _ _ hm)
      | exact fun hm => h.lease_some (mem_hsInsert_of_ne _ _ _ hm (by decide))
      | exact fun hm => h.lease_none (not_mem_hsInsert _ _ _ hm)
      | exact fun hm => h.msg_some (mem_hsInsert_of_ne _ _ _ hm (by decide))
      | exact fun hm => h.msg_none (not_mem_hsInsert _ _ _ hm)
      | exact fun hm => h.serv_some (mem_hsInsert_of_ne _ _ _ hm (by decide))
      | exact fun hm => h.serv_none (not_mem_hsInsert _ _ _ hm)
      | exact fun hm => h.param_some (mem_hsInsert_of_ne _ _ _ hm (by decide))
      | exact fun hm => h.param_none (not_mem_hsInsert _ _ _ hm)
      | exact fun hm => h.renew_some (mem_hsInsert_of_ne _ _ _ hm (by decide))
      | exact fun hm => h.renew_none (not_mem_hsInsert _ _ _ hm)
      | exact fun hm => h.rebind_some (mem_hsInsert_of_ne _ _ _ hm (by decide))
      | exact fun hm => h.rebind_none (not_mem_hsInsert _ _ _ hm)
      | exact fun hm => h.cid_some (mem_hsInsert_of_ne _ _ _ hm (by decide))
      | exact fun hm => h.cid_none (not_mem_hsInsert _ _ _ hm)
      | exact fun _ => hv
      | (intro hnot; exact absurd (self_mem_hsInsert _ _) hnot)

theorem wf_set_requested_ip (o : DhcpOptions) (h : DecodedWF o) (v : Option Nat)
    (hv : ∀ r, v = some r → r < 2 ^ 32) : DecodedWF (o.set_requested_ip v) := by
  unfold DhcpOptions.set_requested_ip
  constructor <;>
    first
      | exact h.output_none
      | exact hsInsert_nodup _ _ h.defined_nodup
      | (intro c hc
         rcases (hsInsert_mem _ _ _).mp hc with h1 | rfl
         · exact h.defined_sub _ h1
         · decide)
      | exact h.router_none
      | exact h.log_none
      | exact h.ntp_none
      | exact fun hm => h.mask_some (mem_hsInsert_of_ne _ _ _ hm (by decide))
      | exact fun hm => h.mask_none (not_mem_hsInsert _ _ _ hm)
      | exact fun hm => h.ts_some (mem_hsInsert_of_ne _ _ _ hm (by decide))
      | exact fun hm => h.ts_none (not_mem_hsInsert _ _ _ hm)
      | exact fun hm => h.ns_some (mem_hsInsert_of_ne _ _ _ hm (by decide))
      | exact fun hm => h.ns_none (not_mem_hsInsert _ _ _ hm)
      | exact fun hm => h.host_some (mem_hsInsert_of_ne _ _ _ hm (by decide))
      | exact fun hm => h.host_none (not_mem_hsInsert _ _ _ hm)
      | exact fun hm => h.domain_some (mem_hsInsert_of_ne _ _ _ hm (by decide))
      | exact fun hm => h.domain_none (not_mem_hsInsert _ _ _ hm)
      | exact fun hm => h.mtu_some (mem_hsInsert_of_ne _ _ _ hm (by decide))
      | exact fun hm => h.mtu_none (not_mem_hsInsert _ _ _ hm)
      | exact fun hm => h.bcast_some (mem_hsInsert_of_ne _ _ _ hm (by decide))
      | exact fun hm => h.bcast_none (not_mem_hsInsert _ _ _ hm)
      | exact fun hm => h.req_some (mem_hsInsert_of_ne _ _ _ hm (by decide))
      | exact fun hm => h.req_none (not_mem_hsInsert _ _ _ hm)
      | exact fun hm => h.lease_some (mem_hsInsert_of_ne _ _ _ hm (by decide))
      | exact fun hm => h.lease_none (not_mem_hsInsert _ _ _ hm)
      | exact fun hm => h.msg_some (mem_hsInsert_of_ne _ _ _ hm (by decide))
      | exact fun hm => h.msg_none (not_mem_hsInsert _ _ _ hm)
      | exact fun hm => h.serv_some (mem_hsInsert_of_ne _ _ _ hm (by decide))
      | exact fun hm => h.serv_none (not_mem_hsInsert _ _ _ hm)
      | exact fun hm => h.param_some (mem_hsInsert_of_ne _ _ _ hm (by decide))
      | exact fun hm => h.param_none (not_mem_hsInsert _ _ _ hm)
      | exact fun hm => h.renew_some (mem_hsInsert_of_ne _ _ _ hm (by decide))
      | exact fun hm => h.renew_none (not_mem_hsInsert _ _ _ hm)
      | exact fun hm => h.rebind_some (mem_hsInsert_of_ne _ _ _ hm (by decide))
      | exact fun hm => h.rebind_none (not_mem_hsInsert _ _ _ hm)
      | exact fun hm => h.cid_some (mem_hsInsert_of_ne _ _ _ hm (by decide))
      | exact fun hm => h.cid_none (not_mem_hsInsert _ _ _ hm)
      | exact fun _ => hv
      | (intro hnot; exact absurd (self_mem_hsInsert _ _) hnot)

theorem wf_set_lease_time (o : DhcpOptions) (h : DecodedWF o) (v : Option Nat)
    (hv : ∃ u, v = some u ∧ u < 2 ^ 32) : DecodedWF (o.set_lease_time v) := by
  unfold DhcpOptions.set_lease_time
  constructor <;>
    first
      | exact h.output_none
      | exact hsInsert_nodup _ _ h.defined_nodup
      | (intro c hc
         rcases (hsInsert_mem _ _ _).mp hc with h1 | rfl
         · exact h.defined_sub _ h1
         · decide)
      | exact h.router_none
      | exact h.log_none
      | exact h.ntp_none
      | exact fun hm => h.mask_some (mem_hsInsert_of_ne _ _ _ hm (by decide))
      | exact fun hm => h.mask_none (not_mem_hsInsert _ _ _ hm)
      | exact fun hm => h.ts_some (mem_hsInsert_of_ne _ _ _ hm (by decide))
      | exact fun hm => h.ts_none (not_mem_hsInsert _ _ _ hm)
      | exact fun hm => h.ns_some (mem_hsInsert_of_ne _ _ _ hm (by decide))
      | exact fun hm => h.ns_none (not_mem_hsInsert _ _ _ hm)
      | exact fun hm => h.host_some (mem_hsInsert_of_ne _ _ _ hm (by decide))
      | exact fun hm => h.host_none (not_mem_hsInsert _ _ _ hm)
      | exact fun hm => h.domain_some (mem_hsInsert_of_ne _ _ _ hm (by decide))
      | exact fun hm => h.domain_none (not_mem_hsInsert _ _ _ hm)
      | exact fun hm => h.mtu_some (mem_hsInsert_of_ne _ _ _ hm (by decide))
      | exact fun hm => h.mtu_none (not_mem_hsInsert _ _ _ hm)
      | exact fun hm => h.bcast_some (mem_hsInsert_of_ne _ _ _ hm (by decide))
      | exact fun hm => h.bcast_none (not_mem_hsInsert _ _ _ hm)
      | exact fun hm => h.req_some (mem_hsInsert_of_ne _ _ _ hm (by decide))
      | exact fun hm => h.req_none (not_mem_hsInsert _ _ _ hm)
      | exact fun hm => h.lease_some (mem_hsInsert_of_ne _ _ _ hm (by decide))
      | exact fun hm => h.lease_none (not_mem_hsInsert _ _ _ hm)
      | exact fun hm => h.msg_some (mem_hsInsert_of_ne _ _ _ hm (by decide))
      | exact fun hm => h.msg_none (not_mem_hsInsert _ _ _ hm)
      | exact fun hm => h.serv_some (mem_hsInsert_of_ne _ _ _ hm (by decide))
      | exact fun hm => h.serv_none (not_mem_hsInsert _ _ _ hm)
      | exact fun hm => h.param_some (mem_hsInsert_of_ne _ _ _ hm (by decide))
      | exact fun hm => h.param_none (not_mem_hsInsert _ _ _ hm)
      | exact fun hm => h.renew_some (mem_hsInsert_of_ne _ _ _ hm (by decide))
      | exact fun hm => h.renew_none (not_mem_hsInsert _ _ _ hm)
      | exact fun hm => h.rebind_some (mem_hsInsert_of_ne _ _ _ hm (by decide))
      | exact fun hm => h.rebind_none (not_mem_hsInsert _ _ _ hm)
      | exact fun hm => h.cid_some (mem_hsInsert_of_ne _ _ _ hm (by decide))
      | exact fun hm => h.cid_none (not_mem_hsInsert _ _ _ hm)
      | exact fun _ => hv
      | (intro hnot; exact absurd (self_mem_hsInsert _ _) hnot)

theorem wf_set_message_type (o : DhcpOptions) (h : DecodedWF o) (v : Option Nat)
    (hv : ∃ u, v = some u ∧ u ≤ 9) : DecodedWF (o.set_message_type v) := by
  unfold DhcpOptions.set_message_type
  constructor <;>
    first
      | exact h.output_none
      | exact hsInsert_nodup _ _ h.defined_nodup
      | (intro c hc
         rcases (hsInsert_mem _ _ _).mp hc with h1 | rfl
         · exact h.defined_sub _ h1
         · decide)
      | exact h.router_none
      | exact h.log_none
      | exact h.ntp_none
      | exact fun hm => h.mask_some (mem_hsInsert_of_ne _ _ _ hm (by decide))
      | exact fun hm => h.mask_none (not_mem_hsInsert _ _ _ hm)
      | exact fun hm => h.ts_some (mem_hsInsert_of_ne _ _ _ hm (by decide))
      | exact fun hm => h.ts_none (not_mem_hsInsert _ _ _ hm)
      | exact fun hm => h.ns_some (mem_hsInsert_of_ne _ _ _ hm (by decide))
      | exact fun hm => h.ns_none (not_mem_hsInsert _ _ _ hm)
      | exact fun hm => h.host_some (mem_hsInsert_of_ne _ _ _ hm (by decide))
      | exact fun hm => h.host_none (not_mem_hsInsert _ _ _ hm)
      | exact fun hm => h.domain_some (mem_hsInsert_of_ne _ _ _ hm (by decide))
      | exact fun hm => h.domain_none (not_mem_hsInsert _ _ _ hm)
      | exact fun hm => h.mtu_some (mem_hsInsert_of_ne _ _ _ hm (by decide))
      | exact fun hm => h.mtu_none (not_mem_hsInsert _ _ _ hm)
      | exact fun hm => h.bcast_some (mem_hsInsert_of_ne _ _ _ hm (by decide))
      | exact fun hm => h.bcast_none (not_mem_hsInsert _ _ _ hm)
      | exact fun hm => h.req_some (mem_hsInsert_of_ne _ _ _ hm (by decide))
      | exact fun hm => h.req_none (not_mem_hsInsert _ _ _ hm)
      | exact fun hm => h.lease_some (mem_hsInsert_of_ne _ _ _ hm (by decide))
      | exact fun hm => h.lease_none (not_mem_hsInsert _ _ _ hm)
      | exact fun hm => h.msg_some (mem_hsInsert_of_ne _ _ _ hm (by decide))
      | exact fun hm => h.msg_none (not_mem_hsInsert _ _ _ hm)
      | exact fun hm => h.serv_some (mem_hsInsert_of_ne _ _ _ hm (by decide))
      | exact fun hm => h.serv_none (not_mem_hsInsert _ _ _ hm)
      | exact fun hm => h.param_some (mem_hsInsert_of_ne _ _ _ hm (by decide))
      | exact fun hm => h.param_none (not_mem_hsInsert _ _ _ hm)
      | exact fun hm => h.renew_some (mem_hsInsert_of_ne _ _ _ hm (by decide))
      | exact fun hm => h.renew_none (not_mem_hsInsert _ _ _ hm)
      | exact fun hm => h.rebind_some (mem_hsInsert_of_ne _ _ _ hm (by decide))
      | exact fun hm => h.rebind_none (not_mem_hsInsert _ _ _ hm)
      | exact fun hm => h.cid_some (mem_hsInsert_of_ne _ _ _ hm (by decide))
      | exact fun hm => h.cid_none (not_mem_hsInsert _ _ _ hm)
      | exact fun _ => hv
      | (intro hnot; exact absurd (self_mem_hsInsert _ _) hnot)

theorem wf_set_server_identifier (o : DhcpOptions) (h : DecodedWF o) (v : Option Nat)
    (hv : ∃ u, v = some u ∧ u < 2 ^ 32) : DecodedWF (o.set_server_identifier v) := by
  unfold DhcpOptions.set_server_identifier
  constructor <;>
    first
      | exact h.output_none
      | exact hsInsert_nodup _ _ h.defined_nodup
      | (intro c hc
         rcases (hsInsert_mem _ _ _).mp hc with h1 | rfl
         · exact h.defined_sub _ h1
         · decide)
      | exact h.router_none
      | exact h.log_none
      | exact h.ntp_none
      | exact fun hm => h.mask_some (mem_hsInsert_of_ne _ _ _ hm (by decide))
      | exact fun hm => h.mask_none (not_mem_hsInsert _ _ _ hm)
      | exact fun hm => h.ts_some (mem_hsInsert_of_ne _ _ _ hm (by decide))
      | exact fun hm => h.ts_none (not_mem_hsInsert _ _ _ hm)
      | exact fun hm => h.ns_some (mem_hsInsert_of_ne _ _ _ hm (by decide))
      | exact fun hm => h.ns_none (not_mem_hsInsert _ _ _ hm)
      | exact fun hm => h.host_some (mem_hsInsert_of_ne _ _ _ hm (by decide))
      | exact fun hm => h.host_none (not_mem_hsInsert _ _ _ hm)
      | exact fun hm => h.domain_some (mem_hsInsert_of_ne _ _ _ hm (by decide))
      | exact fun hm => h.domain_none (not_mem_hsInsert _ _ _ hm)
      | exact fun hm => h.mtu_some (mem_hsInsert_of_ne _ _ _ hm (by decide))
      | exact fun hm => h.mtu_none (not_mem_hsInsert _ _ _ hm)
      | exact fun hm => h.bcast_some (mem_hsInsert_of_ne _ _ _ hm (by decide))
      | exact fun hm => h.bcast_none (not_mem_hsInsert _ _ _ hm)
      | exact fun hm => h.req_some (mem_hsInsert_of_ne _ _ _ hm (by decide))
      | exact fun hm => h.req_none (not_mem_hsInsert _ _ _ hm)
      | exact fun hm => h.lease_some (mem_hsInsert_of_ne _ _ _ hm (by decide))
      | exact fun hm => h.lease_none (not_mem_hsInsert _ _ _ hm)
      | exact fun hm => h.msg_some (mem_hsInsert_of_ne _ _ _ hm (by decide))
      | exact fun hm => h.msg_none (not_mem_hsInsert _ _ _ hm)
      | exact fun hm => h.serv_some (mem_hsInsert_of_ne _ _ _ hm (by decide))
      | exact fun hm => h.serv_none (not_mem_hsInsert _ _ _ hm)
      | exact fun hm => h.param_some (mem_hsInsert_of_ne _ _ _ hm (by decide))
      | exact fun hm => h.param_none (not_mem_hsInsert _ _ _ hm)
      | exact fun hm => h.renew_some (mem_hsInsert_of_ne _ _ _ hm (by decide))
      | exact fun hm => h.renew_none (not_mem_hsInsert _ _ _ hm)
      | exact fun hm => h.rebind_some (mem_hsInsert_of_ne _ _ _ hm (by decide))
      | exact fun hm => h.rebind_none (not_mem_hsInsert _ _ _ hm)
      | exact fun hm => h.cid_some (mem_hsInsert_of_ne _ _ _ hm (by decide))
      | exact fun hm => h.cid_none (not_mem_hsInsert _ _ _ hm)
      | exact fun _ => hv
      | (intro hnot; exact absurd (self_mem_hsInsert _ _) hnot)

theorem wf_set_renewal_time (o : DhcpOptions) (h : DecodedWF o) (v : Option Nat)
    (hv : ∃ u, v = some u ∧ u < 2 ^ 32) : DecodedWF (o.set_renewal_time v) := by
  unfold DhcpOptions.set_renewal_time
  constructor <;>
    first
      | exact h.output_none
      | exact hsInsert_nodup _ _ h.defined_nodup
      | (intro c hc
         rcases (hsInsert_mem _ _ _).mp hc with h1 | rfl
         · exact h.defined_sub _ h1
         · decide)
      | exact h.router_none
      | exact h.log_none
      | exact h.ntp_none
      | exact fun hm => h.mask_some (mem_hsInsert_of_ne _ _ _ hm (by decide))
      | exact fun hm => h.mask_none (not_mem_hsInsert _ _ _ hm)
      | exact fun hm => h.ts_some (mem_hsInsert_of_ne _ _ _ hm (by decide))
      | exact fun hm => h.ts_none (not_mem_hsInsert _ _ _ hm)
      | exact fun hm => h.ns_some (mem_hsInsert_of_ne _ _ _ hm (by decide))
      | exact fun hm => h.ns_none (not_mem_hsInsert _ _ _ hm)
      | exact fun hm => h.host_some (mem_hsInsert_of_ne _ _ _ hm (by decide))
      | exact fun hm => h.host_none (not_mem_hsInsert _ _ _ hm)
      | exact fun hm => h.domain_some (mem_hsInsert_of_ne _ _ _ hm (by decide))
      | exact fun hm => h.domain_none (not_mem_hsInsert _ _ _ hm)
      | exact fun hm => h.mtu_some (mem_hsInsert_of_ne _ _ _ hm (by decide))
      | exact fun hm => h.mtu_none (not_mem_hsInsert _ _ _ hm)
      | exact fun hm => h.bcast_some (mem_hsInsert_of_ne _ _ _ hm (by decide))
      | exact fun hm => h.bcast_none (not_mem_hsInsert _ _ _ hm)
      | exact fun hm => h.req_some (mem_hsInsert_of_ne _ _ _ hm (by decide))
      | exact fun hm => h.req_none (not_mem_hsInsert _ _ _ hm)
      | exact fun hm => h.lease_some (mem_hsInsert_of_ne _ _ _ hm (by decide))
      | exact fun hm => h.lease_none (not_mem_hsInsert _ _ _ hm)
      | exact fun hm => h.msg_some (mem_hsInsert_of_ne _ _ _ hm (by decide))
      | exact fun hm => h.msg_none (not_mem_hsInsert _ _ _ hm)
      | exact fun hm => h.serv_some (mem_hsInsert_of_ne _ _ _ hm (by decide))
      | exact fun hm => h.serv_none (not_mem_hsInsert _ _ _ hm)
      | exact fun hm => h.param_some (mem_hsInsert_of_ne _ _ _ hm (by decide))
      | exact fun hm => h.param_none (not_mem_hsInsert _ _ _ hm)
      | exact fun hm => h.renew_some (mem_hsInsert_of_ne _ _ _ hm (by decide))
      | exact fun hm => h.renew_none (not_mem_hsInsert _ _ _ hm)
      | exact fun hm => h.rebind_some (mem_hsInsert_of_ne _ _ _ hm (by decide))
      | exact fun hm => h.rebind_none (not_mem_hsInsert _ _ _ hm)
      | exact fun hm => h.cid_some (mem_hsInsert_of_ne _ _ _ hm (by decide))
      | exact fun hm => h.cid_none (not_mem_hsInsert _ _ _ hm)
      | exact fun _ => hv
      | (intro hnot; exact absurd (self_mem_hsInsert _ _) hnot)

theorem wf_set_rebinding_time (o : DhcpOptions) (h : DecodedWF o) (v : Option Nat)
    (hv : ∃ u, v = some u ∧ u < 2 ^ 32) : DecodedWF (o.set_rebinding_time v) := by
  unfold DhcpOptions.set_rebinding_time
  constructor <;>
    first
      | exact h.output_none
      | exact hsInsert_nodup _ _ h.defined_nodup
      | (intro c hc
         rcases (hsInsert_mem _ _ _).mp hc with h1 | rfl
         · exact h.defined_sub _ h1
         · decide)
      | exact h.router_none
      | exact h.log_none
      | exact h.ntp_none
      | exact fun hm => h.mask_some (mem_hsInsert_of_ne _ _ _ hm (by decide))
      | exact fun hm => h.mask_none (not_mem_hsInsert _ _ _ hm)
      | exact fun hm => h.ts_some (mem_hsInsert_of_ne _ _ _ hm (by decide))
      | exact fun hm => h.ts_none (not_mem_hsInsert _ _ _ hm)
      | exact fun hm => h.ns_some (mem_hsInsert_of_ne _ _ _ hm (by decide))
      | exact fun hm => h.ns_none (not_mem_hsInsert _ _ _ hm)
      | exact fun hm => h.host_some (mem_hsInsert_of_ne _ _ _ hm (by decide))
      | exact fun hm => h.host_none (not_mem_hsInsert _ _ _ hm)
      | exact fun hm => h.domain_some (mem_hsInsert_of_ne _ _ _ hm (by decide))
      | exact fun hm => h.domain_none (not_mem_hsInsert _ _ _ hm)
      | exact fun hm => h.mtu_some (mem_hsInsert_of_ne _ _ _ hm (by decide))
      | exact fun hm => h.mtu_none (not_mem_hsInsert _ _ _ hm)
      | exact fun hm => h.bcast_some (mem_hsInsert_of_ne _ _ _ hm (by decide))
      | exact fun hm => h.bcast_none (not_mem_hsInsert _ _ _ hm)
      | exact fun hm => h.req_some (mem_hsInsert_of_ne _ _ _ hm (by decide))
      | exact fun hm => h.req_none (not_mem_hsInsert _ _ _ hm)
      | exact fun hm => h.lease_some (mem_hsInsert_of_ne _ _ _ hm (by decide))
      | exact fun hm => h.lease_none (not_mem_hsInsert _ _ _ hm)
      | exact fun hm => h.msg_some (mem_hsInsert_of_ne _ _ _ hm (by decide))
      | exact fun hm => h.msg_none (not_mem_hsInsert _ _ _ hm)
      | exact fun hm => h.serv_some (mem_hsInsert_of_ne _ _ _ hm (by decide))
      | exact fun hm => h.serv_none (not_mem_hsInsert _ _ _ hm)
      | exact fun hm => h.param_some (mem_hsInsert_of_ne _ _ _ hm (by decide))
      | exact fun hm => h.param_none (not_mem_hsInsert _ _ _ hm)
      | exact fun hm => h.renew_some (mem_hsInsert_of_ne _ _ _ hm (by decide))
      | exact fun hm => h.renew_none (not_mem_hsInsert _ _ _ hm)
      | exact fun hm => h.rebind_some (mem_hsInsert_of_ne _ _ _ hm (by decide))
      | exact fun hm => h.rebind_none (not_mem_hsInsert _ _ _ hm)
      | exact fun hm => h.cid_some (mem_hsInsert_of_ne _ _ _ hm (by decide))
      | exact fun hm => h.cid_none (not_mem_hsInsert _ _ _ hm)
      | exact fun _ => hv
      | (intro hnot; exact absurd (self_mem_hsInsert _ _) hnot)

theorem wf_set_client_identifier (o : DhcpOptions) (h : DecodedWF o) (v : Option (List Nat))
    (hv : ∃ l, v = some l ∧ l.length ≤ 255) : DecodedWF (o.set_client_identifier v) := by
  unfold DhcpOptions.set_client_identifier
  constructor <;>
    first
      | exact h.output_none
      | exact hsInsert_nodup _ _ h.defined_nodup
      | (intro c hc
         rcases (hsInsert_mem _ _ _).mp hc with h1 | rfl
         · exact h.defined_sub _ h1
         · decide)
      | exact h.router_none
      | exact h.log_none
      | exact h.ntp_none
      | exact fun hm => h.mask_some (mem_hsInsert_of_ne _ _ _ hm (by decide))
      | exact fun hm => h.mask_none (not_mem_hsInsert _ _ _ hm)
      | exact fun hm => h.ts_some (mem_hsInsert_of_ne _ _ _ hm (by decide))
      | exact fun hm => h.ts_none (not_mem_hsInsert _ _ _ hm)
      | exact fun hm => h.ns_some (mem_hsInsert_of_ne _ _ _ hm (by decide))
      | exact fun hm => h.ns_none (not_mem_hsInsert _ _ _ hm)
      | exact fun hm => h.host_some (mem_hsInsert_of_ne _ _ _ hm (by decide))
      | exact fun hm => h.host_none (not_mem_hsInsert _ _ _ hm)
      | exact fun hm => h.domain_some (mem_hsInsert_of_ne _ _ _ hm (by decide))
      | exact fun hm => h.domain_none (not_mem_hsInsert _ _ _ hm)
      | exact fun hm => h.mtu_some (mem_hsInsert_of_ne _ _ _ hm (by decide))
      | exact fun hm => h.mtu_none (not_mem_hsInsert _ _ _ hm)
      | exact fun hm => h.bcast_some (mem_hsInsert_of_ne _ _ _ hm (by decide))
      | exact fun hm => h.bcast_none (not_mem_hsInsert _ _ _ hm)
      | exact fun hm => h.req_some (mem_hsInsert_of_ne _ _ _ hm (by decide))
      | exact fun hm => h.req_none (not_mem_hsInsert _ _ _ hm)
      | exact fun hm => h.lease_some (mem_hsInsert_of_ne _ _ _ hm (by decide))
      | exact fun hm => h.lease_none (not_mem_hsInsert _ _ _ hm)
      | exact fun hm => h.msg_some (mem_hsInsert_of_ne _ _ _ hm (by decide))
      | exact fun hm => h.msg_none (not_mem_hsInsert _ _ _ hm)
      | exact fun hm => h.serv_some (mem_hsInsert_of_ne _ _ _ hm (by decide))
      | exact fun hm => h.serv_none (not_mem_hsInsert _ _ _ hm)
      | exact fun hm => h.param_some (mem_hsInsert_of_ne _ _ _ hm (by decide))
      | exact fun hm => h.param_none (not_mem_hsInsert _ _ _ hm)
      | exact fun hm => h.renew_some (mem_hsInsert_of_ne _ _ _ hm (by decide))
      | exact fun hm => h.renew_none (not_mem_hsInsert _ _ _ hm)
      | exact fun hm => h.rebind_some (mem_hsInsert_of_ne _ _ _ hm (by decide))
      | exact fun hm => h.rebind_none (not_mem_hsInsert _ _ _ hm)
      | exact fun hm => h.cid_some (mem_hsInsert_of_ne _ _ _ hm (by decide))
      | exact fun hm => h.cid_none (not_mem_hsInsert _ _ _ hm)
      | exact fun _ => hv
      | (intro hnot; exact absurd (self_mem_hsInsert _ _) hnot)

theorem wf_set_wpad (o : DhcpOptions) (h : DecodedWF o) (v : Option (List Nat)) :
    DecodedWF (o.set_wpad v) := by
  unfold DhcpOptions.set_wpad
  exact ⟨h.output_none, h.defined_nodup, h.defined_sub, h.router_none, h.log_none,
    h.ntp_none, h.mask_some, h.mask_none, h.ts_some, h.ts_none, h.ns_some, h.ns_none,
    h.host_some, h.host_none, h.domain_some, h.domain_none, h.mtu_some, h.mtu_none,
    h.bcast_some, h.bcast_none, h.req_some, h.req_none, h.lease_some, h.lease_none,
    h.msg_some, h.msg_none, h.serv_some, h.serv_none, h.param_some, h.param_none,
    h.renew_some, h.renew_none, h.rebind_some, h.rebind_none, h.cid_some, h.cid_none⟩

theorem wf_foldl_add_param (o : DhcpOptions) (h : DecodedWF o) (l : List Nat) :
    DecodedWF (l.foldl DhcpOptions.add_parameter_request o) := by
  by_cases hl : l = []
  · subst hl
    exact h
  · cases hp : o.parameter_request with
    | none =>
      rw [foldl_add_param, hp]
      simp only [if_neg hl]
      constructor <;>
        first
      | exact h.output_none
      | exact hsInsert_nodup _ _ h.defined_nodup
      | (intro c hc
         rcases (hsInsert_mem _ _ _).mp hc with h1 | rfl
         · exact h.defined_sub _ h1
         · decide)
      | exact h.router_none
      | exact h.log_none
      | exact h.ntp_none
      | exact fun hm => h.mask_some (mem_hsInsert_of_ne _ _ _ hm (by decide))
      | exact fun hm => h.mask_none (not_mem_hsInsert _ _ _ hm)
      | exact fun hm => h.ts_some (mem_hsInsert_of_ne _ _ _ hm (by decide))
      | exact fun hm => h.ts_none (not_mem_hsInsert _ _ _ hm)
      | exact fun hm => h.ns_some (mem_hsInsert_of_ne _ _ _ hm (by decide))
      | exact fun hm => h.ns_none (not_mem_hsInsert _ _ _ hm)
      | exact fun hm => h.host_some (mem_hsInsert_of_ne _ _ _ hm (by decide))
      | exact fun hm => h.host_none (not_mem_hsInsert _ _ _ hm)
      | exact fun hm => h.domain_some (mem_hsInsert_of_ne _ _ _ hm (by decide))
      | exact fun hm => h.domain_none (not_mem_hsInsert _ _ _ hm)
      | exact fun hm => h.mtu_some (mem_hsInsert_of_ne _ _ _ hm (by decide))
      | exact fun hm => h.mtu_none (not_mem_hsInsert _ _ _ hm)
      | exact fun hm => h.bcast_some (mem_hsInsert_of_ne _ _ _ hm (by decide))
      | exact fun hm => h.bcast_none (not_mem_hsInsert _ _ _ hm)
      | exact fun hm => h.req_some (mem_hsInsert_of_ne _ _ _ hm (by decide))
      | exact fun hm => h.req_none (not_mem_hsInsert _ _ _ hm)
      | exact fun hm => h.lease_some (mem_hsInsert_of_ne _ _ _ hm (by decide))
      | exact fun hm => h.lease_none (not_mem_hsInsert _ _ _ hm)
      | exact fun hm => h.msg_some (mem_hsInsert_of_ne _ _ _ hm (by decide))
      | exact fun hm => h.msg_none (not_mem_hsInsert _ _ _ hm)
      | exact fun hm => h.serv_some (mem_hsInsert_of_ne _ _ _ hm (by decide))
      | exact fun hm => h.serv_none (not_mem_hsInsert _ _ _ hm)
      | exact fun hm => h.param_some (mem_hsInsert_of_ne _ _ _ hm (by decide))
      | exact fun hm => h.param_none (not_mem_hsInsert _ _ _ hm)
      | exact fun hm => h.renew_some (mem_hsInsert_of_ne _ _ _ hm (by decide))
      | exact fun hm => h.renew_none (not_mem_hsInsert _ _ _ hm)
      | exact fun hm => h.rebind_some (mem_hsInsert_of_ne _ _ _ hm (by decide))
      | exact fun hm => h.rebind_none (not_mem_hsInsert _ _ _ hm)
      | exact fun hm => h.cid_some (mem_hsInsert_of_ne _ _ _ hm (by decide))
      | exact fun hm => h.cid_none (not_mem_hsInsert _ _ _ hm)
          | exact fun _ => ⟨l, rfl, hl⟩
          | (intro hnot; exact absurd (self_mem_hsInsert _ _) hnot)
    | some p =>
      rw [foldl_add_param, hp]
      simp only [if_neg hl]
      constructor <;>
        first
      | exact h.output_none
      | exact hsInsert_nodup _ _ h.defined_nodup
      | (intro c hc
         rcases (hsInsert_mem _ _ _).mp hc with h1 | rfl
         · exact h.defined_sub _ h1
         · decide)
      | exact h.router_none
      | exact h.log_none
      | exact h.ntp_none
      | exact fun hm => h.mask_some (mem_hsInsert_of_ne _ _ _ hm (by decide))
      | exact fun hm => h.mask_none (not_mem_hsInsert _ _ _ hm)
      | exact fun hm => h.ts_some (mem_hsInsert_of_ne _ _ _ hm (by decide))
      | exact fun hm => h.ts_none (not_mem_hsInsert _ _ _ hm)
      | exact fun hm => h.ns_some (mem_hsInsert_of_ne _ _ _ hm (by decide))
      | exact fun hm => h.ns_none (not_mem_hsInsert _ _ _ hm)
      | exact fun hm => h.host_some (mem_hsInsert_of_ne _ _ _ hm (by decide))
      | exact fun hm => h.host_none (not_mem_hsInsert _ _ _ hm)
      | exact fun hm => h.domain_some (mem_hsInsert_of_ne _ _ _ hm (by decide))
      | exact fun hm => h.domain_none (not_mem_hsInsert _ _ _ hm)
      | exact fun hm => h.mtu_some (mem_hsInsert_of_ne _ _ _ hm (by decide))
      | exact fun hm => h.mtu_none (not_mem_hsInsert _ _ _ hm)
      | exact fun hm => h.bcast_some (mem_hsInsert_of_ne _ _ _ hm (by decide))
      | exact fun hm => h.bcast_none (not_mem_hsInsert _ _ _ hm)
      | exact fun hm => h.req_some (mem_hsInsert_of_ne _ _ _ hm (by decide))
      | exact fun hm => h.req_none (not_mem_hsInsert _ _ _ hm)
      | exact fun hm => h.lease_some (mem_hsInsert_of_ne _ _ _ hm (by decide))
      | exact fun hm => h.lease_none (not_mem_hsInsert _ _ _ hm)
      | exact fun hm => h.msg_some (mem_hsInsert_of_ne _ _ _ hm (by decide))
      | exact fun hm => h.msg_none (not_mem_hsInsert _ _ _ hm)
      | exact fun hm => h.serv_some (mem_hsInsert_of_ne _ _ _ hm (by decide))
      | exact fun hm => h.serv_none (not_mem_hsInsert _ _ _ hm)
      | exact fun hm => h.param_some (mem_hsInsert_of_ne _ _ _ hm (by decide))
      | exact fun hm => h.param_none (not_mem_hsInsert _ _ _ hm)
      | exact fun hm => h.renew_some (mem_hsInsert_of_ne _ _ _ hm (by decide))
      | exact fun hm => h.renew_none (not_mem_hsInsert _ _ _ hm)
      | exact fun hm => h.rebind_some (mem_hsInsert_of_ne _ _ _ hm (by decide))
      | exact fun hm => h.rebind_none (not_mem_hsInsert _ _ _ hm)
      | exact fun hm => h.cid_some (mem_hsInsert_of_ne _ _ _ hm (by decide))
      | exact fun hm => h.cid_none (not_mem_hsInsert _ _ _ hm)
          | exact fun _ => ⟨p ++ l, rfl, by simp [hl]⟩
          | (intro hnot; exact absurd (self_mem_hsInsert _ _) hnot)

/-! ## C1: the decode-encode round trip -/

theorem parseIpv4Type_bound (bytes : List Nat) (h : byteValid bytes) :
    ∀ m, parseIpv4Type bytes = some m → m < 2 ^ 32 := by
  intro m hm
  unfold parseIpv4Type at hm
  split at hm
  · exact absurd hm (by simp)
  · obtain rfl := Option.some.inj hm
    exact byteValid_readU32BE bytes h

theorem parseStringType_spec (bytes : List Nat) (hlen : bytes.length ≤ 255) :
    ∃ s, parseStringType bytes = some s ∧ validUtf8 s = true ∧ s.length ≤ 255 := by
  unfold parseStringType
  by_cases hv : validUtf8 bytes
  · exact ⟨bytes, by simp [hv], hv, hlen⟩
  · exact ⟨[], by simp [hv], rfl, by simp⟩

theorem decode_wf_aux : ∀ (n : Nat) (data : List Nat), data.length ≤ n →
    ∀ (o₀ ofin : DhcpOptions), byteValid data → DecodedWF o₀ →
    decodeLoop data o₀ = .ok ofin → DecodedWF ofin := by
  intro n
  induction n with
  | zero =>
    intro data hlen o₀ ofin hb hwf hdec
    cases data with
    | nil =>
      rw [decodeLoop.eq_def] at hdec
      dsimp only at hdec
      exact RRes.ok.inj hdec ▸ hwf
    | cons a l => simp at hlen
  | succ n IH =>
    intro data hlen o₀ ofin hb hwf hdec
    cases data with
    | nil =>
      rw [decodeLoop.eq_def] at hdec
      dsimp only at hdec
      exact RRes.ok.inj hdec ▸ hwf
    | cons opt_code data1 =>
      rw [decodeLoop.eq_def] at hdec
      dsimp only at hdec
      obtain ⟨hoc, hb1⟩ := byteValid_cons _ _ hb
      by_cases h0 : opt_code = 0 ∨ opt_code = 255
      · rw [if_pos h0] at hdec
        have hlen1 : data1.length ≤ n := by simp at hlen; omega
        exact IH data1 hlen1 o₀ ofin hb1 hwf hdec
      rw [if_neg h0] at hdec
      cases data1 with
      | nil => simp at hdec
      | cons len data2 =>
        dsimp only at hdec
        obtain ⟨hlb, hb2⟩ := byteValid_cons _ _ hb1
        have hlen2 : data2.length ≤ n := by simp at hlen; omega
        by_cases hsh : data2.length < len
        · rw [if_pos hsh] at hdec
          exact RRes.ok.inj hdec ▸ hwf
        rw [if_neg hsh] at hdec
        have hbraw : byteValid (data2.take len) := byteValid_take _ _ hb2
        have hbrest : byteValid (data2.drop len) := byteValid_drop _ _ hb2
        have hlrest : (data2.drop len).length ≤ n := by
          rw [List.length_drop]; omega
        have hrawlen : (data2.take len).length ≤ 255 := by
          rw [List.length_take]; omega
        by_cases h1 : opt_code = 1
        · rw [if_pos h1] at hdec
          exact IH _ hlrest _ _ hbrest
            (wf_set_subnet_mask _ hwf _ (parseIpv4Type_bound _ hbraw)) hdec
        rw [if_neg h1] at hdec
        by_cases h4 : opt_code = 4
        · rw [if_pos h4] at hdec
          cases hpl : parseIpv4ListFuel 2 (List.take len data2) [] with
          | none => rw [hpl] at hdec; simp at hdec
          | some l =>
            rw [hpl] at hdec
            dsimp only at hdec
            exact IH _ hlrest _ _ hbrest
              (wf_set_time_server _ hwf _
                (by rw [parseIpv4ListFuel2_some _ _ hpl])) hdec
        rw [if_neg h4] at hdec
        by_cases h5 : opt_code = 5
        · rw [if_pos h5] at hdec
          cases hpl : parseIpv4ListFuel 2 (List.take len data2) [] with
          | none => rw [hpl] at hdec; simp at hdec
          | some l =>
            rw [hpl] at hdec
            dsimp only at hdec
            exact IH _ hlrest _ _ hbrest
              (wf_set_name_server _ hwf _
                (by rw [parseIpv4ListFuel2_some _ _ hpl])) hdec
        rw [if_neg h5] at hdec
        by_cases h12 : opt_code = 12
        · rw [if_pos h12] at hdec
          exact IH _ hlrest _ _ hbrest
            (wf_set_hostname _ hwf _ (parseStringType_spec _ hrawlen)) hdec
        rw [if_neg h12] at hdec
        by_cases h15 : opt_code = 15
        · rw [if_pos h15] at hdec
          exact IH _ hlrest _ _ hbrest
            (wf_set_domain_name _ hwf _ (parseStringType_spec _ hrawlen)) hdec
        rw [if_neg h15] at hdec
        by_cases h26 : opt_code = 26
        · rw [if_pos h26] at hdec
          by_cases hr2 : (data2.take len).length < 2
          · rw [if_pos hr2] at hdec; simp at hdec
          · rw [if_neg hr2] at hdec
            exact IH _ hlrest _ _ hbrest
              (wf_set_interface_mtu _ hwf _ ⟨_, rfl, byteValid_readU16BE _ hbraw⟩) hdec
        rw [if_neg h26] at hdec
        by_cases h28 : opt_code = 28
        · rw [if_pos h28] at hdec
          exact IH _ hlrest _ _ hbrest
            (wf_set_broadcast_addr _ hwf _ (parseIpv4Type_bound _ hbraw)) hdec
        rw [if_neg h28] at hdec
        by_cases h42 : opt_code = 42
        · rw [if_pos h42] at hdec
          cases hpl : parseIpv4ListFuel 2 (List.take len data2) [] with
          | none => rw [hpl] at hdec; simp at hdec
          | some l =>
            rw [hpl] at hdec
            dsimp only at hdec
            exact IH _ hlrest _ _ hbrest
              (wf_set_time_server _ hwf _
                (by rw [parseIpv4ListFuel2_some _ _ hpl])) hdec
        rw [if_neg h42] at hdec
        by_cases h50 : opt_code = 50
        · rw [if_pos h50] at hdec
          exact IH _ hlrest _ _ hbrest
            (wf_set_requested_ip _ hwf _ (parseIpv4Type_bound _ hbraw)) hdec
        rw [if_neg h50] at hdec
        by_cases h51 : opt_code = 51
        · rw [if_pos h51] at hdec
          by_cases hr4 : (data2.take len).length < 4
          · rw [if_pos hr4] at hdec; simp at hdec
          · rw [if_neg hr4] at hdec
            exact IH _ hlrest _ _ hbrest
              (wf_set_lease_time _ hwf _ ⟨_, rfl, byteValid_readU32BE _ hbraw⟩) hdec
        rw [if_neg h51] at hdec
        by_cases h53 : opt_code = 53
        · rw [if_pos h53] at hdec
          cases data2 with
          | nil => simp at hdec
          | cons dc rest53 =>
            dsimp only at hdec
            by_cases h9 : 9 < dc
            · rw [if_pos h9] at hdec
              exact RRes.ok.inj hdec ▸ hwf
            · rw [if_neg h9] at hdec
              have hbr53 : byteValid rest53 := (byteValid_cons _ _ hb2).2
              have hlr53 : rest53.length ≤ n := by simp at hlen2; omega
              exact IH rest53 hlr53 _ _ hbr53
                (wf_set_message_type _ hwf _ ⟨dc, rfl, by omega⟩) hdec
        rw [if_neg h53] at hdec
        by_cases h54 : opt_code = 54
        · rw [if_pos h54] at hdec
          by_cases hr4 : (data2.take len).length < 4
          · rw [if_pos hr4] at hdec; simp at hdec
          · rw [if_neg hr4] at hdec
            exact IH _ hlrest _ _ hbrest
              (wf_set_server_identifier _ hwf _ ⟨_, rfl, byteValid_readU32BE _ hbraw⟩) hdec
        rw [if_neg h54] at hdec
        by_cases h55 : opt_code = 55
        · rw [if_pos h55] at hdec
          exact IH _ hlrest _ _ hbrest (wf_foldl_add_param _ hwf _) hdec
        rw [if_neg h55] at hdec
        by_cases h58 : opt_code = 58
        · rw [if_pos h58] at hdec
          by_cases hr4 : (data2.take len).length < 4
          · rw [if_pos hr4] at hdec; simp at hdec
          · rw [if_neg hr4] at hdec
            exact IH _ hlrest _ _ hbrest
              (wf_set_renewal_time _ hwf _ ⟨_, rfl, byteValid_readU32BE _ hbraw⟩) hdec
        rw [if_neg h58] at hdec
        by_cases h59 : opt_code = 59
        · rw [if_pos h59] at hdec
          by_cases hr4 : (data2.take len).length < 4
          · rw [if_pos hr4] at hdec; simp at hdec
          · rw [if_neg hr4] at hdec
            exact IH _ hlrest _ _ hbrest
              (wf_set_rebinding_time _ hwf _ ⟨_, rfl, byteValid_readU32BE _ hbraw⟩) hdec
        rw [if_neg h59] at hdec
        by_cases h61 : opt_code = 61
        · rw [if_pos h61] at hdec
          exact IH _ hlrest _ _ hbrest
            (wf_set_client_identifier _ hwf _ ⟨_, rfl, hrawlen⟩) hdec
        rw [if_neg h61] at hdec
        by_cases h252 : opt_code = 252
        · rw [if_pos h252] at hdec
          exact IH _ hlrest _ _ hbrest (wf_set_wpad _ hwf _) hdec
        rw [if_neg h252] at hdec
        exact IH _ hlrest _ _ hbrest hwf hdec

theorem decode_wf (data : List Nat) (o₀ ofin : DhcpOptions) (hb : byteValid data)
    (hwf : DecodedWF o₀) (hdec : decodeLoop data o₀ = .ok ofin) : DecodedWF ofin :=
  decode_wf_aux data.length data le_rfl o₀ ofin hb hwf hdec

theorem decodeLoop_end (acc : DhcpOptions) : decodeLoop [255] acc = .ok acc := by
  simp [decodeLoop]

theorem chunk_decode (o : DhcpOptions) (hwf : DecodedWF o) (c : Nat)
    (hc : c ∈ o.defined_options) (h28 : c ≠ 28) (h50 : c ≠ 50)
    (hmask : 1 ∈ o.defined_options → o.subnet_mask ≠ none)
    (hparam : ∀ l, o.parameter_request = some l → l.length ≤ 255) :
    ∃ chunk, appendOption c o = .ok chunk ∧
      ∀ rest acc, decodeLoop (chunk ++ rest) acc = decodeLoop rest (applyCode c o acc) := by
  have hc' := hwf.defined_sub c hc
  simp [decodableCodes] at hc'
  rcases hc' with rfl | rfl | rfl | rfl | rfl | rfl | rfl | rfl | rfl | rfl | rfl | rfl | rfl | rfl | rfl
  · -- c = 1
    obtain ⟨m, hm⟩ := Option.ne_none_iff_exists'.mp (hmask hc)
    have hmlt : m < 2 ^ 32 := hwf.mask_some hc m hm
    refine ⟨[1, 4] ++ formatIpv4 m, by simp [appendOption, hm], fun rest acc => ?_⟩
    rw [show ([1, 4] ++ formatIpv4 m) ++ rest = 1 :: 4 :: (formatIpv4 m ++ rest) by simp,
      decodeLoop.eq_def]
    have hnl : ¬(formatIpv4 m ++ rest).length < 4 := by
      simp [formatIpv4, toBE32_length]
    simp [hnl, applyCode, parseIpv4Type, formatIpv4, toBE32_length, hm,
      List.take_left' (toBE32_length m), List.drop_left' (toBE32_length m),
      readU32BE_toBE32 m hmlt]
  · -- c = 4
    have hts : o.time_server = some [] := hwf.ts_some hc
    refine ⟨[4, 0], by simp [appendOption, hts, formatIpv4List], fun rest acc => ?_⟩
    rw [show ([4, 0] : List Nat) ++ rest = 4 :: 0 :: rest from rfl, decodeLoop.eq_def]
    simp [applyCode, hts, show parseIpv4ListFuel 2 ([] : List Nat) [] = some [] from rfl]
  · -- c = 5
    have hns : o.name_server = some [] := hwf.ns_some hc
    refine ⟨[5, 0], by simp [appendOption, hns, formatIpv4List], fun rest acc => ?_⟩
    rw [show ([5, 0] : List Nat) ++ rest = 5 :: 0 :: rest from rfl, decodeLoop.eq_def]
    simp [applyCode, hns, show parseIpv4ListFuel 2 ([] : List Nat) [] = some [] from rfl]
  · -- c = 12
    obtain ⟨s, hs, hsu, hsl⟩ := hwf.host_some hc
    have hsl' : s.length % 256 = s.length := Nat.mod_eq_of_lt (by omega)
    refine ⟨[12, s.length % 256] ++ s, by simp [appendOption, hs], fun rest acc => ?_⟩
    rw [show ([12, s.length % 256] ++ s) ++ rest = 12 :: (s.length % 256) :: (s ++ rest) by simp,
      decodeLoop.eq_def]
    have hnl : ¬(s ++ rest).length < s.length % 256 := by
      rw [hsl', List.length_append]; omega
    simp [hnl, applyCode, hs, hsl', parseStringType, hsu]
  · -- c = 15
    obtain ⟨s, hs, hsu, hsl⟩ := hwf.domain_some hc
    have hsl' : s.length % 256 = s.length := Nat.mod_eq_of_lt (by omega)
    refine ⟨[15, s.length % 256] ++ s, by simp [appendOption, hs], fun rest acc => ?_⟩
    rw [show ([15, s.length % 256] ++ s) ++ rest = 15 :: (s.length % 256) :: (s ++ rest) by simp,
      decodeLoop.eq_def]
    have hnl : ¬(s ++ rest).length < s.length % 256 := by
      rw [hsl', List.length_append]; omega
    simp [hnl, applyCode, hs, hsl', parseStringType, hsu]
  · -- c = 26
    obtain ⟨v, hv, hvlt⟩ := hwf.mtu_some hc
    refine ⟨[26, 2] ++ toBE16 v, by simp [appendOption, hv], fun rest acc => ?_⟩
    rw [show ([26, 2] ++ toBE16 v) ++ rest = 26 :: 2 :: (toBE16 v ++ rest) by simp,
      decodeLoop.eq_def]
    have hnl : ¬(toBE16 v ++ rest).length < 2 := by
      simp [toBE16_length]
    simp [hnl, applyCode, hv, toBE16_length,
      List.take_left' (toBE16_length v), List.drop_left' (toBE16_length v),
      readU16BE_toBE16 v hvlt]
  · exact absurd rfl h28
  · exact absurd rfl h50
  · -- c = 51
    obtain ⟨v, hv, hvlt⟩ := hwf.lease_some hc
    refine ⟨[51, 4] ++ toBE32 v, by simp [appendOption, hv], fun rest acc => ?_⟩
    rw [show ([51, 4] ++ toBE32 v) ++ rest = 51 :: 4 :: (toBE32 v ++ rest) by simp,
      decodeLoop.eq_def]
    have hnl : ¬(toBE32 v ++ rest).length < 4 := by
      simp [toBE32_length]
    simp [hnl, applyCode, hv, toBE32_length,
      List.take_left' (toBE32_length v), List.drop_left' (toBE32_length v),
      readU32BE_toBE32 v hvlt]
  · -- c = 53
    obtain ⟨v, hv, hv9⟩ := hwf.msg_some hc
    refine ⟨[53, 1, v], by simp [appendOption, hv], fun rest acc => ?_⟩
    rw [show ([53, 1, v] : List Nat) ++ rest = 53 :: 1 :: v :: rest from rfl, decodeLoop.eq_def]
    have h9 : ¬9 < v := by omega
    simp [h9, applyCode, hv]
  · -- c = 54
    obtain ⟨v, hv, hvlt⟩ := hwf.serv_some hc
    refine ⟨[54, 4] ++ toBE32 v, by simp [appendOption, hv], fun rest acc => ?_⟩
    rw [show ([54, 4] ++ toBE32 v) ++ rest = 54 :: 4 :: (toBE32 v ++ rest) by simp,
      decodeLoop.eq_def]
    have hnl : ¬(toBE32 v ++ rest).length < 4 := by
      simp [toBE32_length]
    simp [hnl, applyCode, hv, toBE32_length,
      List.take_left' (toBE32_length v), List.drop_left' (toBE32_length v),
      readU32BE_toBE32 v hvlt]
  · -- c = 55
    obtain ⟨l, hl, hlne⟩ := hwf.param_some hc
    have hll : l.length ≤ 255 := hparam l hl
    have hll' : l.length % 256 = l.length := Nat.mod_eq_of_lt (by omega)
    refine ⟨[55, l.length % 256] ++ l, by simp [appendOption, hl], fun rest acc => ?_⟩
    rw [show ([55, l.length % 256] ++ l) ++ rest = 55 :: (l.length % 256) :: (l ++ rest) by simp,
      decodeLoop.eq_def]
    have hnl : ¬(l ++ rest).length < l.length % 256 := by
      rw [hll', List.length_append]; omega
    simp [hnl, applyCode, hl, hll']
  · -- c = 58
    obtain ⟨v, hv, hvlt⟩ := hwf.renew_some hc
    refine ⟨[58, 4] ++ toBE32 v, by simp [appendOption, hv], fun rest acc => ?_⟩
    rw [show ([58, 4] ++ toBE32 v) ++ rest = 58 :: 4 :: (toBE32 v ++ rest) by simp,
      decodeLoop.eq_def]
    have hnl : ¬(toBE32 v ++ rest).length < 4 := by
      simp [toBE32_length]
    simp [hnl, applyCode, hv, toBE32_length,
      List.take_left' (toBE32_length v), List.drop_left' (toBE32_length v),
      readU32BE_toBE32 v hvlt]
  · -- c = 59
    obtain ⟨v, hv, hvlt⟩ := hwf.rebind_some hc
    refine ⟨[59, 4] ++ toBE32 v, by simp [appendOption, hv], fun rest acc => ?_⟩
    rw [show ([59, 4] ++ toBE32 v) ++ rest = 59 :: 4 :: (toBE32 v ++ rest) by simp,
      decodeLoop.eq_def]
    have hnl : ¬(toBE32 v ++ rest).length < 4 := by
      simp [toBE32_length]
    simp [hnl, applyCode, hv, toBE32_length,
      List.take_left' (toBE32_length v), List.drop_left' (toBE32_length v),
      readU32BE_toBE32 v hvlt]
  · -- c = 61
    obtain ⟨l, hl, hll⟩ := hwf.cid_some hc
    have hll' : l.length % 256 = l.length := Nat.mod_eq_of_lt (by omega)
    refine ⟨[61, l.length % 256] ++ l, by simp [appendOption, hl], fun rest acc => ?_⟩
    rw [show ([61, l.length % 256] ++ l) ++ rest = 61 :: (l.length % 256) :: (l ++ rest) by simp,
      decodeLoop.eq_def]
    have hnl : ¬(l ++ rest).length < l.length % 256 := by
      rw [hll', List.length_append]; omega
    simp [hnl, applyCode, hl, hll']

theorem chunks_decode (o : DhcpOptions) (hwf : DecodedWF o)
    (hmask : 1 ∈ o.defined_options → o.subnet_mask ≠ none)
    (hparam : ∀ l, o.parameter_request = some l → l.length ≤ 255) :
    ∀ cs : List Nat, (∀ c ∈ cs, c ∈ o.defined_options) → 28 ∉ cs → 50 ∉ cs →
    ∃ buf, encodeChunks cs o = .ok buf ∧
      ∀ rest acc, decodeLoop (buf ++ rest) acc = decodeLoop rest (foldApply cs o acc) := by
  intro cs
  induction cs with
  | nil =>
    exact fun _ _ _ => ⟨[], rfl, fun rest acc => by simp [foldApply]⟩
  | cons c cs ihc =>
    intro hsub h28 h50
    obtain ⟨chunk, hap, hdc⟩ := chunk_decode o hwf c (hsub c (List.mem_cons_self c cs))
      (fun he => h28 (he ▸ List.mem_cons_self c cs))
      (fun he => h50 (he ▸ List.mem_cons_self c cs)) hmask hparam
    obtain ⟨buf, henc, hdcs⟩ := ihc (fun x hx => hsub x (List.mem_cons_of_mem c hx))
      (fun hx => h28 (List.mem_cons_of_mem c hx)) (fun hx => h50 (List.mem_cons_of_mem c hx))
    refine ⟨chunk ++ buf, ?_, fun rest acc => ?_⟩
    · simp [encodeChunks, hap, henc]
    · rw [List.append_assoc, hdc (buf ++ rest) acc, hdcs rest (applyCode c o acc)]
      rfl

theorem foldApply_inv (o : DhcpOptions) :
    ∀ (cs : List Nat) (acc : DhcpOptions),
    (∀ c ∈ cs, c ∈ decodableCodes) → (acc.defined_options ++ cs).Nodup →
    28 ∉ cs → 50 ∉ cs →
    (55 ∈ cs → acc.parameter_request = none ∧ ∃ l, o.parameter_request = some l ∧ l ≠ []) →
    foldApply cs o acc = { acc with
      defined_options := acc.defined_options ++ cs,
      subnet_mask := if 1 ∈ cs then o.subnet_mask else acc.subnet_mask,
      time_server := if 4 ∈ cs then o.time_server else acc.time_server,
      name_server := if 5 ∈ cs then o.name_server else acc.name_server,
      hostname := if 12 ∈ cs then o.hostname else acc.hostname,
      domain_name := if 15 ∈ cs then o.domain_name else acc.domain_name,
      interface_mtu := if 26 ∈ cs then o.interface_mtu else acc.interface_mtu,
      lease_time := if 51 ∈ cs then o.lease_time else acc.lease_time,
      message_type := if 53 ∈ cs then o.message_type else acc.message_type,
      server_identifier := if 54 ∈ cs then o.server_identifier else acc.server_identifier,
      parameter_request := if 55 ∈ cs then o.parameter_request else acc.parameter_request,
      renewal_time := if 58 ∈ cs then o.renewal_time else acc.renewal_time,
      rebinding_time := if 59 ∈ cs then o.rebinding_time else acc.rebinding_time,
      client_identifier := if 61 ∈ cs then o.client_identifier else acc.client_identifier } := by
  intro cs
  induction cs with
  | nil =>
    intro acc _ _ _ _ _
    simp [foldApply]
  | cons c cs ih =>
    intro acc hsub hnd h28 h50 h55
    have hcnotacc : c ∉ acc.defined_options := by
      intro hmem
      rcases List.nodup_append.mp hnd with ⟨_, _, hdisj⟩
      exact hdisj hmem (List.mem_cons_self c cs)
    have hccs : c ∉ cs := by
      have h2 := List.Nodup.of_append_right hnd
      exact (List.nodup_cons.mp h2).1
    have hsub2 : ∀ x ∈ cs, x ∈ decodableCodes :=
      fun x hx => hsub x (List.mem_cons_of_mem c hx)
    have h282 : 28 ∉ cs := fun hx => h28 (List.mem_cons_of_mem c hx)
    have h502 : 50 ∉ cs := fun hx => h50 (List.mem_cons_of_mem c hx)
    have h552 := fun hx => h55 (List.mem_cons_of_mem c hx)
    have hc0 := hsub c (List.mem_cons_self c cs)
    rw [show foldApply (c :: cs) o acc = foldApply cs o (applyCode c o acc) from rfl]
    simp [decodableCodes] at hc0
    rcases hc0 with rfl | rfl | rfl | rfl | rfl | rfl | rfl | rfl | rfl | rfl | rfl | rfl | rfl | rfl | rfl
    · -- c = 1
      have hdef2 : (applyCode 1 o acc).defined_options = acc.defined_options ++ [1] := by
        simp [applyCode, DhcpOptions.set_subnet_mask, hsInsert, hcnotacc]
      have hpar2 : (applyCode 1 o acc).parameter_request = acc.parameter_request := by
        simp [applyCode, DhcpOptions.set_subnet_mask]
      rw [ih _ hsub2 (by rw [hdef2]; simpa using hnd) h282 h502
        (fun hx => ⟨hpar2.trans (h552 hx).1, (h552 hx).2⟩)]
      simp [applyCode, DhcpOptions.set_subnet_mask, hsInsert, hcnotacc, hccs, List.mem_cons]
    · -- c = 4
      have hdef2 : (applyCode 4 o acc).defined_options = acc.defined_options ++ [4] := by
        simp [applyCode, DhcpOptions.set_time_server, hsInsert, hcnotacc]
      have hpar2 : (applyCode 4 o acc).parameter_request = acc.parameter_request := by
        simp [applyCode, DhcpOptions.set_time_server]
      rw [ih _ hsub2 (by rw [hdef2]; simpa using hnd) h282 h502
        (fun hx => ⟨hpar2.trans (h552 hx).1, (h552 hx).2⟩)]
      simp [applyCode, DhcpOptions.set_time_server, hsInsert, hcnotacc, hccs, List.mem_cons]
    · -- c = 5
      have hdef2 : (applyCode 5 o acc).defined_options = acc.defined_options ++ [5] := by
        simp [applyCode, DhcpOptions.set_name_server, hsInsert, hcnotacc]
      have hpar2 : (applyCode 5 o acc).parameter_request = acc.parameter_request := by
        simp [applyCode, DhcpOptions.set_name_server]
      rw [ih _ hsub2 (by rw [hdef2]; simpa using hnd) h282 h502
        (fun hx => ⟨hpar2.trans (h552 hx).1, (h552 hx).2⟩)]
      simp [applyCode, DhcpOptions.set_name_server, hsInsert, hcnotacc, hccs, List.mem_cons]
    · -- c = 12
      have hdef2 : (applyCode 12 o acc).defined_options = acc.defined_options ++ [12] := by
        simp [applyCode, DhcpOptions.set_hostname, hsInsert, hcnotacc]
      have hpar2 : (applyCode 12 o acc).parameter_request = acc.parameter_request := by
        simp [applyCode, DhcpOptions.set_hostname]
      rw [ih _ hsub2 (by rw [hdef2]; simpa using hnd) h282 h502
        (fun hx => ⟨hpar2.trans (h552 hx).1, (h552 hx).2⟩)]
      simp [applyCode, DhcpOptions.set_hostname, hsInsert, hcnotacc, hccs, List.mem_cons]
    · -- c = 15
      have hdef2 : (applyCode 15 o acc).defined_options = acc.defined_options ++ [15] := by
        simp [applyCode, DhcpOptions.set_domain_name, hsInsert, hcnotacc]
      have hpar2 : (applyCode 15 o acc).parameter_request = acc.parameter_request := by
        simp [applyCode, DhcpOptions.set_domain_name]
      rw [ih _ hsub2 (by rw [hdef2]; simpa using hnd) h282 h502
        (fun hx => ⟨hpar2.trans (h552 hx).1, (h552 hx).2⟩)]
      simp [applyCode, DhcpOptions.set_domain_name, hsInsert, hcnotacc, hccs, List.mem_cons]
    · -- c = 26
      have hdef2 : (applyCode 26 o acc).defined_options = acc.defined_options ++ [26] := by
        simp [applyCode, DhcpOptions.set_interface_mtu, hsInsert, hcnotacc]
      have hpar2 : (applyCode 26 o acc).parameter_request = acc.parameter_request := by
        simp [applyCode, DhcpOptions.set_interface_mtu]
      rw [ih _ hsub2 (by rw [hdef2]; simpa using hnd) h282 h502
        (fun hx => ⟨hpar2.trans (h552 hx).1, (h552 hx).2⟩)]
      simp [applyCode, DhcpOptions.set_interface_mtu, hsInsert, hcnotacc, hccs, List.mem_cons]
    · exact absurd (List.mem_cons_self 28 cs) h28
    · exact absurd (List.mem_cons_self 50 cs) h50
    · -- c = 51
      have hdef2 : (applyCode 51 o acc).defined_options = acc.defined_options ++ [51] := by
        simp [applyCode, DhcpOptions.set_lease_time, hsInsert, hcnotacc]
      have hpar2 : (applyCode 51 o acc).parameter_request = acc.parameter_request := by
        simp [applyCode, DhcpOptions.set_lease_time]
      rw [ih _ hsub2 (by rw [hdef2]; simpa using hnd) h282 h502
        (fun hx => ⟨hpar2.trans (h552 hx).1, (h552 hx).2⟩)]
      simp [applyCode, DhcpOptions.set_lease_time, hsInsert, hcnotacc, hccs, List.mem_cons]
    · -- c = 53
      have hdef2 : (applyCode 53 o acc).defined_options = acc.defined_options ++ [53] := by
        simp [applyCode, DhcpOptions.set_message_type, hsInsert, hcnotacc]
      have hpar2 : (applyCode 53 o acc).parameter_request = acc.parameter_request := by
        simp [applyCode, DhcpOptions.set_message_type]
      rw [ih _ hsub2 (by rw [hdef2]; simpa using hnd) h282 h502
        (fun hx => ⟨hpar2.trans (h552 hx).1, (h552 hx).2⟩)]
      simp [applyCode, DhcpOptions.set_message_type, hsInsert, hcnotacc, hccs, List.mem_cons]
    · -- c = 54
      have hdef2 : (applyCode 54 o acc).defined_options = acc.defined_options ++ [54] := by
        simp [applyCode, DhcpOptions.set_server_identifier, hsInsert, hcnotacc]
      have hpar2 : (applyCode 54 o acc).parameter_request = acc.parameter_request := by
        simp [applyCode, DhcpOptions.set_server_identifier]
      rw [ih _ hsub2 (by rw [hdef2]; simpa using hnd) h282 h502
        (fun hx => ⟨hpar2.trans (h552 hx).1, (h552 hx).2⟩)]
      simp [applyCode, DhcpOptions.set_server_identifier, hsInsert, hcnotacc, hccs, List.mem_cons]
    · -- c = 55
      obtain ⟨haccp, l, hol, hlne⟩ := h55 (List.mem_cons_self 55 cs)
      have happ : applyCode 55 o acc = { acc with
          defined_options := acc.defined_options ++ [55],
          parameter_request := some l } := by
        simp [applyCode, hol, foldl_add_param, hlne, hsInsert, hcnotacc, haccp]
      rw [happ, ih _ hsub2 (by simpa using hnd) h282 h502
        (fun hx => absurd hx hccs)]
      simp [hccs, hol, List.mem_cons]
    · -- c = 58
      have hdef2 : (applyCode 58 o acc).defined_options = acc.defined_options ++ [58] := by
        simp [applyCode, DhcpOptions.set_renewal_time, hsInsert, hcnotacc]
      have hpar2 : (applyCode 58 o acc).parameter_request = acc.parameter_request := by
        simp [applyCode, DhcpOptions.set_renewal_time]
      rw [ih _ hsub2 (by rw [hdef2]; simpa using hnd) h282 h502
        (fun hx => ⟨hpar2.trans (h552 hx).1, (h552 hx).2⟩)]
      simp [applyCode, DhcpOptions.set_renewal_time, hsInsert, hcnotacc, hccs, List.mem_cons]
    · -- c = 59
      have hdef2 : (applyCode 59 o acc).defined_options = acc.defined_options ++ [59] := by
        simp [applyCode, DhcpOptions.set_rebinding_time, hsInsert, hcnotacc]
      have hpar2 : (applyCode 59 o acc).parameter_request = acc.parameter_request := by
        simp [applyCode, DhcpOptions.set_rebinding_time]
      rw [ih _ hsub2 (by rw [hdef2]; simpa using hnd) h282 h502
        (fun hx => ⟨hpar2.trans (h552 hx).1, (h552 hx).2⟩)]
      simp [applyCode, DhcpOptions.set_rebinding_time, hsInsert, hcnotacc, hccs, List.mem_cons]
    · -- c = 61
      have hdef2 : (applyCode 61 o acc).defined_options = acc.defined_options ++ [61] := by
        simp [applyCode, DhcpOptions.set_client_identifier, hsInsert, hcnotacc]
      have hpar2 : (applyCode 61 o acc).parameter_request = acc.parameter_request := by
        simp [applyCode, DhcpOptions.set_client_identifier]
      rw [ih _ hsub2 (by rw [hdef2]; simpa using hnd) h282 h502
        (fun hx => ⟨hpar2.trans (h552 hx).1, (h552 hx).2⟩)]
      simp [applyCode, DhcpOptions.set_client_identifier, hsInsert, hcnotacc, hccs, List.mem_cons]

theorem ite_eq_of_default {α : Type} (P : Prop) [Decidable P] (x d : α)
    (h : ¬P → x = d) : (if P then x else d) = x := by
  by_cases hp : P
  · rw [if_pos hp]
  · rw [if_neg hp, h hp]

/-- C1 (amended): the decode-encode round trip holds for every record
satisfying the decoder invariant whose defined codes avoid the broken
encoder paths: codes 28 and 50 undefined (their chunks carry length byte
2 with four value bytes), `wpad` unset (the encoder never emits code 252
because `set_wpad` does not register it), a defined subnet mask actually
populated, and a parameter-request list of at most 255 bytes (the length
byte is truncated mod 256). -/
theorem C1_round_trip (o : DhcpOptions) (hwf : DecodedWF o)
    (h28 : 28 ∉ o.defined_options) (h50 : 50 ∉ o.defined_options)
    (hwpad : o.wpad = none)
    (hmask : 1 ∈ o.defined_options → o.subnet_mask ≠ none)
    (hparam : ∀ l, o.parameter_request = some l → l.length ≤ 255) :
    encodeThenDecode o = .ok o := by
  obtain ⟨buf, henc, hdec⟩ := chunks_decode o hwf hmask hparam o.defined_options
    (fun c hc => hc) h28 h50
  have hinv := foldApply_inv o o.defined_options DhcpOptions.new hwf.defined_sub
    (by simpa using hwf.defined_nodup) h28 h50
    (fun h5 => ⟨rfl, hwf.param_some h5⟩)
  unfold encodeThenDecode encodeOptions
  rw [hwf.output_none]
  dsimp only
  rw [show encodeChunks [] o = .ok [] from rfl]
  dsimp only
  rw [List.filter_eq_self.mpr (fun a _ => by simp), henc]
  dsimp only
  unfold dhcpOptionsFromBytes
  rw [List.nil_append, hdec [255] DhcpOptions.new, decodeLoop_end, hinv]
  congr 1
  simp only [DhcpOptions.new]
  conv_rhs => rw [show o = ⟨o.output_order, o.defined_options, o.subnet_mask,
    o.router_option, o.time_server, o.name_server, o.log_server, o.hostname,
    o.domain_name, o.broadcast_addr, o.requested_ip, o.lease_time,
    o.message_type, o.server_identifier, o.parameter_request, o.renewal_time,
    o.rebinding_time, o.client_identifier, o.interface_mtu, o.ntp_servers,
    o.wpad⟩ from rfl]
  rw [DhcpOptions.mk.injEq]
  exact ⟨hwf.output_none.symm, by simp,
    ite_eq_of_default _ _ _ hwf.mask_none,
    hwf.router_none.symm,
    ite_eq_of_default _ _ _ hwf.ts_none,
    ite_eq_of_default _ _ _ hwf.ns_none,
    hwf.log_none.symm,
    ite_eq_of_default _ _ _ hwf.host_none,
    ite_eq_of_default _ _ _ hwf.domain_none,
    (hwf.bcast_none h28).symm,
    (hwf.req_none h50).symm,
    ite_eq_of_default _ _ _ hwf.lease_none,
    ite_eq_of_default _ _ _ hwf.msg_none,
    ite_eq_of_default _ _ _ hwf.serv_none,
    ite_eq_of_default _ _ _ hwf.param_none,
    ite_eq_of_default _ _ _ hwf.renew_none,
    ite_eq_of_default _ _ _ hwf.rebind_none,
    ite_eq_of_default _ _ _ hwf.cid_none,
    ite_eq_of_default _ _ _ hwf.mtu_none,
    hwf.ntp_none.symm,
    hwpad.symm⟩

/-- Witness: the round trip at the concrete one-option record carrying
message type 5, with every hypothesis discharged at that input. -/
theorem C1_round_trip_witness :
    encodeThenDecode (DhcpOptions.new.set_message_type (some 5)) =
      .ok (DhcpOptions.new.set_message_type (some 5)) :=
  C1_round_trip _ (wf_set_message_type _ DecodedWF_new _ ⟨5, rfl, by decide⟩)
    (by decide) (by decide) rfl (fun h => absurd h (by decide))
    (fun _ hl => nomatch hl)

/-- C1 as stated is false: the record the decoder produces from the WPAD
option bytes `[252, 1, 97]` does not survive the round trip — the encoder
never emits code 252, so the re-decoded record has `wpad = none`. -/
theorem C1_counterexample :
    ∃ oc, dhcpOptionsFromBytes c1CexInput = .ok oc ∧ encodeThenDecode oc ≠ .ok oc := by
  refine ⟨DhcpOptions.new.set_wpad (some [97]), ?_, ?_⟩
  · have hv : validUtf8 [97] = true := by decide
    simp [dhcpOptionsFromBytes, c1CexInput, decodeLoop, parseStringType, hv]
  · have henc : encodeThenDecode (DhcpOptions.new.set_wpad (some [97])) = .ok DhcpOptions.new := by
      simp [encodeThenDecode, encodeOptions, DhcpOptions.set_wpad, DhcpOptions.new,
        encodeChunks, dhcpOptionsFromBytes, decodeLoop]
    intro h
    rw [henc] at h
    have h2 := congrArg DhcpOptions.wpad (RRes.ok.inj h)
    simp [DhcpOptions.set_wpad, DhcpOptions.new] at h2
